import Mathlib

/-!
# SQLExec: the DDL executor and schema catalog

A shallow embedding of `SQLExec.cpp` (create / drop / show handlers and the
dispatcher) over a model of the relation layer it calls, followed by the
properties of the handlers.

* Statements, values, rows and results are plain data.
* The handlers run in the monad `M`: a state transformer over `World` that
  can raise an `Error`.  As in C++, the state changes made before an error is
  raised stay in place, which is what makes the compensation code of
  `create_table` observable.
* The relation layer is not part of `SQLExec.cpp`; it is modelled from the
  specification as slotted storage with a fault schedule deciding which calls
  raise.
-/

namespace SQLExec

/-! ## Data model -/

/-- Name of a relation, a column or an index. -/
abbrev Identifier := String

/-- Modelled from the spec: the tagged value of `storage_engine.h` (integer,
text, boolean). -/
inductive Value where
  | INT (n : Int)
  | TEXT (s : String)
  | BOOLEAN (b : Bool)
  deriving DecidableEq, Repr

/-- The member `s` of a value: the text of a TEXT value, the empty string of
the others. -/
def Value.s : Value → String
  | .TEXT s => s
  | _ => ""

/-- A row: a map from column name to value (`std::map<Identifier, Value>`),
kept as an association list with at most one entry per key. -/
abbrev ValueDict := List (Identifier × Value)

/-- The assignment `row[k] = v`: overwrite the entry of `k`, or add one. -/
def ValueDict.set : ValueDict → Identifier → Value → ValueDict
  | [], k, v => [(k, v)]
  | (k', v') :: rest, k, v =>
    if k' = k then (k, v) :: rest else (k', v') :: ValueDict.set rest k v

/-- The lookup `row.find(k)`. -/
def ValueDict.find : ValueDict → Identifier → Option Value
  | [], _ => none
  | (k', v') :: rest, k => if k' = k then some v' else ValueDict.find rest k

/-- Equality match of a stored row against a `where` row: every field of
`where` is present in the row with an equal value. -/
def ValueDict.matches (row where_ : ValueDict) : Bool :=
  where_.all (fun kv => decide (ValueDict.find row kv.1 = some kv.2))

/-- A reference to a stored row: its slot number in the relation. -/
abbrev Handle := Nat

abbrev Handles := List Handle

/-- The exceptions a handler can meet, all derived from `std::exception`, and
`undefined`, which marks the outcome of the one operation of the file without
defined behaviour: `*handles->begin()` on an empty selection in `drop_table`,
around which no handler runs. -/
inductive Error where
  | SQLExecError (what : String)
  | DbRelationError (what : String)
  | exception (what : String)
  | undefined
  deriving DecidableEq, Repr

/-- The data type of a column attribute. -/
inductive ColumnAttribute where
  | INT
  | TEXT
  | BOOLEAN
  deriving DecidableEq, Repr

abbrev ColumnNames := List Identifier

abbrev ColumnAttributes := List ColumnAttribute

abbrev ValueDicts := List ValueDict

/-- The result of a statement: optional column names, column attributes and
rows, and a message.  `none` is the null pointer of the C++ class. -/
structure QueryResult where
  column_names : Option ColumnNames
  column_attributes : Option ColumnAttributes
  rows : Option ValueDicts
  message : String
  deriving DecidableEq, Repr

/-- The constructor `QueryResult(message)`: a message and nothing else. -/
def QueryResult.ofMessage (message : String) : QueryResult :=
  { column_names := none, column_attributes := none, rows := none, message := message }

/-! ## Parsed statements (the parser's AST, reduced to the fields read here) -/

/-- Declared type of a parsed column definition. -/
inductive DataType where
  | UNKNOWN
  | TEXT
  | INT
  | DOUBLE
  deriving DecidableEq, Repr

/-- A parsed column definition. -/
structure ColumnDefinition where
  name : Identifier
  type : DataType
  deriving DecidableEq, Repr

/-- Kind of a CREATE statement. -/
inductive CreateType where
  | kTable
  | kTableFromTbl
  | kView
  | kIndex
  deriving DecidableEq, Repr

/-- A parsed CREATE statement. -/
structure CreateStatement where
  type : CreateType
  ifNotExists : Bool
  tableName : Identifier
  columns : List ColumnDefinition
  indexName : Identifier
  indexType : Identifier
  indexColumns : List Identifier
  deriving DecidableEq, Repr

/-- Kind of a DROP statement. -/
inductive DropType where
  | kTable
  | kSchema
  | kIndex
  | kView
  | kPreparedStatement
  deriving DecidableEq, Repr

/-- A parsed DROP statement. -/
structure DropStatement where
  type : DropType
  name : Identifier
  indexName : Identifier
  deriving DecidableEq, Repr

/-- Kind of a SHOW statement; `kOther` stands for any value of the enumeration
outside the three named ones. -/
inductive ShowType where
  | kTables
  | kColumns
  | kIndex
  | kOther
  deriving DecidableEq, Repr

/-- A parsed SHOW statement. -/
structure ShowStatement where
  type : ShowType
  tableName : Identifier
  deriving DecidableEq, Repr

/-- A parsed statement, by kind; `other` is every kind but CREATE, DROP and
SHOW. -/
inductive SQLStatement where
  | kStmtCreate (s : CreateStatement)
  | kStmtDrop (s : DropStatement)
  | kStmtShow (s : ShowStatement)
  | other
  deriving DecidableEq, Repr

/-! ## The relation layer -/

/-- Modelled from the spec: the storage of one relation (`heap_storage`, not
in `SQLExec.cpp`).  A relation is a sequence of slots; `insert` appends a slot
holding the row and returns its number as the handle, `del` empties the slot,
so a handle is never issued twice and the live rows keep their insertion
order. -/
abbrev Slots := List (Option ValueDict)

/-- The rows a relation holds, in stored order. -/
def Slots.rows (s : Slots) : ValueDicts := s.filterMap id

/-- Modelled from the spec: the handles of the live rows matching `where_`,
in stored order, numbering the slots from `i`. -/
def Slots.selectFrom : Slots → Nat → ValueDict → Handles
  | [], _, _ => []
  | none :: rest, i, where_ => Slots.selectFrom rest (i + 1) where_
  | some row :: rest, i, where_ =>
    if ValueDict.matches row where_ then i :: Slots.selectFrom rest (i + 1) where_
    else Slots.selectFrom rest (i + 1) where_

/-- Modelled from the spec: the names of the three bootstrap relations
(`Tables::TABLE_NAME`, `Columns::TABLE_NAME`, `Indices::TABLE_NAME` of
`schema_tables.h`). -/
def Tables.TABLE_NAME : Identifier := "_tables"

/-- Modelled from the spec: name of the column catalog. -/
def Columns.TABLE_NAME : Identifier := "_columns"

/-- Modelled from the spec: name of the index catalog. -/
def Indices.TABLE_NAME : Identifier := "_indices"

/-- The state the handlers run in.
* `rel n`: the slots of the relation named `n`; the catalog is `rel "_tables"`,
  `rel "_columns"` and `rel "_indices"`.
* `faults`: the fault schedule of the relation layer.  Every call into the
  relation layer consumes the head of the schedule and raises the error found
  there, if any; an exhausted schedule raises nothing.
* `calls`: the number of calls made into the relation layer so far. -/
structure World where
  rel : Identifier → Slots
  faults : List (Option Error)
  calls : Nat

/-- The relation named `n` replaced by `s`. -/
def World.setRel (w : World) (n : Identifier) (s : Slots) : World :=
  { w with rel := fun m => if m = n then s else w.rel m }

/-- A computation over a state `σ` that either returns or raises.  As in C++,
what was done to the state before an error was raised stays done. -/
def Exec (σ : Type) (α : Type) : Type := σ → Except Error α × σ

/-- Return without effect. -/
def Exec.pure {σ α : Type} (a : α) : Exec σ α := fun s => (Except.ok a, s)

/-- Sequencing: an error raised by the first part skips the second, and the
state reached so far is kept. -/
def Exec.bind {σ α β : Type} (m : Exec σ α) (f : α → Exec σ β) : Exec σ β := fun s =>
  match m s with
  | (Except.ok a, s') => f a s'
  | (Except.error e, s') => (Except.error e, s')

instance (σ : Type) : Monad (Exec σ) where
  pure := Exec.pure
  bind := Exec.bind

/-- The statement `throw e`. -/
def Exec.throw {σ α : Type} (e : Error) : Exec σ α := fun s => (Except.error e, s)

/-- The block `try { body } catch (exception &e) { handler }`. -/
def Exec.tryCatch {σ α : Type} (body : Exec σ α) (handler : Error → Exec σ α) : Exec σ α :=
  fun s =>
    match body s with
    | (Except.ok a, s') => (Except.ok a, s')
    | (Except.error e, s') => handler e s'

/-- The block `try { body } catch (...) {}`: an error of `body` is swallowed. -/
def Exec.trySwallow {σ : Type} (body : Exec σ Unit) : Exec σ Unit := fun s =>
  (Except.ok (), (body s).2)

/-- The handlers run over the world. -/
abbrev M : Type → Type := Exec World

/-- A block that declares a local variable `l` which outlives an error raised
inside the block: the block runs over the pair of the local and the world. -/
abbrev Scope (L : Type) : Type → Type := Exec (L × World)

/-- Run a computation on the world inside a scope. -/
def Scope.run {L α : Type} (m : M α) : Scope L α := fun s =>
  ((m s.2).1, (s.1, (m s.2).2))

/-- Read the local variable. -/
def Scope.get {L : Type} : Scope L L := fun s => (Except.ok s.1, s)

/-- Change the local variable. -/
def Scope.modify {L : Type} (f : L → L) : Scope L Unit := fun s => (Except.ok (), (f s.1, s.2))

/-- Enter a scope with the local initialised to `init`, and drop the local at
the exit. -/
def Scope.enter {L α : Type} (init : L) (m : Scope L α) : M α := fun w =>
  ((m (init, w)).1, (m (init, w)).2.2)

/-- The error scheduled for the next call into the relation layer, if any. -/
def nextFault : List (Option Error) → Option Error
  | some e :: _ => some e
  | _ => none

/-- The world after one more call into the relation layer: the call is
counted and the head of the fault schedule is consumed. -/
def World.tick (w : World) : World :=
  { w with faults := w.faults.tail, calls := w.calls + 1 }

/-- Modelled from the spec: a call into the relation layer.  It is counted,
takes the head of the fault schedule, and either raises the scheduled error,
leaving the relations as they are, or runs `op`. -/
def relationCall {α : Type} (op : World → Except Error α × World) : M α := fun w =>
  match nextFault w.faults with
  | some e => (Except.error e, w.tick)
  | none => op w.tick

/-- A reference to a relation, as returned by `get_table`: the relation's
name. -/
abbrev DbRelation := Identifier

/-- Modelled from the spec: `Tables::get_table(name)`, the lookup of a
relation by name. -/
def get_table (name : Identifier) : M DbRelation :=
  relationCall (fun w => (Except.ok name, w))

/-- Modelled from the spec: `insert(row) -> handle`.  The row goes into a new
slot at the end of the relation. -/
def DbRelation.insert (r : DbRelation) (row : ValueDict) : M Handle :=
  relationCall (fun w => (Except.ok (w.rel r).length, w.setRel r (w.rel r ++ [some row])))

/-- Modelled from the spec: `select(where) -> matching handles`. -/
def DbRelation.select (r : DbRelation) (where_ : ValueDict) : M Handles :=
  relationCall (fun w => (Except.ok (Slots.selectFrom (w.rel r) 0 where_), w))

/-- Modelled from the spec: `select() -> all handles`. -/
def DbRelation.selectAll (r : DbRelation) : M Handles :=
  DbRelation.select r []

/-- Modelled from the spec: `delete(handle)`.  The slot is emptied. -/
def DbRelation.del (r : DbRelation) (h : Handle) : M Unit :=
  relationCall (fun w => (Except.ok (), w.setRel r ((w.rel r).set h none)))

/-- The fields `column_names` of a row, collected into `acc`; a relation error
when the row lacks one of them. -/
def projectRow (row : ValueDict) : ColumnNames → ValueDict → Except Error ValueDict
  | [], acc => Except.ok acc
  | c :: cs, acc =>
    match ValueDict.find row c with
    | some v => projectRow row cs (ValueDict.set acc c v)
    | none => Except.error (Error.DbRelationError
        ("table does not have column named '" ++ c ++ "'"))

/-- Modelled from the spec: `project(handle, column_names) -> row`.  A relation
error when the handle refers to no live row. -/
def DbRelation.project (r : DbRelation) (h : Handle) (column_names : ColumnNames) :
    M ValueDict :=
  relationCall (fun w =>
    match (w.rel r)[h]? with
    | some (some row) => (projectRow row column_names [], w)
    | _ => (Except.error (Error.DbRelationError "no such record"), w))

/-- Modelled from the spec: `create()`, the creation of the physical
structure of a relation.  It stores no row. -/
def DbRelation.create (_r : DbRelation) : M Unit :=
  relationCall (fun w => (Except.ok (), w))

/-- Modelled from the spec: `create_if_not_exists()`.  It stores no row. -/
def DbRelation.create_if_not_exists (_r : DbRelation) : M Unit :=
  relationCall (fun w => (Except.ok (), w))

/-- Modelled from the spec: `drop()`, the removal of the physical structure
of a relation, with the rows it holds. -/
def DbRelation.drop (r : DbRelation) : M Unit :=
  relationCall (fun w => (Except.ok (), w.setRel r []))

/-! ## The handlers of `SQLExec.cpp` -/

/-- The function `SQLExec::column_definition`: name and attribute of a parsed
column definition; only INT and TEXT are recognised. -/
def column_definition (col : ColumnDefinition) : M (Identifier × ColumnAttribute) :=
  match col.type with
  | DataType.INT => pure (col.name, ColumnAttribute.INT)
  | DataType.TEXT => pure (col.name, ColumnAttribute.TEXT)
  | _ => Exec.throw (Error.SQLExecError "unrecognized data type")

/-- The first loop of `create_table`: translate every column definition, in
order, into the parallel lists `column_names` and `column_attributes`. -/
def column_definitions : List ColumnDefinition → M (ColumnNames × ColumnAttributes)
  | [] => pure ([], [])
  | col :: rest => do
    let na ← column_definition col
    let r ← column_definitions rest
    pure (na.1 :: r.1, na.2 :: r.2)

/-- The second loop of `create_table`: one insert into `_columns` per column,
the handle pushed onto the local `c_handles`.  The C++ loop runs an `unsigned
int` index over the two parallel lists; the model walks the lists in step,
which is the same loop for a column list shorter than 2^32. -/
def insert_columns (columns : DbRelation) :
    ColumnNames → ColumnAttributes → ValueDict → Scope Handles Unit
  | n :: ns, a :: as, row => do
    let row := ValueDict.set row "column_name" (Value.TEXT n)
    let row := ValueDict.set row "data_type"
      (Value.TEXT (if a = ColumnAttribute.INT then "INT" else "TEXT"))
    let h ← Scope.run (DbRelation.insert columns row)
    Scope.modify (fun c_handles => c_handles ++ [h])
    insert_columns columns ns as row
  | _, _, _ => pure ()

/-- The loop `for (handle : handles) r.del(handle)`. -/
def del_all (r : DbRelation) : Handles → M Unit
  | [] => pure ()
  | h :: hs => do
    DbRelation.del r h
    del_all r hs

/-- The function `SQLExec::create_table`. -/
def create_table (statement : CreateStatement) : M QueryResult := do
  let table_name := statement.tableName
  let cols ← column_definitions statement.columns
  let column_names := cols.1
  let column_attributes := cols.2
  -- Add to schema: _tables and _columns
  let row : ValueDict := ValueDict.set [] "table_name" (Value.TEXT table_name)
  let t_handle ← DbRelation.insert Tables.TABLE_NAME row
  Exec.tryCatch
    (Scope.enter ([] : Handles) do
      let columns ← Scope.run (get_table Columns.TABLE_NAME)
      Exec.tryCatch
        (do
          insert_columns columns column_names column_attributes row
          -- Finally, actually create the relation
          let table ← Scope.run (get_table table_name)
          if statement.ifNotExists then
            Scope.run (DbRelation.create_if_not_exists table)
          else
            Scope.run (DbRelation.create table))
        (fun e => do
          -- attempt to remove from _columns
          let c_handles ← Scope.get
          Exec.trySwallow (Scope.run (del_all columns c_handles))
          Exec.throw e))
    (fun e => do
      -- attempt to remove from _tables
      Exec.trySwallow (DbRelation.del Tables.TABLE_NAME t_handle)
      Exec.throw e)
  pure (QueryResult.ofMessage ("created " ++ table_name))

/-- The loop of `create_index` over the indexed columns: the 16-bit counter
`idx` is incremented and one row is inserted per column.  (The handles are
pushed onto a list that is deleted right after the loop; they are not kept
here.) -/
def insert_index_columns (indices : DbRelation) : List Identifier → ValueDict → Nat → M Unit
  | [], _, _ => pure ()
  | col :: rest, row, idx => do
    let row := ValueDict.set row "column_name" (Value.TEXT col)
    -- increase idx
    let idx := (idx + 1) % 65536
    let row := ValueDict.set row "seq_in_index" (Value.INT idx)
    let _ ← DbRelation.insert indices row
    insert_index_columns indices rest row idx

/-- The function `SQLExec::create_index`. -/
def create_index (statement : CreateStatement) : M QueryResult := do
  let table_name := statement.tableName
  let index_name := statement.indexName
  let index_type := statement.indexType
  -- Add to schema: _indices
  let row : ValueDict := ValueDict.set [] "table_name" (Value.TEXT table_name)
  let row := ValueDict.set row "index_name" (Value.TEXT index_name)
  let row := ValueDict.set row "index_type" (Value.TEXT index_type)
  let row :=
    if index_type = "BTREE" then ValueDict.set row "is_unique" (Value.BOOLEAN true)
    else ValueDict.set row "is_unique" (Value.BOOLEAN false)
  let idx : Nat := 0
  let row := ValueDict.set row "seq_in_index" (Value.INT idx)
  let indices ← get_table Indices.TABLE_NAME
  -- check if the index on given table already created
  let where_ : ValueDict := ValueDict.set [] "table_name" (Value.TEXT table_name)
  let where_ := ValueDict.set where_ "index_name" (Value.TEXT index_name)
  let handles ← DbRelation.select indices where_
  -- the number of returned matching rows
  let n := handles.length
  if n > 0 then
    pure (QueryResult.ofMessage ("Error: DbRelationError: duplicate index " ++ table_name))
  else do
    insert_index_columns indices statement.indexColumns row idx
    pure (QueryResult.ofMessage ("created index " ++ index_name))

/-- The function `SQLExec::create`. -/
def create (statement : CreateStatement) : M QueryResult :=
  match statement.type with
  | CreateType.kTable => create_table statement
  | CreateType.kIndex => create_index statement
  | _ => pure (QueryResult.ofMessage "Only CREATE TABLE and CREATE INDEX are implemented")

/-- The function `SQLExec::drop_table`.  Dereferencing `handles->begin()` of
an empty selection has no defined behaviour. -/
def drop_table (statement : DropStatement) : M QueryResult := do
  let table_name := statement.name
  if table_name = Tables.TABLE_NAME ∨ table_name = Columns.TABLE_NAME then
    Exec.throw (Error.SQLExecError "cannot drop a schema table")
  else do
    let where_ : ValueDict := ValueDict.set [] "table_name" (Value.TEXT table_name)
    -- get the table
    let table ← get_table table_name
    -- remove from _columns schema
    let columns ← get_table Columns.TABLE_NAME
    let handles ← DbRelation.select columns where_
    del_all columns handles
    -- remove table
    DbRelation.drop table
    -- finally, remove from _tables schema
    let handles ← DbRelation.select Tables.TABLE_NAME where_
    match handles with
    | [] => Exec.throw Error.undefined
    | h :: _ => DbRelation.del Tables.TABLE_NAME h
    pure (QueryResult.ofMessage ("dropped " ++ table_name))

/-- The function `SQLExec::drop_index`. -/
def drop_index (statement : DropStatement) : M QueryResult := do
  let table_name := statement.name
  let index_name := statement.indexName
  if table_name = Tables.TABLE_NAME ∨ table_name = Columns.TABLE_NAME
      ∨ table_name = Indices.TABLE_NAME then
    Exec.throw (Error.SQLExecError "cannot drop index for schema table")
  else do
    -- the query filter
    let where_ : ValueDict := ValueDict.set [] "table_name" (Value.TEXT table_name)
    let where_ := ValueDict.set where_ "index_name" (Value.TEXT index_name)
    -- remove from _indices schema
    let indices ← get_table Indices.TABLE_NAME
    let i_handles ← DbRelation.select indices where_
    del_all indices i_handles
    pure (QueryResult.ofMessage ("dropped index " ++ index_name))

/-- The function `SQLExec::drop`. -/
def drop (statement : DropStatement) : M QueryResult :=
  match statement.type with
  | DropType.kTable => drop_table statement
  | DropType.kIndex => drop_index statement
  | _ => pure (QueryResult.ofMessage "Only DROP TABLE and DROP INDEX are implemented")

/-- The loop `for (handle : handles) rows->push_back(r.project(handle, column_names))`
of `show_index` and `show_columns`. -/
def project_all (r : DbRelation) (column_names : ColumnNames) : Handles → M ValueDicts
  | [] => pure []
  | h :: hs => do
    let row ← DbRelation.project r h column_names
    let rows ← project_all r column_names hs
    pure (row :: rows)

/-- Arithmetic of `u_long`: unsigned, 64 bits. -/
def u_long_sub (a b : Nat) : Nat := (a % 2 ^ 64 + 2 ^ 64 - b % 2 ^ 64) % 2 ^ 64

/-- The function `std::to_string` on an unsigned integer. -/
def to_string (n : Nat) : String := toString n

/-- The function `SQLExec::show_index`. -/
def show_index (statement : ShowStatement) : M QueryResult := do
  let table_name := statement.tableName
  let column_names : ColumnNames :=
    ["table_name", "index_name", "column_name", "seq_in_index", "index_type", "is_unique"]
  let column_attributes : ColumnAttributes := [ColumnAttribute.TEXT]
  let indices ← get_table Indices.TABLE_NAME
  let where_ : ValueDict := ValueDict.set [] "table_name" (Value.TEXT table_name)
  let i_handles ← DbRelation.select indices where_
  let n := i_handles.length
  let rows ← project_all indices column_names i_handles
  let ret := "successfully returned "
  let ret := ret ++ to_string n
  let ret := ret ++ " rows"
  pure { column_names := some column_names, column_attributes := some column_attributes,
         rows := some rows, message := ret }

/-- The lookup `row->at(k)`, which raises `std::out_of_range` on a missing
key. -/
def ValueDict.at (row : ValueDict) (k : Identifier) : M Value :=
  match ValueDict.find row k with
  | some v => pure v
  | none => Exec.throw (Error.exception "map::at")

/-- The loop of `show_tables`: project every row of `_tables` and keep those
whose name is not a bootstrap relation name. -/
def show_tables_rows (column_names : ColumnNames) : Handles → M ValueDicts
  | [] => pure []
  | h :: hs => do
    let row ← DbRelation.project Tables.TABLE_NAME h column_names
    let table_name := (← ValueDict.at row "table_name").s
    let rows ← show_tables_rows column_names hs
    if table_name ≠ Tables.TABLE_NAME ∧ table_name ≠ Columns.TABLE_NAME
        ∧ table_name ≠ Indices.TABLE_NAME then
      pure (row :: rows)
    else
      pure rows

/-- The function `SQLExec::show_tables`. -/
def show_tables : M QueryResult := do
  let column_names : ColumnNames := ["table_name"]
  let column_attributes : ColumnAttributes := [ColumnAttribute.TEXT]
  let handles ← DbRelation.selectAll Tables.TABLE_NAME
  let n := u_long_sub handles.length 3
  let rows ← show_tables_rows column_names handles
  pure { column_names := some column_names, column_attributes := some column_attributes,
         rows := some rows,
         message := "successfully returned " ++ to_string n ++ " rows" }

/-- The function `SQLExec::show_columns`. -/
def show_columns (statement : ShowStatement) : M QueryResult := do
  let columns ← get_table Columns.TABLE_NAME
  let column_names : ColumnNames := ["table_name", "column_name", "data_type"]
  let column_attributes : ColumnAttributes := [ColumnAttribute.TEXT]
  let where_ : ValueDict := ValueDict.set [] "table_name" (Value.TEXT statement.tableName)
  let handles ← DbRelation.select columns where_
  let n := handles.length
  let rows ← project_all columns column_names handles
  pure { column_names := some column_names, column_attributes := some column_attributes,
         rows := some rows,
         message := "successfully returned " ++ to_string n ++ " rows" }

/-- The function `SQLExec::show`. -/
def show_ (statement : ShowStatement) : M QueryResult :=
  match statement.type with
  | ShowType.kTables => show_tables
  | ShowType.kColumns => show_columns statement
  | ShowType.kIndex => show_index statement
  | ShowType.kOther => Exec.throw (Error.SQLExecError "unrecognized SHOW type")

/-- The function `SQLExec::execute`: dispatch on the statement kind; a
`DbRelationError` of the handler is raised again as an `SQLExecError`, every
other error passes through.  (The lazy construction of the `Tables` accessor
has no effect on the relations.) -/
def execute (statement : SQLStatement) : M QueryResult :=
  Exec.tryCatch
    (match statement with
     | SQLStatement.kStmtCreate s => create s
     | SQLStatement.kStmtDrop s => drop s
     | SQLStatement.kStmtShow s => show_ s
     | SQLStatement.other => pure (QueryResult.ofMessage "not implemented"))
    (fun e =>
      match e with
      | Error.DbRelationError what =>
        Exec.throw (Error.SQLExecError ("DbRelationError: " ++ what))
      | e => Exec.throw e)

/-! ## Vocabulary of the properties -/

/-- No call into the relation layer raises. -/
def NoFaults (fs : List (Option Error)) : Prop := ∀ f ∈ fs, f = none

instance (fs : List (Option Error)) : Decidable (NoFaults fs) := by
  unfold NoFaults; infer_instance

/-- The `_tables` row of table `t`. -/
def tables_row (t : Identifier) : ValueDict := [("table_name", Value.TEXT t)]

/-- The `_columns` row of column `c` of table `t`. -/
def columns_row (t : Identifier) (c : ColumnDefinition) : ValueDict :=
  [("table_name", Value.TEXT t), ("column_name", Value.TEXT c.name),
   ("data_type", Value.TEXT (if c.type = DataType.INT then "INT" else "TEXT"))]

/-- A column definition whose declared type is INT or TEXT. -/
def Supported (c : ColumnDefinition) : Prop := c.type = DataType.INT ∨ c.type = DataType.TEXT

instance (c : ColumnDefinition) : Decidable (Supported c) := by
  unfold Supported; infer_instance

/-- The attribute `column_definition` gives a supported column. -/
def attribute_of (c : ColumnDefinition) : ColumnAttribute :=
  if c.type = DataType.INT then ColumnAttribute.INT else ColumnAttribute.TEXT

/-- A row of `create_table` before a column is written into it: whatever it
holds under `column_name` and `data_type`, writing both gives the `_columns`
row. -/
def ColumnsRowBase (t : Identifier) (row : ValueDict) : Prop :=
  ∀ a b : Value,
    ValueDict.set (ValueDict.set row "column_name" a) "data_type" b
      = [("table_name", Value.TEXT t), ("column_name", a), ("data_type", b)]

/-- The world after a `create_table` of table `t` with columns `cols` in which
no call into the relation layer raised. -/
def World.created (w : World) (t : Identifier) (cols : List ColumnDefinition) : World :=
  { rel := fun m =>
      if m = Columns.TABLE_NAME then
        w.rel Columns.TABLE_NAME ++ cols.map (fun c => some (columns_row t c))
      else if m = Tables.TABLE_NAME then
        w.rel Tables.TABLE_NAME ++ [some (tables_row t)]
      else w.rel m,
    faults := w.faults.drop (cols.length + 4),
    calls := w.calls + (cols.length + 4) }

/-- The initial catalog: `_tables` holds the three bootstrap rows and no other
relation holds a row; `fs` is the fault schedule. -/
def World.initial (fs : List (Option Error)) : World :=
  { rel := fun m =>
      if m = Tables.TABLE_NAME then
        [some (tables_row Tables.TABLE_NAME), some (tables_row Columns.TABLE_NAME),
         some (tables_row Indices.TABLE_NAME)]
      else [],
    faults := fs,
    calls := 0 }

/-- The statement `CREATE TABLE t (a INT, b TEXT)`. -/
def create_t_a_b : CreateStatement :=
  { type := CreateType.kTable, ifNotExists := false, tableName := "t",
    columns := [{ name := "a", type := DataType.INT }, { name := "b", type := DataType.TEXT }],
    indexName := "", indexType := "", indexColumns := [] }

/-- The rows `project_all` returns when no call raises: the projection of
every row, or the error of the first row that lacks a column. -/
def project_rows (column_names : ColumnNames) : ValueDicts → Except Error ValueDicts
  | [] => Except.ok []
  | row :: rest =>
    match projectRow row column_names [] with
    | Except.error e => Except.error e
    | Except.ok p =>
      match project_rows column_names rest with
      | Except.error e => Except.error e
      | Except.ok ps => Except.ok (p :: ps)

/-- The name is none of the three bootstrap relation names. -/
def not_bootstrap (n : Identifier) : Bool :=
  decide (n ≠ Tables.TABLE_NAME ∧ n ≠ Columns.TABLE_NAME ∧ n ≠ Indices.TABLE_NAME)

/-- The rows the loop of `show_tables` returns over the given stored rows
when no call raises. -/
def show_tables_rows_of (column_names : ColumnNames) : ValueDicts → Except Error ValueDicts
  | [] => Except.ok []
  | row :: rest =>
    match projectRow row column_names [] with
    | Except.error e => Except.error e
    | Except.ok p =>
      match ValueDict.find p "table_name" with
      | none => Except.error (Error.exception "map::at")
      | some v =>
        match show_tables_rows_of column_names rest with
        | Except.error e => Except.error e
        | Except.ok ps => Except.ok (if not_bootstrap v.s then p :: ps else ps)

/-- The handles `hs` refer, in order, to the live rows `rows` of the slots. -/
def Refers (s : Slots) : Handles → ValueDicts → Prop
  | [], [] => True
  | h :: hs, row :: rows => s[h]? = some (some row) ∧ Refers s hs rows
  | _, _ => False

/-- The result of `show_columns` for table `t` over the stored rows of
`_columns` when no call raises. -/
def show_columns_of (t : Identifier) (rows : ValueDicts) : Except Error QueryResult :=
  match project_rows ["table_name", "column_name", "data_type"]
      (rows.filter (fun row => ValueDict.matches row (tables_row t))) with
  | Except.error e => Except.error e
  | Except.ok ps =>
    Except.ok { column_names := some ["table_name", "column_name", "data_type"],
                column_attributes := some [ColumnAttribute.TEXT],
                rows := some ps,
                message := "successfully returned "
                  ++ to_string (rows.filter (fun row => ValueDict.matches row (tables_row t))).length
                  ++ " rows" }

/-- The result of `show_index` for table `t` over the stored rows of
`_indices` when no call raises. -/
def show_index_of (t : Identifier) (rows : ValueDicts) : Except Error QueryResult :=
  match project_rows
      ["table_name", "index_name", "column_name", "seq_in_index", "index_type", "is_unique"]
      (rows.filter (fun row => ValueDict.matches row (tables_row t))) with
  | Except.error e => Except.error e
  | Except.ok ps =>
    Except.ok { column_names := some
                  ["table_name", "index_name", "column_name", "seq_in_index", "index_type",
                   "is_unique"],
                column_attributes := some [ColumnAttribute.TEXT],
                rows := some ps,
                message := "successfully returned "
                  ++ to_string (rows.filter (fun row => ValueDict.matches row (tables_row t))).length
                  ++ " rows" }

/-- The result of `show_tables` over the stored rows of `_tables` when no call
raises. -/
def show_tables_of (rows : ValueDicts) : Except Error QueryResult :=
  match show_tables_rows_of ["table_name"] rows with
  | Except.error e => Except.error e
  | Except.ok ps =>
    Except.ok { column_names := some ["table_name"],
                column_attributes := some [ColumnAttribute.TEXT],
                rows := some ps,
                message := "successfully returned " ++ to_string (u_long_sub rows.length 3)
                  ++ " rows" }

/-- The computation leaves every relation as it is, whether it returns or
raises. -/
def Keeps {α : Type} (m : M α) : Prop := ∀ w : World, (m w).2.rel = w.rel

/-- The statement `SHOW COLUMNS FROM t`. -/
def show_columns_t : ShowStatement := { type := ShowType.kColumns, tableName := "t" }

/-- The statement `CREATE TABLE t (a INT, x DOUBLE)`. -/
def create_t_a_x_double : CreateStatement :=
  { type := CreateType.kTable, ifNotExists := false, tableName := "t",
    columns := [{ name := "a", type := DataType.INT }, { name := "x", type := DataType.DOUBLE }],
    indexName := "", indexType := "", indexColumns := [] }

/-- The `where` row of `create_index` and `drop_index`: the rows of index `i`
on table `t`. -/
def index_where (t i : Identifier) : ValueDict :=
  [("table_name", Value.TEXT t), ("index_name", Value.TEXT i)]

/-- The `_indices` row of the column `c`, at position `seq`, of the index `i`
of type `ty` on table `t`. -/
def indices_row (t i ty c : Identifier) (seq : Nat) : ValueDict :=
  [("table_name", Value.TEXT t), ("index_name", Value.TEXT i), ("index_type", Value.TEXT ty),
   ("is_unique", Value.BOOLEAN (decide (ty = "BTREE"))), ("seq_in_index", Value.INT seq),
   ("column_name", Value.TEXT c)]

/-- A row of `create_index` before a column is written into it: whatever it
holds under `column_name` and `seq_in_index`, writing both gives the
`_indices` row. -/
def IndicesRowBase (t i ty : Identifier) (row : ValueDict) : Prop :=
  ∀ (c : Identifier) (seq : Nat),
    ValueDict.set (ValueDict.set row "column_name" (Value.TEXT c)) "seq_in_index"
        (Value.INT seq)
      = indices_row t i ty c seq

/-- The statement `CREATE INDEX idx ON t USING BTREE (b, a)`. -/
def create_idx_b_a : CreateStatement :=
  { type := CreateType.kIndex, ifNotExists := false, tableName := "t", columns := [],
    indexName := "idx", indexType := "BTREE", indexColumns := ["b", "a"] }

/-- A world whose `_indices` holds the two rows of the index `idx` on `t`. -/
def World.with_idx (fs : List (Option Error)) : World :=
  { rel := fun m =>
      if m = Indices.TABLE_NAME then
        [some (indices_row "t" "idx" "BTREE" "b" 1), some (indices_row "t" "idx" "BTREE" "a" 2)]
      else if m = Tables.TABLE_NAME then
        [some (tables_row Tables.TABLE_NAME), some (tables_row Columns.TABLE_NAME),
         some (tables_row Indices.TABLE_NAME), some (tables_row "t")]
      else [],
    faults := fs,
    calls := 0 }

/-- The slots after the deletion of every live row matching `where_`. -/
def Slots.erase_matching (s : Slots) (where_ : ValueDict) : Slots :=
  s.map (fun x =>
    match x with
    | some row => if ValueDict.matches row where_ then none else some row
    | none => none)

/-- The slots after the deletion of the first live row matching `where_`. -/
def Slots.erase_first_matching : Slots → ValueDict → Slots
  | [], _ => []
  | none :: rest, where_ => none :: Slots.erase_first_matching rest where_
  | some row :: rest, where_ =>
    if ValueDict.matches row where_ then none :: rest
    else some row :: Slots.erase_first_matching rest where_

/-- The slots after the deletion of the handles `hs`, in order. -/
def Slots.del_handles (s : Slots) (hs : Handles) : Slots :=
  hs.foldl (fun s h => s.set h none) s

/-- The world after a `drop_table` of table `t` in which no call into the
relation layer raised and `_tables` held a row of `t`. -/
def World.dropped (w : World) (t : Identifier) : World :=
  { rel := fun m =>
      if m = Tables.TABLE_NAME then
        Slots.erase_first_matching (w.rel Tables.TABLE_NAME) (tables_row t)
      else if m = t then []
      else if m = Columns.TABLE_NAME then
        Slots.erase_matching (w.rel Columns.TABLE_NAME) (tables_row t)
      else w.rel m,
    faults := w.faults.drop
      ((Slots.selectFrom (w.rel Columns.TABLE_NAME) 0 (tables_row t)).length + 6),
    calls := w.calls
      + ((Slots.selectFrom (w.rel Columns.TABLE_NAME) 0 (tables_row t)).length + 6) }

/-- A catalog without any row; `fs` is the fault schedule. -/
def World.empty (fs : List (Option Error)) : World :=
  { rel := fun _ => [], faults := fs, calls := 0 }

/-- A catalog whose `_tables` has no row for `_indices` while `_indices` holds
the two rows of the index `idx` on `t`. -/
def World.unlisted_indices (fs : List (Option Error)) : World :=
  { rel := fun m =>
      if m = Indices.TABLE_NAME then
        [some (indices_row "t" "idx" "BTREE" "b" 1), some (indices_row "t" "idx" "BTREE" "a" 2)]
      else if m = Tables.TABLE_NAME then
        [some (tables_row Tables.TABLE_NAME), some (tables_row Columns.TABLE_NAME),
         some (tables_row "t")]
      else [],
    faults := fs,
    calls := 0 }

/-- The statement `CREATE TABLE IF NOT EXISTS n (a INT)`. -/
def create_a (n : Identifier) : CreateStatement :=
  { type := CreateType.kTable, ifNotExists := true, tableName := n,
    columns := [{ name := "a", type := DataType.INT }],
    indexName := "", indexType := "", indexColumns := [] }

/-- The statement `DROP TABLE n`. -/
def drop_table_of (n : Identifier) : DropStatement :=
  { type := DropType.kTable, name := n, indexName := "" }

/-- The world `w` under the fault schedule `fs`. -/
def World.with_faults (w : World) (fs : List (Option Error)) : World :=
  { w with faults := fs }

/-- The statement `SHOW TABLES`. -/
def show_tables_stmt : ShowStatement := { type := ShowType.kTables, tableName := "" }

/-- The statement `DROP INDEX idx FROM t`. -/
def drop_idx : DropStatement := { type := DropType.kIndex, name := "t", indexName := "idx" }

/-- The values the 16-bit counter `idx` of `create_index` takes after each of
`n` increments, starting from the value `idx`. -/
def seq_values : Nat → Nat → List Nat
  | _, 0 => []
  | idx, n + 1 => (idx + 1) % 65536 :: seq_values ((idx + 1) % 65536) n

/-- The statement `CREATE INDEX idx ON t USING BTREE (a, ..., a)` with 65536
column names. -/
def create_idx_65536 : CreateStatement :=
  { type := CreateType.kIndex, ifNotExists := false, tableName := "t", columns := [],
    indexName := "idx", indexType := "BTREE", indexColumns := List.replicate 65536 "a" }

/-- Fault erasure: whenever the computation returns from a state `s`, it
returns the same value from every state `t` related to `s` by `R` and
satisfying `Q`, and reaches a state again related and satisfying `Q`.  With `R`
the equality of the relations and `Q` the absence of faults, a run that
returned did what the run without faults does. -/
def Erasable {σ α : Type} (R : σ → σ → Prop) (Q : σ → Prop) (m : Exec σ α) : Prop :=
  ∀ (s t : σ) (a : α) (u : σ), R s t → Q t → m s = (Except.ok a, u) →
    ∃ v : σ, m t = (Except.ok a, v) ∧ R u v ∧ Q v

/-- Two worlds hold the same relations. -/
def SameRel (w v : World) : Prop := w.rel = v.rel

/-- No call into the relation layer will raise in the world. -/
def Quiet (v : World) : Prop := NoFaults v.faults

/-- Two states of a scope hold the same local and the same relations. -/
def SameRelIn (L : Type) (s t : L × World) : Prop := s.1 = t.1 ∧ s.2.rel = t.2.rel

/-- No call into the relation layer will raise in the world of the scope. -/
def QuietIn (L : Type) (t : L × World) : Prop := NoFaults t.2.faults

/-- An operation of the relation layer that reads and writes the relations
only: its result and the relations it leaves are determined by the relations
it finds, and it leaves the fault schedule alone. -/
def RelationOnly {α : Type} (op : World → Except Error α × World) : Prop :=
  ∀ w v : World, w.rel = v.rel →
    (op w).1 = (op v).1 ∧ (op w).2.rel = (op v).2.rel ∧ (op v).2.faults = v.faults

/-- Every row of `rows` has a `table_name`, and some row of `trows` has the
same `table_name`. -/
def References (rows trows : ValueDicts) : Prop :=
  ∀ row ∈ rows, (ValueDict.find row "table_name").isSome = true
    ∧ ∃ trow ∈ trows, ValueDict.find trow "table_name" = ValueDict.find row "table_name"

instance (rows trows : ValueDicts) : Decidable (References rows trows) := by
  unfold References; infer_instance

/-- The invariant I2: every row of `_columns` has a `table_name` that appears
in some row of `_tables`. -/
def ColumnsReferTables (w : World) : Prop :=
  References (w.rel Columns.TABLE_NAME).rows (w.rel Tables.TABLE_NAME).rows

instance (w : World) : Decidable (ColumnsReferTables w) := by
  unfold ColumnsReferTables; infer_instance

/-- The first half of the invariant I3: every row of `_indices` has a
`table_name` that appears in some row of `_tables`. -/
def IndicesReferTables (w : World) : Prop :=
  References (w.rel Indices.TABLE_NAME).rows (w.rel Tables.TABLE_NAME).rows

instance (w : World) : Decidable (IndicesReferTables w) := by
  unfold IndicesReferTables; infer_instance

/-- No row of `_indices` names a bootstrap relation as its table. -/
def NoBootstrapIndex (w : World) : Prop :=
  ∀ row ∈ (w.rel Indices.TABLE_NAME).rows,
    ValueDict.find row "table_name" ≠ some (Value.TEXT Tables.TABLE_NAME)
      ∧ ValueDict.find row "table_name" ≠ some (Value.TEXT Columns.TABLE_NAME)
      ∧ ValueDict.find row "table_name" ≠ some (Value.TEXT Indices.TABLE_NAME)

instance (w : World) : Decidable (NoBootstrapIndex w) := by
  unfold NoBootstrapIndex; infer_instance

/-- The worlds reachable from `w0` by statements that `execute` completed
with a result, each run under any fault schedule, each allowed by `allowed` in
the world it ran in. -/
inductive ReachableFrom (allowed : World → SQLStatement → Prop) (w0 : World) : World → Prop
  | start : ReachableFrom allowed w0 w0
  | step (w : World) (fs : List (Option Error)) (statement : SQLStatement) (r : QueryResult)
      (u : World) :
      ReachableFrom allowed w0 w → allowed w statement →
      execute statement (w.with_faults fs) = (Except.ok r, u) → ReachableFrom allowed w0 u

/-- Every statement is allowed. -/
def any_statement (_w : World) (_statement : SQLStatement) : Prop := True

/-- The relations after a `create_index` that inserted its rows. -/
def indexed_rel (w : World) (statement : CreateStatement) : Identifier → Slots :=
  fun m =>
    if m = Indices.TABLE_NAME then
      w.rel Indices.TABLE_NAME
        ++ List.zipWith (fun c seq => some (indices_row statement.tableName statement.indexName
            statement.indexType c seq))
          statement.indexColumns (seq_values 0 statement.indexColumns.length)
    else w.rel m

/-- The relations after a `drop_index`. -/
def unindexed_rel (w : World) (statement : DropStatement) : Identifier → Slots :=
  fun m =>
    if m = Indices.TABLE_NAME then
      Slots.erase_matching (w.rel Indices.TABLE_NAME)
        (index_where statement.name statement.indexName)
    else w.rel m

/-- What a statement that `execute` completed with a result has done to the
relations of the world `w` it ran in, `u` being the world it left. -/
def Effect (w : World) (statement : SQLStatement) (u : World) : Prop :=
  match statement with
  | SQLStatement.kStmtCreate s =>
    match s.type with
    | CreateType.kTable => u.rel = (w.created s.tableName s.columns).rel
    | CreateType.kIndex => u.rel = w.rel ∨ u.rel = indexed_rel w s
    | _ => u.rel = w.rel
  | SQLStatement.kStmtDrop s =>
    match s.type with
    | DropType.kTable =>
      s.name ≠ Tables.TABLE_NAME ∧ s.name ≠ Columns.TABLE_NAME
        ∧ (∃ row ∈ (w.rel Tables.TABLE_NAME).rows,
            ValueDict.matches row (tables_row s.name) = true)
        ∧ u.rel = (w.dropped s.name).rel
    | DropType.kIndex => u.rel = unindexed_rel w s
    | _ => u.rel = w.rel
  | SQLStatement.kStmtShow _ => u.rel = w.rel
  | SQLStatement.other => u.rel = w.rel

/-- The statement `CREATE INDEX idx ON _tables USING BTREE (table_name)`. -/
def create_idx_on_tables : CreateStatement :=
  { type := CreateType.kIndex, ifNotExists := false, tableName := Tables.TABLE_NAME,
    columns := [], indexName := "idx", indexType := "BTREE", indexColumns := ["table_name"] }

/-- The statements that refer to listed tables only: a CREATE INDEX names a
table that has a row in `_tables`, and a DROP TABLE names a table that no row
of `_indices` refers to. -/
def refers_to_listed_tables (w : World) (statement : SQLStatement) : Prop :=
  match statement with
  | SQLStatement.kStmtCreate s =>
    s.type = CreateType.kIndex →
      ∃ trow ∈ (w.rel Tables.TABLE_NAME).rows,
        ValueDict.find trow "table_name" = some (Value.TEXT s.tableName)
  | SQLStatement.kStmtDrop s =>
    s.type = DropType.kTable →
      ∀ row ∈ (w.rel Indices.TABLE_NAME).rows,
        ValueDict.find row "table_name" ≠ some (Value.TEXT s.name)
  | _ => True

/-- The statements that put no index on a bootstrap relation: a CREATE INDEX
names none of `_tables`, `_columns`, `_indices` as its table. -/
def spares_bootstrap_relations (_w : World) (statement : SQLStatement) : Prop :=
  match statement with
  | SQLStatement.kStmtCreate s =>
    s.type = CreateType.kIndex →
      s.tableName ≠ Tables.TABLE_NAME ∧ s.tableName ≠ Columns.TABLE_NAME
        ∧ s.tableName ≠ Indices.TABLE_NAME
  | _ => True

/-- The world that `execute` leaves after the statement. -/
def World.after (w : World) (statement : SQLStatement) : World := (execute statement w).2

/-! ## Reasoning about computations -/

theorem Exec.bind_eq {σ α β : Type} (m : Exec σ α) (f : α → Exec σ β) (s : σ) :
    (m >>= f) s = Exec.bind m f s := rfl

theorem Exec.pure_eq {σ α : Type} (a : α) (s : σ) :
    (Pure.pure a : Exec σ α) s = (Except.ok a, s) := rfl

theorem Exec.bind_ok {σ α β : Type} {m : Exec σ α} {f : α → Exec σ β} {s t : σ} {a : α}
    (h : m s = (Except.ok a, t)) : (m >>= f) s = f a t := by
  simp [Exec.bind_eq, Exec.bind, h]

theorem Exec.bind_error {σ α β : Type} {m : Exec σ α} {f : α → Exec σ β} {s t : σ}
    {e : Error} (h : m s = (Except.error e, t)) : (m >>= f) s = (Except.error e, t) := by
  simp [Exec.bind_eq, Exec.bind, h]

theorem NoFaults.next_none {fs : List (Option Error)} (h : NoFaults fs) :
    nextFault fs = none := by
  cases fs with
  | nil => rfl
  | cons f fs =>
    have : f = none := h f (List.mem_cons_self _ _)
    subst this; rfl

theorem NoFaults.tail {fs : List (Option Error)} (h : NoFaults fs) : NoFaults fs.tail :=
  fun f hf => h f (List.mem_of_mem_tail hf)

theorem NoFaults.drop {fs : List (Option Error)} (h : NoFaults fs) (k : Nat) :
    NoFaults (fs.drop k) :=
  fun f hf => h f (List.mem_of_mem_drop hf)

theorem NoFaults.take {fs : List (Option Error)} (h : NoFaults fs) (k : Nat) :
    NoFaults (fs.take k) :=
  fun f hf => h f (List.mem_of_mem_take hf)

theorem NoFaults.take_succ {fs : List (Option Error)} {n : Nat}
    (h : NoFaults (fs.take (n + 1))) :
    SQLExec.nextFault fs = none ∧ NoFaults (fs.tail.take n) := by
  cases fs with
  | nil => exact ⟨rfl, by simp [NoFaults]⟩
  | cons f fs =>
    have hf : f = none := h f (by simp)
    subst hf
    exact ⟨rfl, fun g hg => h g (by simp at hg ⊢; exact Or.inr hg)⟩

theorem NoFaults.replicate (k : Nat) : NoFaults (List.replicate k none) := by
  intro f hf
  exact (List.mem_replicate.1 hf).2

@[simp] theorem World.tick_rel (w : World) : w.tick.rel = w.rel := rfl

@[simp] theorem World.tick_faults (w : World) : w.tick.faults = w.faults.tail := rfl

@[simp] theorem World.tick_calls (w : World) : w.tick.calls = w.calls + 1 := rfl

@[simp] theorem World.setRel_faults (w : World) (n : Identifier) (s : Slots) :
    (w.setRel n s).faults = w.faults := rfl

@[simp] theorem World.setRel_calls (w : World) (n : Identifier) (s : Slots) :
    (w.setRel n s).calls = w.calls := rfl

@[simp] theorem World.setRel_rel (w : World) (n : Identifier) (s : Slots) :
    (w.setRel n s).rel = fun m => if m = n then s else w.rel m := rfl

theorem World.eq_iff (w w' : World) :
    w = w' ↔ w.rel = w'.rel ∧ w.faults = w'.faults ∧ w.calls = w'.calls := by
  cases w; cases w'; simp

theorem relationCall_quiet {α : Type} (op : World → Except Error α × World) (w : World)
    (h : nextFault w.faults = none) : relationCall op w = op w.tick := by
  simp [relationCall, h]

theorem relationCall_fault {α : Type} (op : World → Except Error α × World) (w : World)
    (e : Error) (h : nextFault w.faults = some e) :
    relationCall op w = (Except.error e, w.tick) := by
  simp [relationCall, h]

theorem column_definitions_supported (cols : List ColumnDefinition)
    (h : ∀ c ∈ cols, Supported c) (w : World) :
    column_definitions cols w
      = (Except.ok (cols.map (fun c => c.name), cols.map attribute_of), w) := by
  induction cols with
  | nil => rfl
  | cons c cs ih =>
    have hc : Supported c := h c (List.mem_cons_self _ _)
    have hcs : ∀ c ∈ cs, Supported c := fun d hd => h d (List.mem_cons_of_mem _ hd)
    have h1 : column_definition c w = (Except.ok (c.name, attribute_of c), w) := by
      rcases hc with hc | hc <;> simp [column_definition, attribute_of, hc, Exec.pure_eq]
    simp only [column_definitions]
    rw [Exec.bind_ok h1, Exec.bind_ok (ih hcs)]
    rfl

theorem insert_quiet (r : DbRelation) (row : ValueDict) (w : World)
    (h : nextFault w.faults = none) :
    DbRelation.insert r row w
      = (Except.ok (w.rel r).length, w.tick.setRel r (w.rel r ++ [some row])) := by
  simp [DbRelation.insert, relationCall_quiet _ _ h]

theorem columnsRowBase_init (t : Identifier) :
    ColumnsRowBase t (ValueDict.set [] "table_name" (Value.TEXT t)) := by
  intro a b
  simp [ValueDict.set]

theorem columnsRowBase_next (t : Identifier) (a b : Value) :
    ColumnsRowBase t [("table_name", Value.TEXT t), ("column_name", a), ("data_type", b)] := by
  intro a b
  simp [ValueDict.set]

theorem attribute_of_text (c : ColumnDefinition) :
    (if attribute_of c = ColumnAttribute.INT then "INT" else "TEXT")
      = (if c.type = DataType.INT then "INT" else "TEXT") := by
  unfold attribute_of
  split <;> simp

theorem insert_columns_quiet (columns : DbRelation) (t : Identifier)
    (cols : List ColumnDefinition) (row : ValueDict) (hrow : ColumnsRowBase t row)
    (hs : Handles) (w : World) (hq : NoFaults (w.faults.take cols.length)) :
    insert_columns columns (cols.map (fun c => c.name)) (cols.map attribute_of) row (hs, w)
      = (Except.ok (),
          (hs ++ List.range' (w.rel columns).length cols.length,
           { rel := fun m => if m = columns
                      then w.rel columns ++ cols.map (fun c => some (columns_row t c))
                      else w.rel m,
             faults := w.faults.drop cols.length,
             calls := w.calls + cols.length })) := by
  induction cols generalizing row hs w with
  | nil =>
    simp [insert_columns, Exec.pure_eq, World.eq_iff]
    funext m
    split <;> simp_all
  | cons c cs ih =>
    simp only [List.map_cons, insert_columns]
    have hq' := NoFaults.take_succ (n := cs.length) hq
    have h1 : Scope.run (L := Handles) (DbRelation.insert columns
          (ValueDict.set (ValueDict.set row "column_name" (Value.TEXT c.name)) "data_type"
            (Value.TEXT (if attribute_of c = ColumnAttribute.INT then "INT" else "TEXT"))))
          (hs, w)
        = (Except.ok (w.rel columns).length,
            (hs, w.tick.setRel columns (w.rel columns ++ [some (columns_row t c)]))) := by
      simp [Scope.run, insert_quiet _ _ _ hq'.1, hrow _ _, columns_row, attribute_of_text]
    rw [Exec.bind_ok h1]
    have h2 : ∀ s : Handles × World,
        Scope.modify (fun c_handles : Handles => c_handles ++ [(w.rel columns).length]) s
          = (Except.ok (), (s.1 ++ [(w.rel columns).length], s.2)) := fun s => rfl
    rw [Exec.bind_ok (h2 _)]
    rw [hrow]
    rw [ih _ (columnsRowBase_next t _ _) _ _ (by simpa using hq'.2)]
    refine congrArg (Prod.mk (Except.ok ())) (Prod.ext ?_ ?_)
    · simp [List.range'_succ]
    · rw [World.eq_iff]
      refine ⟨?_, ?_, ?_⟩
      · funext m
        by_cases hm : m = columns <;> simp [hm]
      · simp
      · simp; omega

theorem get_table_quiet (name : Identifier) (w : World) (h : nextFault w.faults = none) :
    get_table name w = (Except.ok name, w.tick) := by
  simp [get_table, relationCall_quiet _ _ h]

theorem create_quiet (r : DbRelation) (w : World) (h : nextFault w.faults = none) :
    DbRelation.create r w = (Except.ok (), w.tick) := by
  simp [DbRelation.create, relationCall_quiet _ _ h]

theorem create_if_not_exists_quiet (r : DbRelation) (w : World)
    (h : nextFault w.faults = none) :
    DbRelation.create_if_not_exists r w = (Except.ok (), w.tick) := by
  simp [DbRelation.create_if_not_exists, relationCall_quiet _ _ h]

theorem Exec.tryCatch_ok {σ α : Type} {body : Exec σ α} {handler : Error → Exec σ α}
    {s t : σ} {a : α} (h : body s = (Except.ok a, t)) :
    Exec.tryCatch body handler s = (Except.ok a, t) := by
  simp [Exec.tryCatch, h]

theorem Exec.tryCatch_error {σ α : Type} {body : Exec σ α} {handler : Error → Exec σ α}
    {s t : σ} {e : Error} (h : body s = (Except.error e, t)) :
    Exec.tryCatch body handler s = handler e t := by
  simp [Exec.tryCatch, h]

theorem Scope.enter_eq {L α : Type} {init : L} {m : Scope L α} {w : World}
    {r : Except Error α} {l : L} {v : World} (h : m (init, w) = (r, (l, v))) :
    Scope.enter init m w = (r, v) := by
  simp [Scope.enter, h]

theorem Scope.run_eq {L α : Type} {m : M α} {w : World} {r : Except Error α} {v : World}
    (l : L) (h : m w = (r, v)) : Scope.run m (l, w) = (r, (l, v)) := by
  simp [Scope.run, h]

theorem create_physical_quiet {L : Type} (b : Bool) (table : DbRelation) (l : L) (w : World)
    (h : nextFault w.faults = none) :
    (if b = true then Scope.run (DbRelation.create_if_not_exists table)
      else Scope.run (DbRelation.create table)) (l, w) = (Except.ok (), (l, w.tick)) := by
  cases b
  · simpa using Scope.run_eq l (create_quiet table w h)
  · simpa using Scope.run_eq l (create_if_not_exists_quiet table w h)

theorem create_table_quiet (statement : CreateStatement) (w : World)
    (hcols : ∀ c ∈ statement.columns, Supported c) (hq : NoFaults w.faults) :
    create_table statement w
      = (Except.ok (QueryResult.ofMessage ("created " ++ statement.tableName)),
          w.created statement.tableName statement.columns) := by
  unfold create_table
  rw [Exec.bind_ok (column_definitions_supported _ hcols w)]
  rw [Exec.bind_ok (insert_quiet _ _ _ hq.next_none)]
  refine (Exec.bind_ok (a := ()) (Exec.tryCatch_ok (Scope.enter_eq (r := Except.ok ())
    (l := ?l) (v := ?v) ?body))).trans ?rest
  case body =>
    rw [Exec.bind_ok (Scope.run_eq [] (get_table_quiet _ _ ?h1))]
    refine Exec.tryCatch_ok ?_
    rw [Exec.bind_ok (insert_columns_quiet _ statement.tableName _ _
      (columnsRowBase_init _) _ _ (NoFaults.take (by simpa using hq.tail.tail) _))]
    rw [Exec.bind_ok (Scope.run_eq _ (get_table_quiet _ _ ?h3))]
    refine create_physical_quiet _ _ _ _ ?h4
    all_goals simp [hq, NoFaults.tail, NoFaults.drop, NoFaults.take, NoFaults.next_none]
  case rest =>
    rw [Exec.pure_eq]
    refine congrArg (Prod.mk _) ?_
    rw [World.eq_iff]
    refine ⟨?_, ?_, ?_⟩
    · funext m
      by_cases h1 : m = Columns.TABLE_NAME
      · subst h1
        simp [World.created, Columns.TABLE_NAME, Tables.TABLE_NAME]
      · simp [World.created, h1, tables_row, ValueDict.set]
    · simp [World.created]
    · simp [World.created]; omega

theorem Slots.rows_append (s s' : Slots) : (s ++ s').rows = s.rows ++ s'.rows := by
  simp [Slots.rows, List.filterMap_append]

theorem Slots.rows_map_some (l : ValueDicts) : Slots.rows (l.map some) = l := by
  simp [Slots.rows]

/-! ## C1: a successful `create_table` -/

/-- C1.  For every world, every table name and every list of column
definitions whose declared types are all INT or TEXT: when no call into the
relation layer raises, `create_table` returns the result with message
"created " + table name and no rows (no column names, no attributes), `_tables`
holds its former rows followed by the one row of the table, `_columns` holds
its former rows followed by one row per declared column, in declaration order,
with data type "INT" for an INT column and "TEXT" for a TEXT column, and every
other relation, `_indices` among them, is as it was. -/
theorem create_table_adds_catalog_rows (statement : CreateStatement) (w : World)
    (hcols : ∀ c ∈ statement.columns, Supported c) (hq : NoFaults w.faults) :
    (create_table statement w).1
        = Except.ok { column_names := none, column_attributes := none, rows := none,
                      message := "created " ++ statement.tableName }
      ∧ ((create_table statement w).2.rel Tables.TABLE_NAME).rows
          = (w.rel Tables.TABLE_NAME).rows ++ [[("table_name", Value.TEXT statement.tableName)]]
      ∧ ((create_table statement w).2.rel Columns.TABLE_NAME).rows
          = (w.rel Columns.TABLE_NAME).rows ++ statement.columns.map (fun c =>
              [("table_name", Value.TEXT statement.tableName),
               ("column_name", Value.TEXT c.name),
               ("data_type", Value.TEXT (if c.type = DataType.INT then "INT" else "TEXT"))])
      ∧ (∀ n : Identifier, n ≠ Tables.TABLE_NAME → n ≠ Columns.TABLE_NAME →
          (create_table statement w).2.rel n = w.rel n) := by
  rw [create_table_quiet statement w hcols hq]
  refine ⟨rfl, ?_, ?_, ?_⟩
  · simp [World.created, Columns.TABLE_NAME, Tables.TABLE_NAME, Slots.rows_append, Slots.rows,
      tables_row]
  · have h := Slots.rows_map_some (statement.columns.map (columns_row statement.tableName))
    simp only [List.map_map] at h
    simpa [World.created, Slots.rows_append, columns_row, Function.comp_def] using h
  · intro n h1 h2
    simp [World.created, h1, h2]

/-- C1 at `CREATE TABLE t (a INT, b TEXT)` on the initial catalog. -/
theorem create_table_adds_catalog_rows_witness :
    (∀ c ∈ create_t_a_b.columns, Supported c) ∧ NoFaults (World.initial []).faults
      ∧ (create_table create_t_a_b (World.initial [])).1
          = Except.ok { column_names := none, column_attributes := none, rows := none,
                        message := "created t" }
      ∧ ((create_table create_t_a_b (World.initial [])).2.rel Columns.TABLE_NAME).rows
          = [[("table_name", Value.TEXT "t"), ("column_name", Value.TEXT "a"),
              ("data_type", Value.TEXT "INT")],
             [("table_name", Value.TEXT "t"), ("column_name", Value.TEXT "b"),
              ("data_type", Value.TEXT "TEXT")]] :=
  ⟨by decide, by decide,
   (create_table_adds_catalog_rows create_t_a_b (World.initial []) (by decide) (by decide)).1,
   (create_table_adds_catalog_rows create_t_a_b (World.initial []) (by decide) (by decide)).2.2.1⟩

theorem select_quiet (r : DbRelation) (where_ : ValueDict) (w : World)
    (h : nextFault w.faults = none) :
    DbRelation.select r where_ w
      = (Except.ok (Slots.selectFrom (w.rel r) 0 where_), w.tick) := by
  simp [DbRelation.select, relationCall_quiet _ _ h]

theorem project_quiet (r : DbRelation) (hd : Handle) (column_names : ColumnNames) (w : World)
    (row : ValueDict) (h : nextFault w.faults = none)
    (hrow : (w.rel r)[hd]? = some (some row)) :
    DbRelation.project r hd column_names w = (projectRow row column_names [], w.tick) := by
  simp [DbRelation.project, relationCall_quiet _ _ h, hrow]

theorem Refers.length {s : Slots} : ∀ {hs : Handles} {rows : ValueDicts},
    Refers s hs rows → hs.length = rows.length
  | [], [], _ => rfl
  | _ :: _, _ :: _, h => by simp [Refers.length h.2]
  | [], _ :: _, h => by simp [Refers] at h
  | _ :: _, [], h => by simp [Refers] at h

theorem selectFrom_refers (where_ : ValueDict) (s : Slots) (pre : Slots) :
    Refers (pre ++ s) (Slots.selectFrom s pre.length where_)
      (s.rows.filter (fun row => ValueDict.matches row where_)) := by
  induction s generalizing pre with
  | nil => simp [Slots.selectFrom, Slots.rows, Refers]
  | cons x s ih =>
    have h := ih (pre ++ [x])
    simp only [List.append_assoc, List.singleton_append, List.length_append,
      List.length_singleton] at h
    cases x with
    | none => simpa [Slots.selectFrom, Slots.rows] using h
    | some row =>
      by_cases hm : ValueDict.matches row where_ = true
      · simp only [Slots.selectFrom, Slots.rows, hm, Refers, List.filterMap_cons, id_eq,
          List.filter_cons, if_true]
        exact ⟨by rw [List.getElem?_append_right (le_refl _)]; simp, h⟩
      · simp [Slots.selectFrom, Slots.rows, hm]
        exact h

theorem project_all_quiet (r : DbRelation) (column_names : ColumnNames) :
    ∀ (hs : Handles) (rows : ValueDicts) (w : World), NoFaults w.faults →
      Refers (w.rel r) hs rows →
      (project_all r column_names hs w).1 = project_rows column_names rows
        ∧ (project_all r column_names hs w).2.rel = w.rel
  | [], [], w, _, _ => by simp [project_all, project_rows, Exec.pure_eq]
  | [], _ :: _, _, _, h => by simp [Refers] at h
  | _ :: _, [], _, _, h => by simp [Refers] at h
  | hd :: hs, row :: rows, w, hq, h => by
    have ih := project_all_quiet r column_names hs rows w.tick (by simpa using hq.tail)
      (by simpa using h.2)
    simp only [project_all, project_rows]
    cases hp : projectRow row column_names [] with
    | error e =>
      rw [Exec.bind_error (by rw [project_quiet _ _ _ _ row hq.next_none h.1, hp])]
      simp
    | ok p =>
      rw [Exec.bind_ok (by rw [project_quiet _ _ _ _ row hq.next_none h.1, hp])]
      cases hr : project_all r column_names hs w.tick with
      | mk res w' =>
        rw [hr] at ih
        cases res with
        | error e =>
          rw [Exec.bind_error hr]
          simp at ih
          simp [← ih.1, ih.2]
        | ok ps =>
          rw [Exec.bind_ok hr]
          simp at ih
          simp [← ih.1, ih.2, Exec.pure_eq]

theorem show_tables_rows_quiet (column_names : ColumnNames) :
    ∀ (hs : Handles) (rows : ValueDicts) (w : World), NoFaults w.faults →
      Refers (w.rel Tables.TABLE_NAME) hs rows →
      (show_tables_rows column_names hs w).1 = show_tables_rows_of column_names rows
        ∧ (show_tables_rows column_names hs w).2.rel = w.rel
  | [], [], w, _, _ => by simp [show_tables_rows, show_tables_rows_of, Exec.pure_eq]
  | [], _ :: _, _, _, h => by simp [Refers] at h
  | _ :: _, [], _, _, h => by simp [Refers] at h
  | hd :: hs, row :: rows, w, hq, h => by
    have ih := show_tables_rows_quiet column_names hs rows w.tick (by simpa using hq.tail)
      (by simpa using h.2)
    simp only [show_tables_rows, show_tables_rows_of]
    cases hp : projectRow row column_names [] with
    | error e =>
      rw [Exec.bind_error (by rw [project_quiet _ _ _ _ row hq.next_none h.1, hp])]
      simp
    | ok p =>
      rw [Exec.bind_ok (by rw [project_quiet _ _ _ _ row hq.next_none h.1, hp])]
      cases hf : ValueDict.find p "table_name" with
      | none =>
        rw [Exec.bind_error (e := Error.exception "map::at") (t := w.tick)
          (by simp [ValueDict.at, hf, Exec.throw])]
        simp [hf]
      | some v =>
        rw [Exec.bind_ok (a := v) (t := w.tick) (by simp [ValueDict.at, hf, Exec.pure_eq])]
        cases hr : show_tables_rows column_names hs w.tick with
        | mk res w' =>
          rw [hr] at ih
          cases res with
          | error e =>
            rw [Exec.bind_error hr]
            simp at ih
            simp [← ih.1, ih.2, hf]
          | ok ps =>
            rw [Exec.bind_ok hr]
            simp at ih
            by_cases hb : not_bootstrap v.s = true
            · have hb' : v.s ≠ Tables.TABLE_NAME ∧ v.s ≠ Columns.TABLE_NAME
                  ∧ v.s ≠ Indices.TABLE_NAME := by simpa [not_bootstrap] using hb
              simp [← ih.1, ih.2, Exec.pure_eq, hb, hb', hf]
            · have hb' : ¬ (v.s ≠ Tables.TABLE_NAME ∧ v.s ≠ Columns.TABLE_NAME
                  ∧ v.s ≠ Indices.TABLE_NAME) := by simpa [not_bootstrap] using hb
              simp [← ih.1, ih.2, Exec.pure_eq, hb, hb', hf]

theorem selectFrom_refers_zero (where_ : ValueDict) (s : Slots) :
    Refers s (Slots.selectFrom s 0 where_)
      (s.rows.filter (fun row => ValueDict.matches row where_)) := by
  simpa using selectFrom_refers where_ s []

theorem matches_nil (row : ValueDict) : ValueDict.matches row [] = true := rfl

theorem show_tables_quiet (w : World) (hq : NoFaults w.faults) :
    (show_tables w).1 = show_tables_of (w.rel Tables.TABLE_NAME).rows
      ∧ (show_tables w).2.rel = w.rel := by
  have hr : Refers (w.tick.rel Tables.TABLE_NAME)
      (Slots.selectFrom (w.rel Tables.TABLE_NAME) 0 []) (w.rel Tables.TABLE_NAME).rows := by
    simpa [matches_nil] using selectFrom_refers_zero [] (w.rel Tables.TABLE_NAME)
  have h := show_tables_rows_quiet ["table_name"] _ _ w.tick (by simpa using hq.tail) hr
  unfold show_tables DbRelation.selectAll
  rw [Exec.bind_ok (select_quiet _ _ _ hq.next_none)]
  cases hres : show_tables_rows ["table_name"]
      (Slots.selectFrom (w.rel Tables.TABLE_NAME) 0 []) w.tick with
  | mk res w' =>
    rw [hres] at h
    simp only at h
    cases res with
    | error e =>
      rw [Exec.bind_error hres]
      simp [show_tables_of, ← h.1, h.2]
    | ok ps =>
      rw [Exec.bind_ok hres]
      simp [show_tables_of, ← h.1, h.2, Exec.pure_eq, hr.length]

theorem show_columns_quiet (statement : ShowStatement) (w : World) (hq : NoFaults w.faults) :
    (show_columns statement w).1
        = show_columns_of statement.tableName (w.rel Columns.TABLE_NAME).rows
      ∧ (show_columns statement w).2.rel = w.rel := by
  have hr : Refers (w.tick.tick.rel Columns.TABLE_NAME)
      (Slots.selectFrom (w.rel Columns.TABLE_NAME) 0 (tables_row statement.tableName))
      ((w.rel Columns.TABLE_NAME).rows.filter
        (fun row => ValueDict.matches row (tables_row statement.tableName))) := by
    simpa using selectFrom_refers_zero (tables_row statement.tableName)
      (w.rel Columns.TABLE_NAME)
  have h := project_all_quiet Columns.TABLE_NAME ["table_name", "column_name", "data_type"]
    _ _ w.tick.tick (by simpa using hq.tail.tail) hr
  unfold show_columns
  rw [Exec.bind_ok (get_table_quiet _ _ hq.next_none)]
  rw [Exec.bind_ok (select_quiet _ _ _ (by simpa using hq.tail.next_none))]
  cases hres : project_all Columns.TABLE_NAME ["table_name", "column_name", "data_type"]
      (Slots.selectFrom (w.rel Columns.TABLE_NAME) 0 (tables_row statement.tableName))
      w.tick.tick with
  | mk res w' =>
    rw [hres] at h
    simp only at h
    have hres' : project_all Columns.TABLE_NAME ["table_name", "column_name", "data_type"]
      (Slots.selectFrom (w.tick.rel Columns.TABLE_NAME) 0
        (ValueDict.set [] "table_name" (Value.TEXT statement.tableName))) w.tick.tick
        = (res, w') := hres
    cases res with
    | error e =>
      rw [Exec.bind_error hres']
      simp [show_columns_of, ← h.1, h.2]
    | ok ps =>
      rw [Exec.bind_ok hres']
      have hlen := hr.length
      have hw : ValueDict.set [] "table_name" (Value.TEXT statement.tableName)
          = tables_row statement.tableName := rfl
      simp [show_columns_of, ← h.1, h.2, Exec.pure_eq, hw, hlen]

theorem show_index_quiet (statement : ShowStatement) (w : World) (hq : NoFaults w.faults) :
    (show_index statement w).1
        = show_index_of statement.tableName (w.rel Indices.TABLE_NAME).rows
      ∧ (show_index statement w).2.rel = w.rel := by
  have hr : Refers (w.tick.tick.rel Indices.TABLE_NAME)
      (Slots.selectFrom (w.rel Indices.TABLE_NAME) 0 (tables_row statement.tableName))
      ((w.rel Indices.TABLE_NAME).rows.filter
        (fun row => ValueDict.matches row (tables_row statement.tableName))) := by
    simpa using selectFrom_refers_zero (tables_row statement.tableName)
      (w.rel Indices.TABLE_NAME)
  have h := project_all_quiet Indices.TABLE_NAME
    ["table_name", "index_name", "column_name", "seq_in_index", "index_type", "is_unique"]
    _ _ w.tick.tick (by simpa using hq.tail.tail) hr
  unfold show_index
  rw [Exec.bind_ok (get_table_quiet _ _ hq.next_none)]
  rw [Exec.bind_ok (select_quiet _ _ _ (by simpa using hq.tail.next_none))]
  cases hres : project_all Indices.TABLE_NAME
      ["table_name", "index_name", "column_name", "seq_in_index", "index_type", "is_unique"]
      (Slots.selectFrom (w.rel Indices.TABLE_NAME) 0 (tables_row statement.tableName))
      w.tick.tick with
  | mk res w' =>
    rw [hres] at h
    simp only at h
    have hres' : project_all Indices.TABLE_NAME
      ["table_name", "index_name", "column_name", "seq_in_index", "index_type", "is_unique"]
      (Slots.selectFrom (w.tick.rel Indices.TABLE_NAME) 0
        (ValueDict.set [] "table_name" (Value.TEXT statement.tableName))) w.tick.tick
        = (res, w') := hres
    cases res with
    | error e =>
      rw [Exec.bind_error hres']
      simp [show_index_of, ← h.1, h.2]
    | ok ps =>
      rw [Exec.bind_ok hres']
      have hlen := hr.length
      have hw : ValueDict.set [] "table_name" (Value.TEXT statement.tableName)
          = tables_row statement.tableName := rfl
      simp [show_index_of, ← h.1, h.2, Exec.pure_eq, hw, hlen]

theorem Keeps.pure {α : Type} (a : α) : Keeps (Pure.pure a : M α) := fun _ => rfl

theorem Keeps.throw {α : Type} (e : Error) : Keeps (Exec.throw e : M α) := fun _ => rfl

theorem Keeps.bind {α β : Type} {m : M α} {f : α → M β} (hm : Keeps m)
    (hf : ∀ a, Keeps (f a)) : Keeps (m >>= f) := by
  intro w
  cases h : m w with
  | mk res w' =>
    have h1 := hm w
    rw [h] at h1
    cases res with
    | error e => rw [Exec.bind_error h]; exact h1
    | ok a => rw [Exec.bind_ok h, hf a w']; exact h1

theorem Keeps.relationCall {α : Type} {op : World → Except Error α × World}
    (h : ∀ w, (op w).2.rel = w.rel) : Keeps (relationCall op) := by
  intro w
  unfold SQLExec.relationCall
  cases nextFault w.faults with
  | none => simp [h]
  | some e => simp

theorem Keeps.get_table (name : Identifier) : Keeps (get_table name) :=
  Keeps.relationCall (fun _ => rfl)

theorem Keeps.select (r : DbRelation) (where_ : ValueDict) : Keeps (DbRelation.select r where_) :=
  Keeps.relationCall (fun _ => rfl)

theorem Keeps.project (r : DbRelation) (h : Handle) (column_names : ColumnNames) :
    Keeps (DbRelation.project r h column_names) := by
  refine Keeps.relationCall (fun w => ?_)
  split <;> rfl

theorem Keeps.project_all (r : DbRelation) (column_names : ColumnNames) :
    ∀ hs : Handles, Keeps (project_all r column_names hs)
  | [] => Keeps.pure _
  | h :: hs =>
    Keeps.bind (Keeps.project r h column_names) (fun _ =>
      Keeps.bind (Keeps.project_all r column_names hs) (fun _ => Keeps.pure _))

theorem Keeps.at (row : ValueDict) (k : Identifier) : Keeps (ValueDict.at row k) := by
  unfold ValueDict.at
  split
  · exact Keeps.pure _
  · exact Keeps.throw _

theorem Keeps.show_tables_rows (column_names : ColumnNames) :
    ∀ hs : Handles, Keeps (show_tables_rows column_names hs)
  | [] => Keeps.pure _
  | h :: hs =>
    Keeps.bind (Keeps.project _ h column_names) (fun row =>
      Keeps.bind (Keeps.at row _) (fun _ =>
        Keeps.bind (Keeps.show_tables_rows column_names hs) (fun _ => by
          split
          · exact Keeps.pure _
          · exact Keeps.pure _)))

theorem Keeps.show_tables : Keeps show_tables :=
  Keeps.bind (Keeps.select _ _) (fun _ =>
    Keeps.bind (Keeps.show_tables_rows _ _) (fun _ => Keeps.pure _))

theorem Keeps.show_columns (statement : ShowStatement) : Keeps (show_columns statement) :=
  Keeps.bind (Keeps.get_table _) (fun _ =>
    Keeps.bind (Keeps.select _ _) (fun _ =>
      Keeps.bind (Keeps.project_all _ _ _) (fun _ => Keeps.pure _)))

theorem Keeps.show_index (statement : ShowStatement) : Keeps (show_index statement) :=
  Keeps.bind (Keeps.get_table _) (fun _ =>
    Keeps.bind (Keeps.select _ _) (fun _ =>
      Keeps.bind (Keeps.project_all _ _ _) (fun _ => Keeps.pure _)))

theorem show_tables_rows_of_names (names : List Identifier) :
    show_tables_rows_of ["table_name"] (names.map tables_row)
      = Except.ok ((names.filter not_bootstrap).map tables_row) := by
  induction names with
  | nil => rfl
  | cons n ns ih =>
    simp only [List.map_cons, show_tables_rows_of, ih]
    by_cases hb : not_bootstrap n = true
    · simp [projectRow, tables_row, ValueDict.find, ValueDict.set, Value.s, hb]
    · simp [projectRow, tables_row, ValueDict.find, ValueDict.set, Value.s, hb]

/-! ## C10: `show_tables` -/

/-- C10.  In every world `show_tables` leaves every relation as it is; and
when no call into the relation layer raises and `_tables` holds the rows
`{table_name: n}` for the names `n` of a list, it returns, under the single
column name `table_name`, the rows `{table_name: n}` of exactly the names that
are none of `_tables`, `_columns`, `_indices`, in stored order.  In particular
it returns no row when `_tables` holds the three bootstrap rows only. -/
theorem show_tables_lists_user_tables (w : World) :
    (show_tables w).2.rel = w.rel
      ∧ (∀ names : List Identifier, NoFaults w.faults →
          (w.rel Tables.TABLE_NAME).rows = names.map (fun n => [("table_name", Value.TEXT n)]) →
          (show_tables w).1 = Except.ok
            { column_names := some ["table_name"],
              column_attributes := some [ColumnAttribute.TEXT],
              rows := some ((names.filter (fun n =>
                  decide (n ≠ "_tables" ∧ n ≠ "_columns" ∧ n ≠ "_indices"))).map
                    (fun n => [("table_name", Value.TEXT n)])),
              message := "successfully returned " ++ to_string (u_long_sub names.length 3)
                ++ " rows" })
      ∧ (NoFaults w.faults →
          (w.rel Tables.TABLE_NAME).rows
            = [[("table_name", Value.TEXT "_tables")], [("table_name", Value.TEXT "_columns")],
               [("table_name", Value.TEXT "_indices")]] →
          (show_tables w).1 = Except.ok
            { column_names := some ["table_name"],
              column_attributes := some [ColumnAttribute.TEXT],
              rows := some [],
              message := "successfully returned 0 rows" }) := by
  have key : ∀ names : List Identifier, NoFaults w.faults →
      (w.rel Tables.TABLE_NAME).rows = names.map tables_row →
      (show_tables w).1 = Except.ok
        { column_names := some ["table_name"],
          column_attributes := some [ColumnAttribute.TEXT],
          rows := some ((names.filter not_bootstrap).map tables_row),
          message := "successfully returned " ++ to_string (u_long_sub names.length 3)
            ++ " rows" } := by
    intro names hq hrows
    rw [(show_tables_quiet w hq).1, hrows, show_tables_of, show_tables_rows_of_names]
    simp
  refine ⟨Keeps.show_tables w, key, ?_⟩
  intro hq hrows
  exact key ["_tables", "_columns", "_indices"] hq hrows

/-- C10 on the initial catalog. -/
theorem show_tables_lists_user_tables_witness :
    NoFaults (World.initial []).faults
      ∧ (show_tables (World.initial [])).1 = Except.ok
          { column_names := some ["table_name"],
            column_attributes := some [ColumnAttribute.TEXT],
            rows := some [],
            message := "successfully returned 0 rows" } :=
  ⟨by decide, (show_tables_lists_user_tables (World.initial [])).2.2 (by decide) (by rfl)⟩

theorem matches_tables_row (row : ValueDict) (t : Identifier) :
    ValueDict.matches row (tables_row t)
      = decide (ValueDict.find row "table_name" = some (Value.TEXT t)) := by
  simp [ValueDict.matches, tables_row]

theorem project_rows_columns_rows (t : Identifier) (cols : List ColumnDefinition) :
    project_rows ["table_name", "column_name", "data_type"] (cols.map (columns_row t))
      = Except.ok (cols.map (columns_row t)) := by
  induction cols with
  | nil => rfl
  | cons c cs ih =>
    simp only [List.map_cons, project_rows, ih]
    simp [projectRow, columns_row, ValueDict.find, ValueDict.set]

theorem filter_matches_columns_rows (t : Identifier) (cols : List ColumnDefinition) :
    (cols.map (columns_row t)).filter (fun row => ValueDict.matches row (tables_row t))
      = cols.map (columns_row t) := by
  rw [List.filter_eq_self]
  intro row hrow
  obtain ⟨c, _, rfl⟩ := List.mem_map.1 hrow
  simp [matches_tables_row, columns_row, ValueDict.find]

theorem project_rows_length (column_names : ColumnNames) :
    ∀ (rows ps : ValueDicts), project_rows column_names rows = Except.ok ps →
      ps.length = rows.length
  | [], ps, h => by
    simp [project_rows] at h
    simp [← h]
  | row :: rows, ps, h => by
    simp only [project_rows] at h
    cases hp : projectRow row column_names [] with
    | error e => simp [hp] at h
    | ok p =>
      cases hr : project_rows column_names rows with
      | error e => simp [hp, hr] at h
      | ok qs =>
        simp [hp, hr] at h
        simp [← h, project_rows_length column_names rows qs hr]

/-! ## C9: `show_columns` -/

/-- C9.  When no call into the relation layer raises: (1) if `_columns` holds
no row whose `table_name` is `t`, then after `create_table` of `t` with INT and
TEXT columns, `show_columns` of `t` returns, under the column names
`table_name`, `column_name`, `data_type`, one row per declared column, in
declaration order, each `(t, name of the column, "INT" or "TEXT")`; (2) in
every world `show_columns` of `t` returns the projection onto these three
columns of exactly the `_columns` rows whose `table_name` is `t`, in stored
order (and the error of the projection, should a row lack a column). -/
theorem show_columns_projects_table_columns (w : World) (show_statement : ShowStatement)
    (hq : NoFaults w.faults) :
    (∀ statement : CreateStatement,
        statement.tableName = show_statement.tableName →
        (∀ c ∈ statement.columns, Supported c) →
        (∀ row ∈ (w.rel Columns.TABLE_NAME).rows,
          ValueDict.find row "table_name" ≠ some (Value.TEXT statement.tableName)) →
        (create_table statement w).1
            = Except.ok (QueryResult.ofMessage ("created " ++ statement.tableName))
          ∧ (show_columns show_statement (create_table statement w).2).1 = Except.ok
              { column_names := some ["table_name", "column_name", "data_type"],
                column_attributes := some [ColumnAttribute.TEXT],
                rows := some (statement.columns.map (fun c =>
                  [("table_name", Value.TEXT statement.tableName),
                   ("column_name", Value.TEXT c.name),
                   ("data_type", Value.TEXT (if c.type = DataType.INT then "INT" else "TEXT"))])),
                message := "successfully returned " ++ to_string statement.columns.length
                  ++ " rows" })
      ∧ (show_columns show_statement w).1
          = (match project_rows ["table_name", "column_name", "data_type"]
                ((w.rel Columns.TABLE_NAME).rows.filter (fun row =>
                  decide (ValueDict.find row "table_name"
                    = some (Value.TEXT show_statement.tableName)))) with
             | Except.error e => Except.error e
             | Except.ok ps => Except.ok
                { column_names := some ["table_name", "column_name", "data_type"],
                  column_attributes := some [ColumnAttribute.TEXT],
                  rows := some ps,
                  message := "successfully returned " ++ to_string ps.length ++ " rows" }) := by
  refine ⟨?_, ?_⟩
  · intro statement ht hcols hnone
    rw [create_table_quiet statement w hcols hq]
    refine ⟨rfl, ?_⟩
    have hq' : NoFaults (w.created statement.tableName statement.columns).faults :=
      hq.drop _
    rw [(show_columns_quiet show_statement _ hq').1, ← ht]
    have hold : (w.rel Columns.TABLE_NAME).rows.filter
        (fun row => ValueDict.matches row (tables_row statement.tableName)) = [] := by
      rw [List.filter_eq_nil_iff]
      intro row hrow
      simpa [matches_tables_row] using hnone row hrow
    have hrows : ((w.created statement.tableName statement.columns).rel
        Columns.TABLE_NAME).rows
        = (w.rel Columns.TABLE_NAME).rows
            ++ statement.columns.map (columns_row statement.tableName) := by
      have h := Slots.rows_map_some (statement.columns.map (columns_row statement.tableName))
      simp only [List.map_map] at h
      simpa [World.created, Slots.rows_append, Function.comp_def] using h
    simp only [show_columns_of, hrows, List.filter_append, hold, List.nil_append,
      filter_matches_columns_rows, project_rows_columns_rows, List.length_map]
    rfl
  · rw [(show_columns_quiet show_statement w hq).1, show_columns_of]
    simp only [matches_tables_row]
    cases hp : project_rows ["table_name", "column_name", "data_type"]
        ((w.rel Columns.TABLE_NAME).rows.filter (fun row =>
          decide (ValueDict.find row "table_name"
            = some (Value.TEXT show_statement.tableName)))) with
    | error e => rfl
    | ok ps => simp [project_rows_length _ _ _ hp]

/-- C9 at `CREATE TABLE t (a INT, b TEXT)` on the initial catalog. -/
theorem show_columns_projects_table_columns_witness :
    NoFaults (World.initial []).faults
      ∧ (show_columns show_columns_t (create_table create_t_a_b (World.initial [])).2).1
          = Except.ok
              { column_names := some ["table_name", "column_name", "data_type"],
                column_attributes := some [ColumnAttribute.TEXT],
                rows := some
                  [[("table_name", Value.TEXT "t"), ("column_name", Value.TEXT "a"),
                    ("data_type", Value.TEXT "INT")],
                   [("table_name", Value.TEXT "t"), ("column_name", Value.TEXT "b"),
                    ("data_type", Value.TEXT "TEXT")]],
                message := "successfully returned 2 rows" } :=
  ⟨by decide,
   ((show_columns_projects_table_columns (World.initial []) show_columns_t (by decide)).1
      create_t_a_b rfl (by decide) (by simp [World.initial, Slots.rows, Columns.TABLE_NAME,
        Tables.TABLE_NAME])).2⟩

/-! ## C3: the protected relations -/

/-- C3.  In every world, for every statement kind and index name:
`drop_table` of `_tables` or of `_columns` raises the error "cannot drop a
schema table", `drop_index` on `_tables`, `_columns` or `_indices` raises the
error "cannot drop index for schema table", and each leaves the world, all
relations included, exactly as it was. -/
theorem drop_protected_relations (w : World) (type : DropType) (indexName : Identifier) :
    drop_table { type := type, name := Tables.TABLE_NAME, indexName := indexName } w
        = (Except.error (Error.SQLExecError "cannot drop a schema table"), w)
      ∧ drop_table { type := type, name := Columns.TABLE_NAME, indexName := indexName } w
        = (Except.error (Error.SQLExecError "cannot drop a schema table"), w)
      ∧ drop_index { type := type, name := Tables.TABLE_NAME, indexName := indexName } w
        = (Except.error (Error.SQLExecError "cannot drop index for schema table"), w)
      ∧ drop_index { type := type, name := Columns.TABLE_NAME, indexName := indexName } w
        = (Except.error (Error.SQLExecError "cannot drop index for schema table"), w)
      ∧ drop_index { type := type, name := Indices.TABLE_NAME, indexName := indexName } w
        = (Except.error (Error.SQLExecError "cannot drop index for schema table"), w) := by
  refine ⟨?_, ?_, ?_, ?_, ?_⟩ <;> simp [drop_table, drop_index, Exec.throw]

/-! ## C7: unsupported column types -/

theorem column_definitions_unsupported (cols : List ColumnDefinition)
    (h : ∃ c ∈ cols, ¬ Supported c) (w : World) :
    column_definitions cols w
      = (Except.error (Error.SQLExecError "unrecognized data type"), w) := by
  induction cols with
  | nil => simp at h
  | cons c cs ih =>
    simp only [column_definitions]
    by_cases hc : Supported c
    · have h1 : column_definition c w = (Except.ok (c.name, attribute_of c), w) := by
        rcases hc with hc | hc <;> simp [column_definition, attribute_of, hc, Exec.pure_eq]
      have hcs : ∃ d ∈ cs, ¬ Supported d := by
        obtain ⟨d, hd, hnd⟩ := h
        rcases List.mem_cons.1 hd with rfl | hd
        · exact absurd hc hnd
        · exact ⟨d, hd, hnd⟩
      rw [Exec.bind_ok h1, Exec.bind_error (ih hcs)]
    · have h1 : column_definition c w
          = (Except.error (Error.SQLExecError "unrecognized data type"), w) := by
        unfold Supported at hc
        unfold column_definition
        cases ht : c.type <;> simp_all [Exec.throw]
      rw [Exec.bind_error h1]

/-- C7.  In every world, for every CREATE TABLE statement whose column list
holds, at any position, a column whose declared type is neither INT nor TEXT:
`create_table` raises the error "unrecognized data type" and leaves the world
exactly as it was: no relation has changed and no call into the relation layer
was made (the call counter and the fault schedule are untouched). -/
theorem create_table_unsupported_type (statement : CreateStatement) (w : World)
    (h : ∃ c ∈ statement.columns, c.type ≠ DataType.INT ∧ c.type ≠ DataType.TEXT) :
    create_table statement w
      = (Except.error (Error.SQLExecError "unrecognized data type"), w) := by
  have h' : ∃ c ∈ statement.columns, ¬ Supported c := by
    obtain ⟨c, hc, h1, h2⟩ := h
    exact ⟨c, hc, fun hs => hs.elim h1 h2⟩
  unfold create_table
  rw [Exec.bind_error (column_definitions_unsupported _ h' w)]

/-- C7 at `CREATE TABLE t (a INT, x DOUBLE)` on the initial catalog. -/
theorem create_table_unsupported_type_witness :
    (∃ c ∈ create_t_a_x_double.columns, c.type ≠ DataType.INT ∧ c.type ≠ DataType.TEXT)
      ∧ (create_table create_t_a_x_double (World.initial [])).1
          = Except.error (Error.SQLExecError "unrecognized data type")
      ∧ (create_table create_t_a_x_double (World.initial [])).2.calls = 0 :=
  ⟨by decide,
   congrArg Prod.fst (create_table_unsupported_type create_t_a_x_double (World.initial [])
     (by decide)),
   congrArg (fun r => r.2.calls) (create_table_unsupported_type create_t_a_x_double
     (World.initial []) (by decide))⟩

theorem matches_index_where (row : ValueDict) (t i : Identifier) :
    ValueDict.matches row (index_where t i) = true
      ↔ ValueDict.find row "table_name" = some (Value.TEXT t)
        ∧ ValueDict.find row "index_name" = some (Value.TEXT i) := by
  simp [ValueDict.matches, index_where]

theorem selectFrom_length (where_ : ValueDict) (s : Slots) :
    (Slots.selectFrom s 0 where_).length
      = (s.rows.filter (fun row => ValueDict.matches row where_)).length :=
  (selectFrom_refers_zero where_ s).length

theorem selectFrom_eq_nil (where_ : ValueDict) (s : Slots)
    (h : ∀ row ∈ s.rows, ValueDict.matches row where_ ≠ true) :
    Slots.selectFrom s 0 where_ = [] := by
  have h1 : s.rows.filter (fun row => ValueDict.matches row where_) = [] := by
    rw [List.filter_eq_nil_iff]
    exact h
  have h2 := selectFrom_length where_ s
  rw [h1] at h2
  exact List.length_eq_zero.1 h2

theorem selectFrom_length_pos (where_ : ValueDict) (s : Slots)
    (h : ∃ row ∈ s.rows, ValueDict.matches row where_ = true) :
    0 < (Slots.selectFrom s 0 where_).length := by
  rw [selectFrom_length]
  obtain ⟨row, hrow, hm⟩ := h
  exact List.length_pos_of_mem (List.mem_filter.2 ⟨hrow, hm⟩)

theorem indicesRowBase_init (t i ty : Identifier) :
    IndicesRowBase t i ty
      (ValueDict.set
        (if ty = "BTREE" then
          ValueDict.set (ValueDict.set (ValueDict.set (ValueDict.set [] "table_name"
            (Value.TEXT t)) "index_name" (Value.TEXT i)) "index_type" (Value.TEXT ty))
            "is_unique" (Value.BOOLEAN true)
        else
          ValueDict.set (ValueDict.set (ValueDict.set (ValueDict.set [] "table_name"
            (Value.TEXT t)) "index_name" (Value.TEXT i)) "index_type" (Value.TEXT ty))
            "is_unique" (Value.BOOLEAN false))
        "seq_in_index" (Value.INT (0 : Nat))) := by
  intro c seq
  by_cases h : ty = "BTREE" <;> simp [ValueDict.set, indices_row, h]

theorem indicesRowBase_next (t i ty c : Identifier) (seq : Nat) :
    IndicesRowBase t i ty (indices_row t i ty c seq) := by
  intro c' seq'
  simp [ValueDict.set, indices_row]

theorem insert_index_columns_quiet (indices : DbRelation) (t i ty : Identifier)
    (cols : List Identifier) (row : ValueDict) (hrow : IndicesRowBase t i ty row)
    (idx : Nat) (hidx : idx + cols.length < 65536) (w : World) (hq : NoFaults w.faults) :
    insert_index_columns indices cols row idx w
      = (Except.ok (),
          { rel := fun m => if m = indices
                then w.rel indices ++ (List.zipWith (fun c seq => some (indices_row t i ty c seq))
                  cols (List.range' (idx + 1) cols.length))
                else w.rel m,
            faults := w.faults.drop cols.length,
            calls := w.calls + cols.length }) := by
  induction cols generalizing row idx w with
  | nil =>
    simp only [insert_index_columns, Exec.pure_eq]
    refine congrArg (Prod.mk _) ?_
    rw [World.eq_iff]
    refine ⟨?_, by simp, by simp⟩
    funext m
    by_cases hm : m = indices <;> simp [hm]
  | cons c cs ih =>
    simp only [insert_index_columns]
    have hmod : (idx + 1) % 65536 = idx + 1 := by
      apply Nat.mod_eq_of_lt
      simp at hidx
      omega
    rw [hmod]
    have hr : ValueDict.set (ValueDict.set row "column_name" (Value.TEXT c)) "seq_in_index"
        (Value.INT ((idx + 1 : Nat) : Int)) = indices_row t i ty c (idx + 1) := hrow c (idx + 1)
    rw [hr]
    rw [Exec.bind_ok (insert_quiet _ _ _ hq.next_none)]
    rw [ih _ (indicesRowBase_next t i ty c _) (idx + 1) (by simp at hidx ⊢; omega) _
      (by simpa using hq.tail)]
    refine congrArg (Prod.mk _) ?_
    rw [World.eq_iff]
    refine ⟨?_, ?_, ?_⟩
    · funext m
      by_cases hm : m = indices <;> simp [hm, List.range'_succ]
    · simp
    · simp; omega

theorem create_index_where (t i : Identifier) :
    ValueDict.set (ValueDict.set [] "table_name" (Value.TEXT t)) "index_name" (Value.TEXT i)
      = index_where t i := by
  simp [ValueDict.set, index_where]

/-- The rows of `_indices` that belong to index `i` of table `t`. -/
theorem exists_matching_iff (t i : Identifier) (s : Slots) :
    (∃ row ∈ s.rows, ValueDict.matches row (index_where t i) = true)
      ↔ ∃ row ∈ s.rows, ValueDict.find row "table_name" = some (Value.TEXT t)
          ∧ ValueDict.find row "index_name" = some (Value.TEXT i) := by
  simp only [matches_index_where]

theorem create_index_duplicate (statement : CreateStatement) (w : World)
    (hdup : ∃ row ∈ (w.rel Indices.TABLE_NAME).rows,
      ValueDict.find row "table_name" = some (Value.TEXT statement.tableName)
        ∧ ValueDict.find row "index_name" = some (Value.TEXT statement.indexName))
    (h1 : nextFault w.faults = none) (h2 : nextFault w.faults.tail = none) :
    create_index statement w
      = (Except.ok (QueryResult.ofMessage
          ("Error: DbRelationError: duplicate index " ++ statement.tableName)), w.tick.tick) := by
  unfold create_index
  rw [Exec.bind_ok (get_table_quiet _ _ h1)]
  rw [create_index_where]
  rw [Exec.bind_ok (select_quiet _ _ _ (by simpa using h2))]
  have hpos := selectFrom_length_pos (index_where statement.tableName statement.indexName)
    (w.rel Indices.TABLE_NAME) ((exists_matching_iff _ _ _).2 hdup)
  simp [hpos, Exec.pure_eq]

/-! ## C4: `create_index` on an existing index -/

/-- What `create_index` does on an existing index: in every world in which
`_indices` holds a row of index `index_name` on `table_name`, and in which the
lookup of `_indices` and the selection do not raise, it returns normally, and
its result has no rows and the message "Error: DbRelationError: duplicate
index " + table name. -/
theorem create_index_duplicate_returns_message (statement : CreateStatement) (w : World)
    (hdup : ∃ row ∈ (w.rel Indices.TABLE_NAME).rows,
      ValueDict.find row "table_name" = some (Value.TEXT statement.tableName)
        ∧ ValueDict.find row "index_name" = some (Value.TEXT statement.indexName))
    (hq : NoFaults (w.faults.take 2)) :
    (create_index statement w).1
      = Except.ok { column_names := none, column_attributes := none, rows := none,
                    message := "Error: DbRelationError: duplicate index "
                      ++ statement.tableName } := by
  have h1 : nextFault w.faults = none := by
    cases hf : w.faults with
    | nil => rfl
    | cons f fs =>
      have : f = none := hq f (by simp [hf])
      subst this; rfl
  have h2 : nextFault w.faults.tail = none := by
    cases hf : w.faults with
    | nil => rfl
    | cons f fs =>
      cases fs with
      | nil => rfl
      | cons g gs =>
        have : g = none := hq g (by simp [hf])
        subst this; rfl
  rw [create_index_duplicate statement w hdup h1 h2]
  rfl

/-- C4, at a failing input.  With the two rows of index `idx` on `t` in
`_indices`, a second `CREATE INDEX idx ON t (b, a)` does not raise a
duplicate-index error: it returns a result, without rows, whose message is
"Error: DbRelationError: duplicate index t", and `execute` returns the same
result to its caller. -/
theorem create_index_duplicate_does_not_raise :
    (∃ row ∈ ((World.with_idx []).rel Indices.TABLE_NAME).rows,
        ValueDict.find row "table_name" = some (Value.TEXT "t")
          ∧ ValueDict.find row "index_name" = some (Value.TEXT "idx"))
      ∧ (create_index create_idx_b_a (World.with_idx [])).1
          = Except.ok { column_names := none, column_attributes := none, rows := none,
                        message := "Error: DbRelationError: duplicate index t" }
      ∧ (∀ e : Error, (create_index create_idx_b_a (World.with_idx [])).1 ≠ Except.error e)
      ∧ (execute (SQLStatement.kStmtCreate create_idx_b_a) (World.with_idx [])).1
          = Except.ok { column_names := none, column_attributes := none, rows := none,
                        message := "Error: DbRelationError: duplicate index t" } := by
  refine ⟨⟨indices_row "t" "idx" "BTREE" "b" 1, by decide, by decide, by decide⟩, rfl, ?_, rfl⟩
  intro e h
  have h' : (create_index create_idx_b_a (World.with_idx [])).1
      = Except.ok (QueryResult.ofMessage "Error: DbRelationError: duplicate index t") := rfl
  rw [h'] at h
  cases h

/-! ## C5: `create_index` on an existing index inserts nothing -/

/-- C5.  In every world in which `_indices` holds a row of index `index_name`
on `table_name`, whatever the fault schedule, the index type and the column
list: `create_index` leaves every relation, `_indices`, `_tables` and
`_columns` among them, exactly as it was, slot for slot. -/
theorem create_index_duplicate_inserts_nothing (statement : CreateStatement) (w : World)
    (hdup : ∃ row ∈ (w.rel Indices.TABLE_NAME).rows,
      ValueDict.find row "table_name" = some (Value.TEXT statement.tableName)
        ∧ ValueDict.find row "index_name" = some (Value.TEXT statement.indexName)) :
    (create_index statement w).2.rel = w.rel := by
  cases h1 : nextFault w.faults with
  | some e =>
    unfold create_index
    rw [Exec.bind_error (t := w.tick) (e := e)
      (by simp [get_table, relationCall_fault _ _ _ h1])]
    rfl
  | none =>
    cases h2 : nextFault w.faults.tail with
    | some e =>
      unfold create_index
      rw [Exec.bind_ok (get_table_quiet _ _ h1)]
      rw [Exec.bind_error (t := w.tick.tick) (e := e)
        (by rw [DbRelation.select, relationCall_fault _ w.tick e (by simpa using h2)])]
      rfl
    | none =>
      rw [create_index_duplicate statement w hdup h1 h2]
      rfl

/-- C5 at a second `CREATE INDEX idx ON t (b, a)`. -/
theorem create_index_duplicate_inserts_nothing_witness :
    (create_index create_idx_b_a (World.with_idx [])).2.rel Indices.TABLE_NAME
      = [some (indices_row "t" "idx" "BTREE" "b" 1), some (indices_row "t" "idx" "BTREE" "a" 2)] :=
  congrFun (create_index_duplicate_inserts_nothing create_idx_b_a (World.with_idx [])
    ⟨indices_row "t" "idx" "BTREE" "b" 1, by decide, by decide, by decide⟩) Indices.TABLE_NAME

theorem Slots.rows_zipWith_some {α β : Type} (f : α → β → ValueDict) (l : List α)
    (l' : List β) :
    Slots.rows (List.zipWith (fun a b => some (f a b)) l l') = List.zipWith f l l' := by
  induction l generalizing l' with
  | nil => simp [Slots.rows]
  | cons a l ih =>
    cases l' with
    | nil => simp [Slots.rows]
    | cons b l' =>
      have := ih l'
      simp only [Slots.rows] at this
      simp [Slots.rows, this]

theorem create_index_quiet (statement : CreateStatement) (w : World)
    (hlen : statement.indexColumns.length < 65536)
    (hnone : ∀ row ∈ (w.rel Indices.TABLE_NAME).rows,
      ¬ (ValueDict.find row "table_name" = some (Value.TEXT statement.tableName)
        ∧ ValueDict.find row "index_name" = some (Value.TEXT statement.indexName)))
    (hq : NoFaults w.faults) :
    create_index statement w
      = (Except.ok (QueryResult.ofMessage ("created index " ++ statement.indexName)),
          { rel := fun m => if m = Indices.TABLE_NAME
                then w.rel Indices.TABLE_NAME
                  ++ (List.zipWith (fun c seq => some (indices_row statement.tableName
                      statement.indexName statement.indexType c seq))
                    statement.indexColumns (List.range' 1 statement.indexColumns.length))
                else w.rel m,
            faults := w.faults.drop (statement.indexColumns.length + 2),
            calls := w.calls + (statement.indexColumns.length + 2) }) := by
  unfold create_index
  rw [Exec.bind_ok (get_table_quiet _ _ hq.next_none)]
  rw [Exec.bind_ok (select_quiet _ _ _ (by simpa using hq.tail.next_none))]
  have hnil : Slots.selectFrom (w.rel Indices.TABLE_NAME) 0
      (ValueDict.set (ValueDict.set [] "table_name" (Value.TEXT statement.tableName))
        "index_name" (Value.TEXT statement.indexName)) = [] := by
    rw [create_index_where]
    exact selectFrom_eq_nil (index_where statement.tableName statement.indexName)
      (w.rel Indices.TABLE_NAME) (fun row hrow hm => hnone row hrow
        ((matches_index_where _ _ _).1 hm))
  simp only [World.tick_rel, hnil, List.length_nil, gt_iff_lt, lt_self_iff_false, if_false]
  rw [Exec.bind_ok (insert_index_columns_quiet _ statement.tableName statement.indexName
    statement.indexType _ _ (indicesRowBase_init _ _ _) 0 (by simpa using hlen) _
    (by simpa using hq.tail.tail))]
  rw [Exec.pure_eq]
  refine congrArg (Prod.mk _) ?_
  rw [World.eq_iff]
  refine ⟨?_, ?_, ?_⟩
  · funext m
    by_cases hm : m = Indices.TABLE_NAME <;> simp [hm]
  · simp
  · simp; omega

/-! ## C6: a successful `create_index` -/

/-- C6.  For every table name, index name, index type and list of fewer than
65536 column names: when `_indices` holds no row of that index of that table
and no call into the relation layer raises, `create_index` returns the result
with message "created index " + index name and no rows, `_indices` holds its
former rows followed by one row per column, the i-th (counting from 1) being
`{table_name, index_name, index_type, is_unique, seq_in_index = i, column_name
= cols[i]}` with `is_unique` true exactly when the index type is "BTREE", and
every other relation is as it was. -/
theorem create_index_adds_rows (statement : CreateStatement) (w : World)
    (hlen : statement.indexColumns.length < 65536)
    (hnone : ∀ row ∈ (w.rel Indices.TABLE_NAME).rows,
      ¬ (ValueDict.find row "table_name" = some (Value.TEXT statement.tableName)
        ∧ ValueDict.find row "index_name" = some (Value.TEXT statement.indexName)))
    (hq : NoFaults w.faults) :
    (create_index statement w).1
        = Except.ok { column_names := none, column_attributes := none, rows := none,
                      message := "created index " ++ statement.indexName }
      ∧ ((create_index statement w).2.rel Indices.TABLE_NAME).rows
          = (w.rel Indices.TABLE_NAME).rows
            ++ List.zipWith (fun (c : Identifier) (i : Nat) =>
                [("table_name", Value.TEXT statement.tableName),
                 ("index_name", Value.TEXT statement.indexName),
                 ("index_type", Value.TEXT statement.indexType),
                 ("is_unique", Value.BOOLEAN (decide (statement.indexType = "BTREE"))),
                 ("seq_in_index", Value.INT i),
                 ("column_name", Value.TEXT c)])
              statement.indexColumns (List.range' 1 statement.indexColumns.length)
      ∧ (∀ n : Identifier, n ≠ Indices.TABLE_NAME →
          (create_index statement w).2.rel n = w.rel n) := by
  rw [create_index_quiet statement w hlen hnone hq]
  refine ⟨rfl, ?_, ?_⟩
  · simp only [if_true, Slots.rows_append]
    rw [Slots.rows_zipWith_some]
    rfl
  · intro n hn
    simp [hn]

/-- C6 at `CREATE INDEX idx ON t USING BTREE (b, a)` on the initial catalog. -/
theorem create_index_adds_rows_witness :
    create_idx_b_a.indexColumns.length < 65536
      ∧ NoFaults (World.initial []).faults
      ∧ ((create_index create_idx_b_a (World.initial [])).2.rel Indices.TABLE_NAME).rows
          = [[("table_name", Value.TEXT "t"), ("index_name", Value.TEXT "idx"),
              ("index_type", Value.TEXT "BTREE"), ("is_unique", Value.BOOLEAN true),
              ("seq_in_index", Value.INT 1), ("column_name", Value.TEXT "b")],
             [("table_name", Value.TEXT "t"), ("index_name", Value.TEXT "idx"),
              ("index_type", Value.TEXT "BTREE"), ("is_unique", Value.BOOLEAN true),
              ("seq_in_index", Value.INT 2), ("column_name", Value.TEXT "a")]] :=
  ⟨by decide, by decide,
   (create_index_adds_rows create_idx_b_a (World.initial []) (by decide)
     (by simp [World.initial, Slots.rows, Indices.TABLE_NAME, Tables.TABLE_NAME])
     (by decide)).2.1⟩

theorem del_quiet (r : DbRelation) (h : Handle) (w : World) (hq : nextFault w.faults = none) :
    DbRelation.del r h w = (Except.ok (), w.tick.setRel r ((w.rel r).set h none)) := by
  simp [DbRelation.del, relationCall_quiet _ _ hq]

theorem drop_quiet (r : DbRelation) (w : World) (hq : nextFault w.faults = none) :
    DbRelation.drop r w = (Except.ok (), w.tick.setRel r []) := by
  simp [DbRelation.drop, relationCall_quiet _ _ hq]

theorem del_all_quiet (r : DbRelation) (hs : Handles) (w : World) (hq : NoFaults w.faults) :
    del_all r hs w
      = (Except.ok (),
          { rel := fun m => if m = r then Slots.del_handles (w.rel r) hs else w.rel m,
            faults := w.faults.drop hs.length,
            calls := w.calls + hs.length }) := by
  induction hs generalizing w with
  | nil =>
    simp only [del_all, Exec.pure_eq]
    refine congrArg (Prod.mk _) ?_
    rw [World.eq_iff]
    refine ⟨?_, by simp, by simp⟩
    funext m
    by_cases hm : m = r <;> simp [hm, Slots.del_handles]
  | cons h hs ih =>
    simp only [del_all]
    rw [Exec.bind_ok (del_quiet _ _ _ hq.next_none)]
    rw [ih _ (by simpa using hq.tail)]
    refine congrArg (Prod.mk _) ?_
    rw [World.eq_iff]
    refine ⟨?_, ?_, ?_⟩
    · funext m
      by_cases hm : m = r <;> simp [hm, Slots.del_handles]
    · simp
    · simp; omega

theorem del_handles_selectFrom (where_ : ValueDict) (s pre : Slots) :
    Slots.del_handles (pre ++ s) (Slots.selectFrom s pre.length where_)
      = pre ++ Slots.erase_matching s where_ := by
  induction s generalizing pre with
  | nil => simp [Slots.selectFrom, Slots.del_handles, Slots.erase_matching]
  | cons x s ih =>
    cases x with
    | none =>
      have h := ih (pre ++ [none])
      simp only [List.append_assoc, List.singleton_append, List.length_append,
        List.length_singleton] at h
      simpa [Slots.selectFrom, Slots.erase_matching] using h
    | some row =>
      by_cases hm : ValueDict.matches row where_ = true
      · have h := ih (pre ++ [none])
        simp only [List.append_assoc, List.singleton_append, List.length_append,
          List.length_singleton] at h
        simp only [Slots.selectFrom, hm, if_true, Slots.del_handles, List.foldl_cons]
        have hset : (pre ++ some row :: s).set pre.length none = pre ++ none :: s := by
          simp [List.set_append_right]
        rw [hset]
        simpa [Slots.erase_matching, hm, Slots.del_handles] using h
      · have h := ih (pre ++ [some row])
        simp only [List.append_assoc, List.singleton_append, List.length_append,
          List.length_singleton] at h
        simpa [Slots.selectFrom, Slots.erase_matching, hm] using h

theorem del_handles_selectFrom_zero (where_ : ValueDict) (s : Slots) :
    Slots.del_handles s (Slots.selectFrom s 0 where_) = Slots.erase_matching s where_ := by
  simpa using del_handles_selectFrom where_ s []

theorem set_head_selectFrom (where_ : ValueDict) (s pre : Slots) (h : Handle) (hs : Handles)
    (hsel : Slots.selectFrom s pre.length where_ = h :: hs) :
    (pre ++ s).set h none = pre ++ Slots.erase_first_matching s where_ := by
  induction s generalizing pre with
  | nil => simp [Slots.selectFrom] at hsel
  | cons x s ih =>
    cases x with
    | none =>
      have h1 := ih (pre ++ [none]) (by simpa [Slots.selectFrom] using hsel)
      simpa [Slots.erase_first_matching] using h1
    | some row =>
      by_cases hm : ValueDict.matches row where_ = true
      · simp only [Slots.selectFrom, hm, if_true, List.cons.injEq] at hsel
        simp [Slots.erase_first_matching, hm, ← hsel.1, List.set_append_right]
      · have h1 := ih (pre ++ [some row]) (by simpa [Slots.selectFrom, hm] using hsel)
        simpa [Slots.erase_first_matching, hm] using h1

theorem rows_erase_matching (s : Slots) (where_ : ValueDict) :
    (Slots.erase_matching s where_).rows
      = s.rows.filter (fun row => !ValueDict.matches row where_) := by
  induction s with
  | nil => rfl
  | cons x s ih =>
    simp only [Slots.rows, Slots.erase_matching] at ih
    cases x with
    | none => simpa [Slots.rows, Slots.erase_matching] using ih
    | some row =>
      by_cases hm : ValueDict.matches row where_ = true
      · simpa [Slots.rows, Slots.erase_matching, hm] using ih
      · simpa [Slots.rows, Slots.erase_matching, hm] using ih

theorem rows_erase_first_matching (s : Slots) (where_ : ValueDict) :
    (Slots.erase_first_matching s where_).rows
      = s.rows.eraseP (fun row => ValueDict.matches row where_) := by
  induction s with
  | nil => rfl
  | cons x s ih =>
    simp only [Slots.rows] at ih
    cases x with
    | none => simpa [Slots.rows, Slots.erase_first_matching] using ih
    | some row =>
      by_cases hm : ValueDict.matches row where_ = true
      · simp [Slots.rows, Slots.erase_first_matching, hm]
      · simpa [Slots.rows, Slots.erase_first_matching, hm] using ih

theorem drop_table_quiet (statement : DropStatement) (w : World)
    (h1 : statement.name ≠ Tables.TABLE_NAME) (h2 : statement.name ≠ Columns.TABLE_NAME)
    (hq : NoFaults w.faults)
    (hrow : ∃ row ∈ (w.rel Tables.TABLE_NAME).rows,
      ValueDict.matches row (tables_row statement.name) = true) :
    drop_table statement w
      = (Except.ok (QueryResult.ofMessage ("dropped " ++ statement.name)),
          w.dropped statement.name) := by
  have hw : ValueDict.set [] "table_name" (Value.TEXT statement.name)
      = tables_row statement.name := rfl
  have htc : Tables.TABLE_NAME ≠ Columns.TABLE_NAME := by decide
  unfold drop_table
  simp only [h1, h2, or_self, if_false, hw]
  rw [Exec.bind_ok (get_table_quiet _ _ hq.next_none)]
  rw [Exec.bind_ok (get_table_quiet _ _ (by simpa using hq.tail.next_none))]
  rw [Exec.bind_ok (select_quiet _ _ _ (by simpa using hq.tail.tail.next_none))]
  rw [Exec.bind_ok (del_all_quiet _ _ _ (by simpa using hq.tail.tail.tail))]
  rw [Exec.bind_ok (drop_quiet _ _ (by simpa using (hq.drop _).next_none))]
  rw [Exec.bind_ok (select_quiet _ _ _ (by simpa using (hq.drop _).tail.next_none))]
  have hpos := selectFrom_length_pos (tables_row statement.name) (w.rel Tables.TABLE_NAME) hrow
  cases hsel : Slots.selectFrom (w.rel Tables.TABLE_NAME) 0 (tables_row statement.name) with
  | nil => simp [hsel] at hpos
  | cons h hs =>
    have hfirst := set_head_selectFrom (tables_row statement.name) (w.rel Tables.TABLE_NAME)
      [] h hs (by simpa using hsel)
    simp only [List.nil_append] at hfirst
    simp only [World.setRel_rel, World.tick_rel, htc, Ne.symm h1, if_false, hsel]
    rw [Exec.bind_ok (del_quiet _ _ _ (by simpa using (hq.drop _).tail.tail.next_none))]
    rw [Exec.pure_eq]
    refine congrArg (Prod.mk _) ?_
    rw [World.eq_iff]
    refine ⟨?_, ?_, ?_⟩
    · funext m
      by_cases hm1 : m = Tables.TABLE_NAME
      · subst hm1
        simp [World.dropped, htc, Ne.symm h1, hfirst]
      · by_cases hm2 : m = statement.name
        · subst hm2
          simp [World.dropped, hm1]
        · by_cases hm3 : m = Columns.TABLE_NAME
          · subst hm3
            simp [World.dropped, hm1, hm2, del_handles_selectFrom_zero]
          · simp [World.dropped, hm1, hm2, hm3]
    · simp [World.dropped]
    · simp [World.dropped]; omega

theorem matches_tables_row_self (t : Identifier) :
    ValueDict.matches (tables_row t) (tables_row t) = true := by
  simp [ValueDict.matches, tables_row, ValueDict.find]

theorem rows_created_tables (w : World) (t : Identifier) (cols : List ColumnDefinition) :
    ((w.created t cols).rel Tables.TABLE_NAME).rows
      = (w.rel Tables.TABLE_NAME).rows ++ [tables_row t] := by
  simp [World.created, Columns.TABLE_NAME, Tables.TABLE_NAME, Slots.rows_append, Slots.rows]

theorem rows_created_columns (w : World) (t : Identifier) (cols : List ColumnDefinition) :
    ((w.created t cols).rel Columns.TABLE_NAME).rows
      = (w.rel Columns.TABLE_NAME).rows ++ cols.map (columns_row t) := by
  have h := Slots.rows_map_some (cols.map (columns_row t))
  simp only [List.map_map] at h
  simpa [World.created, Slots.rows_append, Function.comp_def] using h

theorem rel_created_other (w : World) (t : Identifier) (cols : List ColumnDefinition)
    (n : Identifier) (h1 : n ≠ Tables.TABLE_NAME) (h2 : n ≠ Columns.TABLE_NAME) :
    (w.created t cols).rel n = w.rel n := by
  simp [World.created, h1, h2]

theorem rows_dropped_created_tables (w : World) (t : Identifier) (cols : List ColumnDefinition)
    (ht : ∀ row ∈ (w.rel Tables.TABLE_NAME).rows,
      ValueDict.find row "table_name" ≠ some (Value.TEXT t)) :
    (((w.created t cols).dropped t).rel Tables.TABLE_NAME).rows
      = (w.rel Tables.TABLE_NAME).rows := by
  have h : ((w.created t cols).dropped t).rel Tables.TABLE_NAME
      = Slots.erase_first_matching ((w.created t cols).rel Tables.TABLE_NAME) (tables_row t) := by
    simp [World.dropped]
  rw [h, rows_erase_first_matching, rows_created_tables,
    List.eraseP_append_right _ (by
      intro row hrow
      simpa [matches_tables_row] using ht row hrow)]
  simp [List.eraseP, matches_tables_row_self]

theorem rows_dropped_created_columns (w : World) (t : Identifier)
    (cols : List ColumnDefinition) (h2 : t ≠ Columns.TABLE_NAME)
    (hc : ∀ row ∈ (w.rel Columns.TABLE_NAME).rows,
      ValueDict.find row "table_name" ≠ some (Value.TEXT t)) :
    (((w.created t cols).dropped t).rel Columns.TABLE_NAME).rows
      = (w.rel Columns.TABLE_NAME).rows := by
  have htc : Columns.TABLE_NAME ≠ Tables.TABLE_NAME := by decide
  have h : ((w.created t cols).dropped t).rel Columns.TABLE_NAME
      = Slots.erase_matching ((w.created t cols).rel Columns.TABLE_NAME) (tables_row t) := by
    simp [World.dropped, htc, Ne.symm h2]
  rw [h, rows_erase_matching, rows_created_columns, List.filter_append]
  have hold : (w.rel Columns.TABLE_NAME).rows.filter
      (fun row => !ValueDict.matches row (tables_row t)) = (w.rel Columns.TABLE_NAME).rows := by
    rw [List.filter_eq_self]
    intro row hrow
    simpa [matches_tables_row] using hc row hrow
  have hnew : (cols.map (columns_row t)).filter
      (fun row => !ValueDict.matches row (tables_row t)) = [] := by
    rw [List.filter_eq_nil_iff]
    intro row hrow
    obtain ⟨c, _, rfl⟩ := List.mem_map.1 hrow
    simp [matches_tables_row, columns_row, ValueDict.find]
  rw [hold, hnew, List.append_nil]

theorem rel_dropped_other (w : World) (t n : Identifier) (h1 : n ≠ Tables.TABLE_NAME)
    (h2 : n ≠ Columns.TABLE_NAME) (h3 : n ≠ t) : (w.dropped t).rel n = w.rel n := by
  simp [World.dropped, h1, h2, h3]

/-! ## C8: create, drop, create again -/

/-- C8, for a table name that is none of `_tables`, `_columns`, `_indices`.
For every world holding no `_tables` row and no `_columns` row of `t`, and
every list of INT and TEXT column definitions, when no call into the relation
layer raises: `create_table` of `t` followed by `drop_table` of `t` both
return, and leave `_tables` and `_columns` with the rows they held before (none
of which is of `t`) and `_indices` as it was; a second `create_table` of `t`
with the same columns then returns the same result as the first and leaves in
`_tables`, `_columns` and `_indices` the rows the first one left. -/
theorem create_drop_create (statement : CreateStatement) (drop_statement : DropStatement)
    (w : World)
    (hname : drop_statement.name = statement.tableName)
    (h1 : statement.tableName ≠ Tables.TABLE_NAME)
    (h2 : statement.tableName ≠ Columns.TABLE_NAME)
    (h3 : statement.tableName ≠ Indices.TABLE_NAME)
    (ht : ∀ row ∈ (w.rel Tables.TABLE_NAME).rows,
      ValueDict.find row "table_name" ≠ some (Value.TEXT statement.tableName))
    (hc : ∀ row ∈ (w.rel Columns.TABLE_NAME).rows,
      ValueDict.find row "table_name" ≠ some (Value.TEXT statement.tableName))
    (hcols : ∀ c ∈ statement.columns, Supported c) (hq : NoFaults w.faults) :
    (create_table statement w).1
        = Except.ok (QueryResult.ofMessage ("created " ++ statement.tableName))
      ∧ (drop_table drop_statement (create_table statement w).2).1
        = Except.ok (QueryResult.ofMessage ("dropped " ++ statement.tableName))
      ∧ ((drop_table drop_statement (create_table statement w).2).2.rel Tables.TABLE_NAME).rows
        = (w.rel Tables.TABLE_NAME).rows
      ∧ ((drop_table drop_statement (create_table statement w).2).2.rel Columns.TABLE_NAME).rows
        = (w.rel Columns.TABLE_NAME).rows
      ∧ (drop_table drop_statement (create_table statement w).2).2.rel Indices.TABLE_NAME
        = w.rel Indices.TABLE_NAME
      ∧ (create_table statement (drop_table drop_statement (create_table statement w).2).2).1
        = (create_table statement w).1
      ∧ ((create_table statement
            (drop_table drop_statement (create_table statement w).2).2).2.rel
              Tables.TABLE_NAME).rows
        = ((create_table statement w).2.rel Tables.TABLE_NAME).rows
      ∧ ((create_table statement
            (drop_table drop_statement (create_table statement w).2).2).2.rel
              Columns.TABLE_NAME).rows
        = ((create_table statement w).2.rel Columns.TABLE_NAME).rows
      ∧ (create_table statement
            (drop_table drop_statement (create_table statement w).2).2).2.rel Indices.TABLE_NAME
        = (create_table statement w).2.rel Indices.TABLE_NAME := by
  have hit : Indices.TABLE_NAME ≠ Tables.TABLE_NAME := by decide
  have hic : Indices.TABLE_NAME ≠ Columns.TABLE_NAME := by decide
  have hq1 : NoFaults (w.created statement.tableName statement.columns).faults := hq.drop _
  have hrow : ∃ row ∈ ((w.created statement.tableName statement.columns).rel
      Tables.TABLE_NAME).rows, ValueDict.matches row (tables_row drop_statement.name) = true := by
    refine ⟨tables_row statement.tableName, ?_, ?_⟩
    · rw [rows_created_tables]; simp
    · rw [hname]; exact matches_tables_row_self _
  have e1 := create_table_quiet statement w hcols hq
  have e2 : drop_table drop_statement (create_table statement w).2
      = (Except.ok (QueryResult.ofMessage ("dropped " ++ statement.tableName)),
          (w.created statement.tableName statement.columns).dropped statement.tableName) := by
    have hd := drop_table_quiet drop_statement
      (w.created statement.tableName statement.columns) (hname ▸ h1) (hname ▸ h2) hq1 hrow
    rw [hname] at hd
    rw [e1]
    exact hd
  have hq2 : NoFaults ((w.created statement.tableName statement.columns).dropped
      statement.tableName).faults := hq1.drop _
  have e3 : create_table statement (drop_table drop_statement (create_table statement w).2).2
      = (Except.ok (QueryResult.ofMessage ("created " ++ statement.tableName)),
          ((w.created statement.tableName statement.columns).dropped
            statement.tableName).created statement.tableName statement.columns) := by
    rw [e2]
    exact create_table_quiet statement _ hcols hq2
  refine ⟨by rw [e1], by rw [e2], ?_, ?_, ?_, by rw [e3, e1], ?_, ?_, ?_⟩
  · rw [e2]
    exact rows_dropped_created_tables w _ _ ht
  · rw [e2]
    exact rows_dropped_created_columns w _ _ h2 hc
  · rw [e2]
    show ((w.created statement.tableName statement.columns).dropped
      statement.tableName).rel Indices.TABLE_NAME = _
    rw [rel_dropped_other _ _ _ hit hic (Ne.symm h3), rel_created_other _ _ _ _ hit hic]
  · rw [e3, e1]
    show ((((w.created statement.tableName statement.columns).dropped
      statement.tableName).created statement.tableName statement.columns).rel
        Tables.TABLE_NAME).rows = ((w.created statement.tableName statement.columns).rel
          Tables.TABLE_NAME).rows
    rw [rows_created_tables, rows_created_tables, rows_dropped_created_tables w _ _ ht]
  · rw [e3, e1]
    show ((((w.created statement.tableName statement.columns).dropped
      statement.tableName).created statement.tableName statement.columns).rel
        Columns.TABLE_NAME).rows = ((w.created statement.tableName statement.columns).rel
          Columns.TABLE_NAME).rows
    rw [rows_created_columns, rows_created_columns,
      rows_dropped_created_columns w _ _ h2 hc]
  · rw [e3, e1]
    show (((w.created statement.tableName statement.columns).dropped
      statement.tableName).created statement.tableName statement.columns).rel
        Indices.TABLE_NAME = (w.created statement.tableName statement.columns).rel
          Indices.TABLE_NAME
    rw [rel_created_other _ _ _ _ hit hic, rel_created_other _ _ _ _ hit hic,
      rel_dropped_other _ _ _ hit hic (Ne.symm h3), rel_created_other _ _ _ _ hit hic]

/-- C8 at `CREATE TABLE t (a INT, b TEXT)`, `DROP TABLE t` on the initial
catalog. -/
theorem create_drop_create_witness :
    (drop_table_of "t").name = create_t_a_b.tableName
      ∧ create_t_a_b.tableName ≠ Tables.TABLE_NAME
      ∧ create_t_a_b.tableName ≠ Columns.TABLE_NAME
      ∧ create_t_a_b.tableName ≠ Indices.TABLE_NAME
      ∧ NoFaults (World.initial []).faults
      ∧ ((drop_table (drop_table_of "t")
            (create_table create_t_a_b (World.initial [])).2).2.rel Tables.TABLE_NAME).rows
          = [[("table_name", Value.TEXT "_tables")], [("table_name", Value.TEXT "_columns")],
             [("table_name", Value.TEXT "_indices")]] :=
  ⟨rfl, by decide, by decide, by decide, by decide,
   (create_drop_create create_t_a_b (drop_table_of "t") (World.initial []) rfl
     (by decide) (by decide) (by decide) (by decide) (by decide) (by decide)
     (by decide)).2.2.1⟩

/-- C8 fails as stated for the bootstrap names.  On the catalog without rows,
`CREATE TABLE _tables (a INT)` returns and the following `DROP TABLE _tables`
raises "cannot drop a schema table", so the `_tables` row of `_tables` stays.
On a catalog whose `_tables` has no row of `_indices`, `CREATE TABLE _indices
(a INT)` and `DROP TABLE _indices` both return, and the drop of the relation
`_indices` has removed the two rows `_indices` held. -/
theorem create_drop_create_bootstrap_names :
    ((∀ row ∈ ((World.empty []).rel Tables.TABLE_NAME).rows,
          ValueDict.find row "table_name" ≠ some (Value.TEXT "_tables"))
      ∧ (∀ row ∈ ((World.empty []).rel Columns.TABLE_NAME).rows,
          ValueDict.find row "table_name" ≠ some (Value.TEXT "_tables"))
      ∧ (create_table (create_a "_tables") (World.empty [])).1
          = Except.ok (QueryResult.ofMessage "created _tables")
      ∧ (drop_table (drop_table_of "_tables")
            (create_table (create_a "_tables") (World.empty [])).2).1
          = Except.error (Error.SQLExecError "cannot drop a schema table")
      ∧ ((drop_table (drop_table_of "_tables")
            (create_table (create_a "_tables") (World.empty [])).2).2.rel
              Tables.TABLE_NAME).rows
          = [[("table_name", Value.TEXT "_tables")]])
    ∧ ((∀ row ∈ ((World.unlisted_indices []).rel Tables.TABLE_NAME).rows,
          ValueDict.find row "table_name" ≠ some (Value.TEXT "_indices"))
      ∧ (∀ row ∈ ((World.unlisted_indices []).rel Columns.TABLE_NAME).rows,
          ValueDict.find row "table_name" ≠ some (Value.TEXT "_indices"))
      ∧ (create_table (create_a "_indices") (World.unlisted_indices [])).1
          = Except.ok (QueryResult.ofMessage "created _indices")
      ∧ (drop_table (drop_table_of "_indices")
            (create_table (create_a "_indices") (World.unlisted_indices [])).2).1
          = Except.ok (QueryResult.ofMessage "dropped _indices")
      ∧ ((World.unlisted_indices []).rel Indices.TABLE_NAME).rows.length = 2
      ∧ ((drop_table (drop_table_of "_indices")
            (create_table (create_a "_indices") (World.unlisted_indices [])).2).2.rel
              Indices.TABLE_NAME).rows
          = []) :=
  ⟨⟨by decide, by decide, rfl, rfl, rfl⟩, ⟨by decide, by decide, rfl, rfl, rfl, rfl⟩⟩

theorem insert_fault (r : DbRelation) (row : ValueDict) (w : World) (e : Error)
    (h : nextFault w.faults = some e) :
    DbRelation.insert r row w = (Except.error e, w.tick) := by
  simp [DbRelation.insert, relationCall_fault _ _ _ h]

theorem get_table_fault (name : Identifier) (w : World) (e : Error)
    (h : nextFault w.faults = some e) :
    get_table name w = (Except.error e, w.tick) := by
  simp [get_table, relationCall_fault _ _ _ h]

theorem create_physical_fault {L : Type} (b : Bool) (table : DbRelation) (l : L) (w : World)
    (e : Error) (h : nextFault w.faults = some e) :
    (if b = true then Scope.run (DbRelation.create_if_not_exists table)
      else Scope.run (DbRelation.create table)) (l, w) = (Except.error e, (l, w.tick)) := by
  cases b
  · simpa using Scope.run_eq l (show DbRelation.create table w = (Except.error e, w.tick) by
      simp [DbRelation.create, relationCall_fault _ _ _ h])
  · simpa using Scope.run_eq l (show DbRelation.create_if_not_exists table w
        = (Except.error e, w.tick) by
      simp [DbRelation.create_if_not_exists, relationCall_fault _ _ _ h])

theorem insert_columns_fault (columns : DbRelation) (t : Identifier)
    (cols : List ColumnDefinition) (row : ValueDict) (hrow : ColumnsRowBase t row)
    (hs : Handles) (w : World) (j : Nat) (e : Error) (post : List (Option Error))
    (hj : j < cols.length) (hf : w.faults = List.replicate j none ++ some e :: post) :
    insert_columns columns (cols.map (fun c => c.name)) (cols.map attribute_of) row (hs, w)
      = (Except.error e,
          (hs ++ List.range' (w.rel columns).length j,
           { rel := fun m => if m = columns
                      then w.rel columns ++ (cols.take j).map (fun c => some (columns_row t c))
                      else w.rel m,
             faults := post,
             calls := w.calls + (j + 1) })) := by
  induction cols generalizing row hs w j with
  | nil => simp at hj
  | cons c cs ih =>
    simp only [List.map_cons, insert_columns]
    cases j with
    | zero =>
      have hn : nextFault w.faults = some e := by simp [hf, nextFault]
      rw [Exec.bind_error (Scope.run_eq hs (insert_fault _ _ _ e hn))]
      refine congrArg (Prod.mk _) (Prod.ext (by simp) ?_)
      rw [World.eq_iff]
      refine ⟨?_, by simp [hf], by simp⟩
      funext m
      by_cases hm : m = columns <;> simp [hm]
    | succ j =>
      have hn : nextFault w.faults = none := by simp [hf, nextFault, List.replicate_succ]
      have h1 : Scope.run (L := Handles) (DbRelation.insert columns
            (ValueDict.set (ValueDict.set row "column_name" (Value.TEXT c.name)) "data_type"
              (Value.TEXT (if attribute_of c = ColumnAttribute.INT then "INT" else "TEXT"))))
            (hs, w)
          = (Except.ok (w.rel columns).length,
              (hs, w.tick.setRel columns (w.rel columns ++ [some (columns_row t c)]))) := by
        simp [Scope.run, insert_quiet _ _ _ hn, hrow _ _, columns_row, attribute_of_text]
      rw [Exec.bind_ok h1]
      have h2 : ∀ s : Handles × World,
          Scope.modify (fun c_handles : Handles => c_handles ++ [(w.rel columns).length]) s
            = (Except.ok (), (s.1 ++ [(w.rel columns).length], s.2)) := fun s => rfl
      rw [Exec.bind_ok (h2 _)]
      rw [hrow]
      rw [ih _ (columnsRowBase_next t _ _) _ _ j (by simpa using hj)
        (by simp [hf, List.replicate_succ])]
      refine congrArg (Prod.mk _) (Prod.ext ?_ ?_)
      · simp [List.range'_succ]
      · rw [World.eq_iff]
        refine ⟨?_, ?_, ?_⟩
        · funext m
          by_cases hm : m = columns <;> simp [hm]
        · simp
        · simp; omega

theorem del_handles_range (pre l : Slots) :
    Slots.del_handles (pre ++ l) (List.range' pre.length l.length)
      = pre ++ List.replicate l.length none := by
  induction l generalizing pre with
  | nil => simp [Slots.del_handles]
  | cons x l ih =>
    have h := ih (pre ++ [none])
    simp only [List.append_assoc, List.singleton_append, List.length_append,
      List.length_singleton] at h
    simp only [List.length_cons, List.range'_succ, Slots.del_handles, List.foldl_cons]
    have hset : (pre ++ x :: l).set pre.length none = pre ++ none :: l := by
      simp [List.set_append_right]
    rw [hset]
    simpa [Slots.del_handles, List.replicate_succ] using h

theorem Slots.rows_replicate_none (k : Nat) : Slots.rows (List.replicate k none) = [] := by
  induction k with
  | zero => rfl
  | succ k ih =>
    simp only [Slots.rows] at ih
    simp [Slots.rows, List.replicate_succ, ih]

/-- The compensation of the inner handler of `create_table`: the handles
collected so far are deleted from `_columns` and the error is raised again. -/
theorem inner_handler_quiet (columns : DbRelation) (e : Error) (hs : Handles) (w : World)
    (hq : NoFaults w.faults) :
    (do
      let c_handles ← (Scope.get : Scope Handles Handles)
      Exec.trySwallow (Scope.run (del_all columns c_handles))
      (Exec.throw e : Scope Handles Unit)) (hs, w)
      = (Except.error e,
          (hs, { rel := fun m => if m = columns then Slots.del_handles (w.rel columns) hs
                          else w.rel m,
                 faults := w.faults.drop hs.length,
                 calls := w.calls + hs.length })) := by
  have h1 : (Scope.get : Scope Handles Handles) (hs, w) = (Except.ok hs, (hs, w)) := rfl
  rw [Exec.bind_ok h1]
  have h2 : Exec.trySwallow (Scope.run (L := Handles) (del_all columns hs)) (hs, w)
      = (Except.ok (), (hs, { rel := fun m => if m = columns
                                then Slots.del_handles (w.rel columns) hs else w.rel m,
                              faults := w.faults.drop hs.length,
                              calls := w.calls + hs.length })) := by
    simp [Exec.trySwallow, Scope.run, del_all_quiet _ _ _ hq]
  rw [Exec.bind_ok h2]
  rfl

/-- The compensation of the outer handler of `create_table`: the `_tables`
row is deleted and the error is raised again. -/
theorem outer_handler_quiet (e : Error) (h : Handle) (w : World)
    (hq : nextFault w.faults = none) :
    (do
      Exec.trySwallow (DbRelation.del Tables.TABLE_NAME h)
      (Exec.throw e : M Unit)) w
      = (Except.error e,
          w.tick.setRel Tables.TABLE_NAME ((w.rel Tables.TABLE_NAME).set h none)) := by
  have h1 : Exec.trySwallow (DbRelation.del Tables.TABLE_NAME h) w
      = (Except.ok (), w.tick.setRel Tables.TABLE_NAME ((w.rel Tables.TABLE_NAME).set h none)) := by
    simp [Exec.trySwallow, del_quiet _ _ _ hq]
  rw [Exec.bind_ok h1]
  rfl

/-- The world reached when the guarded part of `create_table` fails: the first
rows of the columns `l` are in `_columns`, their handles are in `c_handles`. -/
theorem create_table_body_fault (statement : CreateStatement) (w : World) (j : Nat) (e : Error)
    (post : List (Option Error)) (hj : j ≤ statement.columns.length + 1)
    (hf : w.faults = List.replicate j none ++ some e :: post) :
    ∃ l : List ColumnDefinition,
      (do
        insert_columns Columns.TABLE_NAME (statement.columns.map (fun c : ColumnDefinition => c.name))
          (statement.columns.map attribute_of)
          (ValueDict.set [] "table_name" (Value.TEXT statement.tableName))
        let table ← Scope.run (get_table statement.tableName)
        if statement.ifNotExists = true then
          Scope.run (DbRelation.create_if_not_exists table)
        else
          Scope.run (DbRelation.create table)) (([] : Handles), w)
        = (Except.error e,
            (List.range' (w.rel Columns.TABLE_NAME).length l.length,
             { rel := fun m => if m = Columns.TABLE_NAME
                        then w.rel Columns.TABLE_NAME ++ l.map (fun c => some (columns_row
                          statement.tableName c))
                        else w.rel m,
               faults := post,
               calls := w.calls + (j + 1) })) := by
  by_cases hlt : j < statement.columns.length
  · refine ⟨statement.columns.take j, ?_⟩
    rw [Exec.bind_error (insert_columns_fault _ statement.tableName _ _
      (columnsRowBase_init _) _ _ j e post hlt hf)]
    simp [List.length_take, Nat.min_eq_left (Nat.le_of_lt hlt)]
  · refine ⟨statement.columns, ?_⟩
    have hn : statement.columns.length ≤ j := Nat.le_of_not_lt hlt
    have hq : NoFaults (w.faults.take statement.columns.length) := by
      rw [hf, List.take_append_of_le_length (by simpa using hn)]
      exact (NoFaults.replicate j).take _
    have hdrop : w.faults.drop statement.columns.length
        = List.replicate (j - statement.columns.length) none ++ some e :: post := by
      rw [hf, List.drop_append_of_le_length (by simpa using hn)]
      simp
    rw [Exec.bind_ok (insert_columns_quiet _ statement.tableName _ _
      (columnsRowBase_init _) _ _ hq)]
    rcases Nat.eq_or_lt_of_le hn with heq | hgt
    · have hnf : nextFault (w.faults.drop statement.columns.length) = some e := by
        rw [hdrop, ← heq]; simp [nextFault]
      rw [Exec.bind_error (Scope.run_eq _ (get_table_fault _ _ e hnf))]
      refine congrArg (Prod.mk _) (Prod.ext (by simp) ?_)
      rw [World.eq_iff]
      refine ⟨rfl, ?_, ?_⟩
      · simp [hdrop, ← heq]
      · simp [← heq]; omega
    · have hj1 : j - statement.columns.length = 1 := by omega
      have hnf : nextFault (w.faults.drop statement.columns.length) = none := by
        rw [hdrop, hj1]; simp [nextFault]
      rw [Exec.bind_ok (Scope.run_eq _ (get_table_quiet _ _ hnf))]
      have hnf2 : nextFault (w.faults.drop statement.columns.length).tail = some e := by
        rw [hdrop, hj1]; simp [nextFault]
      rw [create_physical_fault _ _ _ _ e hnf2]
      refine congrArg (Prod.mk _) (Prod.ext (by simp) ?_)
      rw [World.eq_iff]
      refine ⟨rfl, ?_, ?_⟩
      · simp [hdrop, hj1]
      · simp; omega

theorem create_table_fault (statement : CreateStatement) (w : World) (k : Nat) (e : Error)
    (post : List (Option Error)) (hcols : ∀ c ∈ statement.columns, Supported c)
    (hk : k ≤ statement.columns.length + 2)
    (hf : w.faults = none :: (List.replicate k none ++ some e :: post))
    (hpost : NoFaults post) :
    ∃ w' : World, create_table statement w = (Except.error e, w')
      ∧ (w'.rel Tables.TABLE_NAME).rows = (w.rel Tables.TABLE_NAME).rows
      ∧ (w'.rel Columns.TABLE_NAME).rows = (w.rel Columns.TABLE_NAME).rows
      ∧ (∀ n : Identifier, n ≠ Tables.TABLE_NAME → n ≠ Columns.TABLE_NAME → w'.rel n = w.rel n)
      ∧ NoFaults w'.faults := by
  have hct : Columns.TABLE_NAME ≠ Tables.TABLE_NAME := by decide
  have h0 : nextFault w.faults = none := by simp [hf, nextFault]
  unfold create_table
  rw [Exec.bind_ok (column_definitions_supported _ hcols w)]
  rw [Exec.bind_ok (insert_quiet _ _ _ h0)]
  cases k with
  | zero =>
    have h1 : nextFault (w.tick.setRel Tables.TABLE_NAME (w.rel Tables.TABLE_NAME ++
        [some (ValueDict.set [] "table_name" (Value.TEXT statement.tableName))])).faults
        = some e := by simp [hf, nextFault]
    rw [Exec.bind_error (Exec.tryCatch_error (Scope.enter_eq (l := [])
      (Exec.bind_error (Scope.run_eq [] (get_table_fault _ _ e h1)))))]
    rw [del_quiet _ _ _ (by simpa [hf] using hpost.next_none)]
    refine ⟨_, rfl, ?_, ?_, ?_, ?_⟩
    · simp [Slots.rows_append, Slots.rows, List.set_append_right]
    · simp [hct]
    · intro n h1 h2
      simp [h1]
    · simpa [hf] using hpost.tail
  | succ j =>
    have h1 : nextFault (w.tick.setRel Tables.TABLE_NAME (w.rel Tables.TABLE_NAME ++
        [some (ValueDict.set [] "table_name" (Value.TEXT statement.tableName))])).faults
        = none := by simp [hf, nextFault, List.replicate_succ]
    obtain ⟨l, hbody⟩ := create_table_body_fault statement
      (w.tick.setRel Tables.TABLE_NAME (w.rel Tables.TABLE_NAME ++
        [some (ValueDict.set [] "table_name" (Value.TEXT statement.tableName))])).tick j e post
      (by omega) (by simp [hf, List.replicate_succ])
    rw [Exec.bind_error (Exec.tryCatch_error (Scope.enter_eq
      ((Exec.bind_ok (Scope.run_eq [] (get_table_quiet _ _ h1))).trans
        ((Exec.tryCatch_error hbody).trans (inner_handler_quiet _ e _ _ hpost)))))]
    rw [del_quiet _ _ _ (by simpa using (hpost.drop _).next_none)]
    refine ⟨_, rfl, ?_, ?_, ?_, ?_⟩
    · simp [Slots.rows_append, Slots.rows, List.set_append_right, hct.symm]
    · have hd := del_handles_range (w.rel Columns.TABLE_NAME)
        (l.map (fun c => some (columns_row statement.tableName c)))
      simp only [List.length_map] at hd
      simp [hct, hd, Slots.rows_append, Slots.rows_replicate_none]
    · intro n h1 h2
      simp [h1, h2]
    · simpa using (hpost.drop _).tail

/-! ## C2: `create_table` undoes its catalog rows when a later step fails -/

/-- C2.  For every world, table name and list of INT and TEXT column
definitions: when the insert into `_tables` succeeds, one of the following
calls of the guarded part raises `e` (the lookup of `_columns`, one of the
inserts into `_columns`, the lookup of the table, or `create` /
`create_if_not_exists`: the call number `k` of the guarded part, counting from
0) and no later call raises, then `create_table` raises `e`, `_tables` and
`_columns` hold exactly the rows they held before the call, every other
relation is as it was, and `show_tables` and `show_columns`, run after the
call, return what they return in the world before the call under any schedule
without faults. -/
theorem create_table_rolls_back (statement : CreateStatement) (w : World) (k : Nat)
    (e : Error) (post : List (Option Error))
    (hcols : ∀ c ∈ statement.columns, Supported c)
    (hk : k ≤ statement.columns.length + 2)
    (hf : w.faults = none :: (List.replicate k none ++ some e :: post))
    (hpost : NoFaults post) :
    (create_table statement w).1 = Except.error e
      ∧ ((create_table statement w).2.rel Tables.TABLE_NAME).rows
          = (w.rel Tables.TABLE_NAME).rows
      ∧ ((create_table statement w).2.rel Columns.TABLE_NAME).rows
          = (w.rel Columns.TABLE_NAME).rows
      ∧ (∀ n : Identifier, n ≠ Tables.TABLE_NAME → n ≠ Columns.TABLE_NAME →
          (create_table statement w).2.rel n = w.rel n)
      ∧ (∀ fs : List (Option Error), NoFaults fs →
          (show_tables (create_table statement w).2).1 = (show_tables (w.with_faults fs)).1)
      ∧ (∀ (fs : List (Option Error)) (show_statement : ShowStatement), NoFaults fs →
          (show_columns show_statement (create_table statement w).2).1
            = (show_columns show_statement (w.with_faults fs)).1) := by
  obtain ⟨w', hrun, ht, hc, hother, hq⟩ :=
    create_table_fault statement w k e post hcols hk hf hpost
  rw [hrun]
  refine ⟨rfl, ht, hc, hother, ?_, ?_⟩
  · intro fs hfs
    have h1 := (show_tables_quiet w' hq).1
    have h2 := (show_tables_quiet (w.with_faults fs) hfs).1
    simp only at h1 ⊢
    rw [h1, h2, ht]
    rfl
  · intro fs show_statement hfs
    have h1 := (show_columns_quiet show_statement w' hq).1
    have h2 := (show_columns_quiet show_statement (w.with_faults fs) hfs).1
    simp only at h1 ⊢
    rw [h1, h2, hc]
    rfl

/-- C2 at `CREATE TABLE t (a INT, b TEXT)` on the initial catalog, the
physical creation raising. -/
theorem create_table_rolls_back_witness :
    (create_table create_t_a_b
        (World.initial [none, none, none, none, none,
          some (Error.DbRelationError "t already exists")])).1
        = Except.error (Error.DbRelationError "t already exists")
      ∧ ((create_table create_t_a_b
          (World.initial [none, none, none, none, none,
            some (Error.DbRelationError "t already exists")])).2.rel Columns.TABLE_NAME).rows
        = [] :=
  ⟨(create_table_rolls_back create_t_a_b
      (World.initial [none, none, none, none, none,
        some (Error.DbRelationError "t already exists")]) 4
      (Error.DbRelationError "t already exists") [] (by decide) (by decide) rfl (by decide)).1,
   (create_table_rolls_back create_t_a_b
      (World.initial [none, none, none, none, none,
        some (Error.DbRelationError "t already exists")]) 4
      (Error.DbRelationError "t already exists") [] (by decide) (by decide) rfl
      (by decide)).2.2.1⟩

theorem drop_index_quiet (statement : DropStatement) (w : World)
    (h1 : statement.name ≠ Tables.TABLE_NAME) (h2 : statement.name ≠ Columns.TABLE_NAME)
    (h3 : statement.name ≠ Indices.TABLE_NAME) (hq : NoFaults w.faults) :
    drop_index statement w
      = (Except.ok (QueryResult.ofMessage ("dropped index " ++ statement.indexName)),
          { rel := fun m => if m = Indices.TABLE_NAME
                then Slots.erase_matching (w.rel Indices.TABLE_NAME)
                  (index_where statement.name statement.indexName)
                else w.rel m,
            faults := w.faults.drop
              ((Slots.selectFrom (w.rel Indices.TABLE_NAME) 0
                (index_where statement.name statement.indexName)).length + 2),
            calls := w.calls
              + ((Slots.selectFrom (w.rel Indices.TABLE_NAME) 0
                (index_where statement.name statement.indexName)).length + 2) }) := by
  unfold drop_index
  simp only [h1, h2, h3, or_self, if_false, create_index_where]
  rw [Exec.bind_ok (get_table_quiet _ _ hq.next_none)]
  rw [Exec.bind_ok (select_quiet _ _ _ (by simpa using hq.tail.next_none))]
  rw [Exec.bind_ok (del_all_quiet _ _ _ (by simpa using hq.tail.tail))]
  rw [Exec.pure_eq]
  refine congrArg (Prod.mk _) ?_
  rw [World.eq_iff]
  refine ⟨?_, ?_, ?_⟩
  · funext m
    by_cases hm : m = Indices.TABLE_NAME
    · subst hm
      simp [del_handles_selectFrom_zero]
    · simp [hm]
  · simp
  · simp; omega

/-! ## C16: a successful `drop_index` -/

/-- C16.  For every world and every table name that is none of `_tables`,
`_columns`, `_indices`, and every index name: when no call into the relation
layer raises, `drop_index` returns the result with message "dropped index " +
index name and no rows, `_indices` holds exactly its former rows that are not
rows of that index of that table, in their former order, and every other
relation, `_tables` and `_columns` among them, is as it was. -/
theorem drop_index_removes_index_rows (statement : DropStatement) (w : World)
    (h1 : statement.name ≠ Tables.TABLE_NAME) (h2 : statement.name ≠ Columns.TABLE_NAME)
    (h3 : statement.name ≠ Indices.TABLE_NAME) (hq : NoFaults w.faults) :
    (drop_index statement w).1
        = Except.ok { column_names := none, column_attributes := none, rows := none,
                      message := "dropped index " ++ statement.indexName }
      ∧ ((drop_index statement w).2.rel Indices.TABLE_NAME).rows
          = (w.rel Indices.TABLE_NAME).rows.filter (fun row =>
              decide (¬ (ValueDict.find row "table_name" = some (Value.TEXT statement.name)
                ∧ ValueDict.find row "index_name" = some (Value.TEXT statement.indexName))))
      ∧ (∀ n : Identifier, n ≠ Indices.TABLE_NAME →
          (drop_index statement w).2.rel n = w.rel n) := by
  rw [drop_index_quiet statement w h1 h2 h3 hq]
  refine ⟨rfl, ?_, ?_⟩
  · simp only [if_true, rows_erase_matching]
    apply List.filter_congr
    intro row _
    by_cases hm : ValueDict.matches row (index_where statement.name statement.indexName) = true
    · have := (matches_index_where _ _ _).1 hm
      simp [hm, this]
    · have hn : ¬ (ValueDict.find row "table_name" = some (Value.TEXT statement.name)
          ∧ ValueDict.find row "index_name" = some (Value.TEXT statement.indexName)) :=
        fun h => hm ((matches_index_where _ _ _).2 h)
      simp only [hm, hn]
      simp
  · intro n hn
    simp [hn]

/-- C16 at `DROP INDEX idx FROM t` on a catalog holding the two rows of that
index. -/
theorem drop_index_removes_index_rows_witness :
    drop_idx.name ≠ Tables.TABLE_NAME ∧ drop_idx.name ≠ Columns.TABLE_NAME
      ∧ drop_idx.name ≠ Indices.TABLE_NAME ∧ NoFaults (World.with_idx []).faults
      ∧ ((drop_index drop_idx (World.with_idx [])).2.rel Indices.TABLE_NAME).rows = [] :=
  ⟨by decide, by decide, by decide, by decide,
   (drop_index_removes_index_rows drop_idx (World.with_idx []) (by decide) (by decide)
     (by decide) (by decide)).2.1⟩

/-! ## C17: the error boundary of `execute` -/

/-- C17.  For every statement and world, with `create`, `drop` and `show_`
the handlers `execute` routes CREATE, DROP and SHOW statements to: when the
handler raises `DbRelationError` with message `m`, `execute` raises
`SQLExecError` with message "DbRelationError: " + `m`; when the handler raises
any error that is not a `DbRelationError`, `execute` raises that same error; in
both cases the world is the one the handler left. -/
theorem execute_wraps_relation_errors (w v : World) :
    (∀ (s : CreateStatement) (m : String),
        create s w = (Except.error (Error.DbRelationError m), v) →
        execute (SQLStatement.kStmtCreate s) w
          = (Except.error (Error.SQLExecError ("DbRelationError: " ++ m)), v))
      ∧ (∀ (s : DropStatement) (m : String),
        drop s w = (Except.error (Error.DbRelationError m), v) →
        execute (SQLStatement.kStmtDrop s) w
          = (Except.error (Error.SQLExecError ("DbRelationError: " ++ m)), v))
      ∧ (∀ (s : ShowStatement) (m : String),
        show_ s w = (Except.error (Error.DbRelationError m), v) →
        execute (SQLStatement.kStmtShow s) w
          = (Except.error (Error.SQLExecError ("DbRelationError: " ++ m)), v))
      ∧ (∀ (s : CreateStatement) (e : Error), (∀ m : String, e ≠ Error.DbRelationError m) →
        create s w = (Except.error e, v) →
        execute (SQLStatement.kStmtCreate s) w = (Except.error e, v))
      ∧ (∀ (s : DropStatement) (e : Error), (∀ m : String, e ≠ Error.DbRelationError m) →
        drop s w = (Except.error e, v) →
        execute (SQLStatement.kStmtDrop s) w = (Except.error e, v))
      ∧ (∀ (s : ShowStatement) (e : Error), (∀ m : String, e ≠ Error.DbRelationError m) →
        show_ s w = (Except.error e, v) →
        execute (SQLStatement.kStmtShow s) w = (Except.error e, v)) := by
  have hwrap : ∀ (body : M QueryResult) (m : String),
      body w = (Except.error (Error.DbRelationError m), v) →
      Exec.tryCatch body (fun e =>
        match e with
        | Error.DbRelationError what =>
          Exec.throw (Error.SQLExecError ("DbRelationError: " ++ what))
        | e => Exec.throw e) w
        = (Except.error (Error.SQLExecError ("DbRelationError: " ++ m)), v) := by
    intro body m h
    rw [Exec.tryCatch_error h]
    rfl
  have hpass : ∀ (body : M QueryResult) (e : Error), (∀ m : String, e ≠ Error.DbRelationError m) →
      body w = (Except.error e, v) →
      Exec.tryCatch body (fun e =>
        match e with
        | Error.DbRelationError what =>
          Exec.throw (Error.SQLExecError ("DbRelationError: " ++ what))
        | e => Exec.throw e) w
        = (Except.error e, v) := by
    intro body e hne h
    rw [Exec.tryCatch_error h]
    cases e with
    | DbRelationError m => exact absurd rfl (hne m)
    | SQLExecError m => rfl
    | exception m => rfl
    | undefined => rfl
  exact ⟨fun s m h => hwrap (create s) m h, fun s m h => hwrap (drop s) m h,
    fun s m h => hwrap (show_ s) m h, fun s e hne h => hpass (create s) e hne h,
    fun s e hne h => hpass (drop s) e hne h, fun s e hne h => hpass (show_ s) e hne h⟩

/-- C17 at `SHOW TABLES` with a failing selection, and at `DROP TABLE
_tables`. -/
theorem execute_wraps_relation_errors_witness :
    (execute (SQLStatement.kStmtShow show_tables_stmt)
        (World.initial [some (Error.DbRelationError "cannot read")])).1
        = Except.error (Error.SQLExecError "DbRelationError: cannot read")
      ∧ (execute (SQLStatement.kStmtDrop (drop_table_of "_tables")) (World.initial [])).1
        = Except.error (Error.SQLExecError "cannot drop a schema table") :=
  ⟨congrArg Prod.fst ((execute_wraps_relation_errors
      (World.initial [some (Error.DbRelationError "cannot read")])
      (World.initial [some (Error.DbRelationError "cannot read")]).tick).2.2.1
        show_tables_stmt "cannot read" rfl),
   congrArg Prod.fst ((execute_wraps_relation_errors (World.initial [])
      (World.initial [])).2.2.2.2.1 (drop_table_of "_tables")
        (Error.SQLExecError "cannot drop a schema table") (by intro m h; cases h) rfl)⟩

/-- The inner handler of `create_table` raises the error it caught, whatever
the deletions do. -/
theorem inner_handler_raises (columns : DbRelation) (e : Error) (hs : Handles) (w : World) :
    (do
      let c_handles ← (Scope.get : Scope Handles Handles)
      Exec.trySwallow (Scope.run (del_all columns c_handles))
      (Exec.throw e : Scope Handles Unit)) (hs, w)
      = (Except.error e, (hs, (del_all columns hs w).2)) := rfl

theorem create_table_raises (statement : CreateStatement) (w : World) (p : Nat) (e : Error)
    (post : List (Option Error)) (hcols : ∀ c ∈ statement.columns, Supported c)
    (hp : p ≤ statement.columns.length + 3)
    (hf : w.faults = List.replicate p none ++ some e :: post) :
    (create_table statement w).1 = Except.error e := by
  unfold create_table
  rw [Exec.bind_ok (column_definitions_supported _ hcols w)]
  cases p with
  | zero =>
    have h0 : nextFault w.faults = some e := by simp [hf, nextFault]
    rw [Exec.bind_error (insert_fault _ _ _ e h0)]
  | succ k =>
    have h0 : nextFault w.faults = none := by simp [hf, nextFault, List.replicate_succ]
    rw [Exec.bind_ok (insert_quiet _ _ _ h0)]
    cases k with
    | zero =>
      have h1 : nextFault (w.tick.setRel Tables.TABLE_NAME (w.rel Tables.TABLE_NAME ++
          [some (ValueDict.set [] "table_name" (Value.TEXT statement.tableName))])).faults
          = some e := by simp [hf, nextFault]
      rw [Exec.bind_error (Exec.tryCatch_error (Scope.enter_eq (l := [])
        (Exec.bind_error (Scope.run_eq [] (get_table_fault _ _ e h1)))))]
    | succ j =>
      have h1 : nextFault (w.tick.setRel Tables.TABLE_NAME (w.rel Tables.TABLE_NAME ++
          [some (ValueDict.set [] "table_name" (Value.TEXT statement.tableName))])).faults
          = none := by simp [hf, nextFault, List.replicate_succ]
      obtain ⟨l, hbody⟩ := create_table_body_fault statement
        (w.tick.setRel Tables.TABLE_NAME (w.rel Tables.TABLE_NAME ++
          [some (ValueDict.set [] "table_name" (Value.TEXT statement.tableName))])).tick j e post
        (by omega) (by simp [hf, List.replicate_succ])
      rw [Exec.bind_error (Exec.tryCatch_error (Scope.enter_eq
        ((Exec.bind_ok (Scope.run_eq [] (get_table_quiet _ _ h1))).trans
          ((Exec.tryCatch_error hbody).trans (inner_handler_raises _ e _ _)))))]

/-! ## C18: the error `create_table` raises -/

/-- C18.  For every world, every CREATE TABLE statement with INT and TEXT
columns and every fault schedule whose first error `e` falls on a call of
`create_table` (the insert into `_tables`, the lookup of `_columns`, one of
the inserts into `_columns`, the lookup of the table, `create` or
`create_if_not_exists`), whatever the schedule holds after it, so whether the
compensating deletes succeed or raise errors of their own: `create_table`
raises `e`. -/
theorem create_table_raises_first_error (statement : CreateStatement) (w : World) (p : Nat)
    (e : Error) (post : List (Option Error))
    (hcols : ∀ c ∈ statement.columns, Supported c)
    (hp : p ≤ statement.columns.length + 3)
    (hf : w.faults = List.replicate p none ++ some e :: post) :
    (create_table statement w).1 = Except.error e :=
  create_table_raises statement w p e post hcols hp hf

/-- C18 at `CREATE TABLE t (a INT, b TEXT)` on the initial catalog: the
physical creation raises and both compensating deletes raise too. -/
theorem create_table_raises_first_error_witness :
    (create_table create_t_a_b
        (World.initial [none, none, none, none, none,
          some (Error.DbRelationError "t already exists"),
          some (Error.DbRelationError "cannot delete"),
          some (Error.exception "cannot delete either")])).1
      = Except.error (Error.DbRelationError "t already exists") :=
  create_table_raises_first_error create_t_a_b
    (World.initial [none, none, none, none, none,
      some (Error.DbRelationError "t already exists"),
      some (Error.DbRelationError "cannot delete"),
      some (Error.exception "cannot delete either")]) 5
    (Error.DbRelationError "t already exists")
    [some (Error.DbRelationError "cannot delete"), some (Error.exception "cannot delete either")]
    (by decide) (by decide) rfl

theorem insert_index_columns_wrap (indices : DbRelation) (t i ty : Identifier)
    (cols : List Identifier) (row : ValueDict) (hrow : IndicesRowBase t i ty row)
    (idx : Nat) (w : World) (hq : NoFaults w.faults) :
    insert_index_columns indices cols row idx w
      = (Except.ok (),
          { rel := fun m => if m = indices
                then w.rel indices ++ (List.zipWith (fun c seq => some (indices_row t i ty c seq))
                  cols (seq_values idx cols.length))
                else w.rel m,
            faults := w.faults.drop cols.length,
            calls := w.calls + cols.length }) := by
  induction cols generalizing row idx w with
  | nil =>
    simp only [insert_index_columns, Exec.pure_eq]
    refine congrArg (Prod.mk _) ?_
    rw [World.eq_iff]
    refine ⟨?_, by simp, by simp⟩
    funext m
    by_cases hm : m = indices <;> simp [hm, seq_values]
  | cons c cs ih =>
    simp only [insert_index_columns]
    have hr : ValueDict.set (ValueDict.set row "column_name" (Value.TEXT c)) "seq_in_index"
        (Value.INT (((idx + 1) % 65536 : Nat) : Int))
          = indices_row t i ty c ((idx + 1) % 65536) := hrow c ((idx + 1) % 65536)
    rw [hr]
    rw [Exec.bind_ok (insert_quiet _ _ _ hq.next_none)]
    rw [ih _ (indicesRowBase_next t i ty c _) ((idx + 1) % 65536) _ (by simpa using hq.tail)]
    refine congrArg (Prod.mk _) ?_
    rw [World.eq_iff]
    refine ⟨?_, ?_, ?_⟩
    · funext m
      by_cases hm : m = indices <;> simp [hm, seq_values]
    · simp
    · simp; omega

theorem create_index_wrap (statement : CreateStatement) (w : World)
    (hnone : ∀ row ∈ (w.rel Indices.TABLE_NAME).rows,
      ¬ (ValueDict.find row "table_name" = some (Value.TEXT statement.tableName)
        ∧ ValueDict.find row "index_name" = some (Value.TEXT statement.indexName)))
    (hq : NoFaults w.faults) :
    create_index statement w
      = (Except.ok (QueryResult.ofMessage ("created index " ++ statement.indexName)),
          { rel := fun m => if m = Indices.TABLE_NAME
                then w.rel Indices.TABLE_NAME
                  ++ (List.zipWith (fun c seq => some (indices_row statement.tableName
                      statement.indexName statement.indexType c seq))
                    statement.indexColumns (seq_values 0 statement.indexColumns.length))
                else w.rel m,
            faults := w.faults.drop (statement.indexColumns.length + 2),
            calls := w.calls + (statement.indexColumns.length + 2) }) := by
  unfold create_index
  rw [Exec.bind_ok (get_table_quiet _ _ hq.next_none)]
  rw [Exec.bind_ok (select_quiet _ _ _ (by simpa using hq.tail.next_none))]
  have hnil : Slots.selectFrom (w.rel Indices.TABLE_NAME) 0
      (ValueDict.set (ValueDict.set [] "table_name" (Value.TEXT statement.tableName))
        "index_name" (Value.TEXT statement.indexName)) = [] := by
    rw [create_index_where]
    exact selectFrom_eq_nil (index_where statement.tableName statement.indexName)
      (w.rel Indices.TABLE_NAME) (fun row hrow hm => hnone row hrow
        ((matches_index_where _ _ _).1 hm))
  simp only [World.tick_rel, hnil, List.length_nil, gt_iff_lt, lt_self_iff_false, if_false]
  rw [Exec.bind_ok (insert_index_columns_wrap _ statement.tableName statement.indexName
    statement.indexType _ _ (indicesRowBase_init _ _ _) 0 _ (by simpa using hq.tail.tail))]
  rw [Exec.pure_eq]
  refine congrArg (Prod.mk _) ?_
  rw [World.eq_iff]
  refine ⟨?_, ?_, ?_⟩
  · funext m
    by_cases hm : m = Indices.TABLE_NAME <;> simp [hm]
  · simp
  · simp; omega

theorem seq_values_getElem (n : Nat) : ∀ (idx j : Nat), j < n →
    (seq_values idx n)[j]? = some ((idx + j + 1) % 65536) := by
  induction n with
  | zero => intro idx j h; omega
  | succ n ih =>
    intro idx j h
    cases j with
    | zero => simp [seq_values]
    | succ j =>
      have := ih ((idx + 1) % 65536) j (by omega)
      simp only [seq_values, List.getElem?_cons_succ, this]
      congr 1
      omega

theorem seq_values_length (n : Nat) : ∀ idx : Nat, (seq_values idx n).length = n := by
  induction n with
  | zero => intro idx; rfl
  | succ n ih => intro idx; simp [seq_values, ih]

theorem create_index_65536_none :
    ∀ row ∈ ((World.initial []).rel Indices.TABLE_NAME).rows,
      ¬ (ValueDict.find row "table_name" = some (Value.TEXT create_idx_65536.tableName)
        ∧ ValueDict.find row "index_name"
          = some (Value.TEXT create_idx_65536.indexName)) := by
  intro row hrow
  have : ((World.initial []).rel Indices.TABLE_NAME).rows = [] := by decide
  rw [this] at hrow
  cases hrow

theorem create_index_65536_rows :
    ((create_index create_idx_65536 (World.initial [])).2.rel Indices.TABLE_NAME).rows
      = List.zipWith (fun c seq => indices_row "t" "idx" "BTREE" c seq)
          (List.replicate 65536 "a") (seq_values 0 65536) := by
  rw [create_index_wrap create_idx_65536 (World.initial []) create_index_65536_none
    (by decide)]
  have hI : (World.initial []).rel Indices.TABLE_NAME = [] := by decide
  have hlen : create_idx_65536.indexColumns.length = 65536 := List.length_replicate _ _
  simp only [if_true, hI, List.nil_append, hlen]
  exact Slots.rows_zipWith_some _ _ _

theorem zipWith_getElem_some {α β γ : Type} (f : α → β → γ) (l : List α) (k : List β)
    (j : Nat) (a : α) (b : β) (h1 : l[j]? = some a) (h2 : k[j]? = some b) :
    (List.zipWith f l k)[j]? = some (f a b) := by
  rw [List.getElem?_zipWith, h1, h2]

theorem replicate_65536_getElem (j : Nat) (h : j < 65536) :
    (List.replicate 65536 "a")[j]? = some "a" := by
  rw [List.getElem?_replicate, if_pos h]

theorem create_index_65536_row (j : Nat) (h : j < 65536) :
    ((create_index create_idx_65536 (World.initial [])).2.rel Indices.TABLE_NAME).rows[j]?
      = some (indices_row "t" "idx" "BTREE" "a" ((0 + j + 1) % 65536)) :=
  (congrArg (fun l : ValueDicts => l[j]?) create_index_65536_rows).trans
    (zipWith_getElem_some _ _ _ _ _ _ (replicate_65536_getElem j h)
      (seq_values_getElem 65536 0 j h))

/-! ## C19: the sequence numbers of a long index -/

/-- C19, at a failing input.  `CREATE INDEX idx ON t USING BTREE (a, ..., a)`
with 65536 column names, on the initial catalog with no call raising, returns
"created index idx"; the row of the 65535th column carries `seq_in_index`
65535 and the row of the 65536th column carries `seq_in_index` 0, not 65536:
the 16-bit counter has wrapped and the sequence is not increasing. -/
theorem create_index_sequence_wraps :
    (create_index create_idx_65536 (World.initial [])).1
        = Except.ok { column_names := none, column_attributes := none, rows := none,
                      message := "created index idx" }
      ∧ ((create_index create_idx_65536 (World.initial [])).2.rel Indices.TABLE_NAME).rows[65534]?
        = some [("table_name", Value.TEXT "t"), ("index_name", Value.TEXT "idx"),
                ("index_type", Value.TEXT "BTREE"), ("is_unique", Value.BOOLEAN true),
                ("seq_in_index", Value.INT 65535), ("column_name", Value.TEXT "a")]
      ∧ ((create_index create_idx_65536 (World.initial [])).2.rel Indices.TABLE_NAME).rows[65535]?
        = some [("table_name", Value.TEXT "t"), ("index_name", Value.TEXT "idx"),
                ("index_type", Value.TEXT "BTREE"), ("is_unique", Value.BOOLEAN true),
                ("seq_in_index", Value.INT 0), ("column_name", Value.TEXT "a")] := by
  exact ⟨(congrArg Prod.fst (create_index_wrap create_idx_65536 (World.initial [])
      create_index_65536_none (by decide))).trans rfl,
    create_index_65536_row 65534 (by decide), create_index_65536_row 65535 (by decide)⟩

theorem show_columns_counts_rows (statement : ShowStatement) (w : World)
    (hq : NoFaults w.faults) (r : QueryResult)
    (h : (show_columns statement w).1 = Except.ok r) :
    ∃ rows : ValueDicts, r.rows = some rows
      ∧ r.message = "successfully returned " ++ to_string rows.length ++ " rows" := by
  rw [(show_columns_quiet statement w hq).1, show_columns_of] at h
  cases hp : project_rows ["table_name", "column_name", "data_type"]
      ((w.rel Columns.TABLE_NAME).rows.filter
        (fun row => ValueDict.matches row (tables_row statement.tableName))) with
  | error e => simp [hp] at h
  | ok ps =>
    simp only [hp, Except.ok.injEq] at h
    subst h
    exact ⟨ps, rfl, by simp [project_rows_length _ _ _ hp]⟩

theorem show_index_counts_rows (statement : ShowStatement) (w : World)
    (hq : NoFaults w.faults) (r : QueryResult)
    (h : (show_index statement w).1 = Except.ok r) :
    ∃ rows : ValueDicts, r.rows = some rows
      ∧ r.message = "successfully returned " ++ to_string rows.length ++ " rows" := by
  rw [(show_index_quiet statement w hq).1, show_index_of] at h
  cases hp : project_rows
      ["table_name", "index_name", "column_name", "seq_in_index", "index_type", "is_unique"]
      ((w.rel Indices.TABLE_NAME).rows.filter
        (fun row => ValueDict.matches row (tables_row statement.tableName))) with
  | error e => simp [hp] at h
  | ok ps =>
    simp only [hp, Except.ok.injEq] at h
    subst h
    exact ⟨ps, rfl, by simp [project_rows_length _ _ _ hp]⟩

/-! ## C11: the row count in the message of the show handlers -/

/-- C11, at a failing input.  On the initial catalog `DROP TABLE _indices`
returns "dropped _indices" and leaves two rows in `_tables`; `SHOW TABLES`
then returns no row, under the message "successfully returned
18446744073709551615 rows": the count is the number of `_tables` rows minus 3,
computed in 64-bit unsigned arithmetic, not the number of rows returned. -/
theorem show_tables_count_is_not_row_count :
    (drop_table (drop_table_of "_indices") (World.initial [])).1
        = Except.ok (QueryResult.ofMessage "dropped _indices")
      ∧ ((drop_table (drop_table_of "_indices") (World.initial [])).2.rel
            Tables.TABLE_NAME).rows
        = [[("table_name", Value.TEXT "_tables")], [("table_name", Value.TEXT "_columns")]]
      ∧ (show_tables (drop_table (drop_table_of "_indices") (World.initial [])).2).1
        = Except.ok { column_names := some ["table_name"],
                      column_attributes := some [ColumnAttribute.TEXT],
                      rows := some [],
                      message := "successfully returned 18446744073709551615 rows" } :=
  ⟨rfl, rfl, rfl⟩

/-! ## C14: which bootstrap relations `drop_table` protects -/

/-- C14, as the guard is written.  In every world `drop_table` of `_tables`
and of `_columns` raises "cannot drop a schema table" and leaves the world as
it was; `_indices` is not protected: when no call into the relation layer
raises and `_tables` holds a row of `_indices`, `drop_table` of `_indices`
returns "dropped _indices". -/
theorem drop_table_protects_tables_and_columns (w : World) (type : DropType)
    (indexName : Identifier) :
    drop_table { type := type, name := Tables.TABLE_NAME, indexName := indexName } w
        = (Except.error (Error.SQLExecError "cannot drop a schema table"), w)
      ∧ drop_table { type := type, name := Columns.TABLE_NAME, indexName := indexName } w
        = (Except.error (Error.SQLExecError "cannot drop a schema table"), w)
      ∧ (NoFaults w.faults →
          (∃ row ∈ (w.rel Tables.TABLE_NAME).rows,
            ValueDict.find row "table_name" = some (Value.TEXT Indices.TABLE_NAME)) →
          (drop_table { type := type, name := Indices.TABLE_NAME, indexName := indexName } w).1
            = Except.ok { column_names := none, column_attributes := none, rows := none,
                          message := "dropped _indices" }) := by
  refine ⟨by simp [drop_table, Exec.throw], by simp [drop_table, Exec.throw], ?_⟩
  intro hq hrow
  have hrow' : ∃ row ∈ (w.rel Tables.TABLE_NAME).rows,
      ValueDict.matches row (tables_row Indices.TABLE_NAME) = true := by
    obtain ⟨row, hmem, hfind⟩ := hrow
    exact ⟨row, hmem, by simp [matches_tables_row, hfind]⟩
  have hit : Indices.TABLE_NAME ≠ Tables.TABLE_NAME := by decide
  have hic : Indices.TABLE_NAME ≠ Columns.TABLE_NAME := by decide
  rw [drop_table_quiet { type := type, name := Indices.TABLE_NAME, indexName := indexName } w
    hit hic hq hrow']
  rfl

/-- C14, as the guard is written, on the initial catalog. -/
theorem drop_table_protects_tables_and_columns_witness :
    NoFaults (World.initial []).faults
      ∧ (drop_table { type := DropType.kTable, name := Indices.TABLE_NAME, indexName := "" }
          (World.initial [])).1
        = Except.ok { column_names := none, column_attributes := none, rows := none,
                      message := "dropped _indices" } :=
  ⟨by decide,
   (drop_table_protects_tables_and_columns (World.initial []) DropType.kTable "").2.2
     (by decide) ⟨tables_row Indices.TABLE_NAME, by decide, by decide⟩⟩

/-- C14 fails as stated for `_indices`: on the initial catalog `DROP TABLE
_indices` raises no error; it returns "dropped _indices" and the `_tables` row
of `_indices` is gone. -/
theorem drop_table_indices_is_not_protected :
    (drop_table (drop_table_of "_indices") (World.initial [])).1
        = Except.ok (QueryResult.ofMessage "dropped _indices")
      ∧ (∀ e : Error,
          (drop_table (drop_table_of "_indices") (World.initial [])).1 ≠ Except.error e)
      ∧ ((drop_table (drop_table_of "_indices") (World.initial [])).2.rel
            Tables.TABLE_NAME).rows
        = [[("table_name", Value.TEXT "_tables")], [("table_name", Value.TEXT "_columns")]] := by
  refine ⟨rfl, ?_, rfl⟩
  intro e h
  have h' : (drop_table (drop_table_of "_indices") (World.initial [])).1
      = Except.ok (QueryResult.ofMessage "dropped _indices") := rfl
  rw [h'] at h
  cases h

/-! ## Fault erasure -/

theorem Exec.bind_ok_inv {σ α β : Type} {m : Exec σ α} {f : α → Exec σ β} {s u : σ} {b : β}
    (h : (m >>= f) s = (Except.ok b, u)) :
    ∃ (a : α) (t : σ), m s = (Except.ok a, t) ∧ f a t = (Except.ok b, u) := by
  cases hm : m s with
  | mk res t =>
    cases res with
    | error e =>
      rw [Exec.bind_error hm] at h
      cases h
    | ok a =>
      rw [Exec.bind_ok hm] at h
      exact ⟨a, t, rfl, h⟩

theorem Erasable.pure_erasable {σ α : Type} (R : σ → σ → Prop) (Q : σ → Prop) (a : α) :
    Erasable R Q (Pure.pure a : Exec σ α) := by
  intro s t b u hR hQ h
  rw [Exec.pure_eq] at h
  cases h
  exact ⟨t, rfl, hR, hQ⟩

theorem Erasable.throw_erasable {σ α : Type} (R : σ → σ → Prop) (Q : σ → Prop) (e : Error) :
    Erasable R Q (Exec.throw e : Exec σ α) := by
  intro s t b u _ _ h
  cases h

theorem Erasable.bind_erasable {σ α β : Type} {R : σ → σ → Prop} {Q : σ → Prop} {m : Exec σ α}
    {f : α → Exec σ β} (hm : Erasable R Q m) (hf : ∀ a, Erasable R Q (f a)) :
    Erasable R Q (m >>= f) := by
  intro s t b u hR hQ h
  obtain ⟨a, s1, h1, h2⟩ := Exec.bind_ok_inv h
  obtain ⟨t1, g1, hR1, hQ1⟩ := hm s t a s1 hR hQ h1
  obtain ⟨v, g2, hR2, hQ2⟩ := hf a s1 t1 b u hR1 hQ1 h2
  exact ⟨v, by rw [Exec.bind_ok g1]; exact g2, hR2, hQ2⟩

/-- A guarded block whose handler always raises returns only when its body
returns. -/
theorem Exec.tryCatch_ok_inv {σ α : Type} {body : Exec σ α} {handler : Error → Exec σ α}
    (hh : ∀ (e : Error) (s : σ) (a : α) (u : σ), handler e s ≠ (Except.ok a, u))
    {s u : σ} {a : α} (h : Exec.tryCatch body handler s = (Except.ok a, u)) :
    body s = (Except.ok a, u) := by
  cases hb : body s with
  | mk res t =>
    cases res with
    | error e =>
      rw [Exec.tryCatch_error hb] at h
      exact absurd h (hh e t a u)
    | ok b =>
      rw [Exec.tryCatch_ok hb] at h
      exact h

theorem Erasable.tryCatch_erasable {σ α : Type} {R : σ → σ → Prop} {Q : σ → Prop} {body : Exec σ α}
    {handler : Error → Exec σ α} (hb : Erasable R Q body)
    (hh : ∀ (e : Error) (s : σ) (a : α) (u : σ), handler e s ≠ (Except.ok a, u)) :
    Erasable R Q (Exec.tryCatch body handler) := by
  intro s t a u hR hQ h
  obtain ⟨v, g, hR1, hQ1⟩ := hb s t a u hR hQ (Exec.tryCatch_ok_inv hh h)
  exact ⟨v, Exec.tryCatch_ok g, hR1, hQ1⟩

theorem relationCall_ok_inv {α : Type} {op : World → Except Error α × World} {w u : World}
    {a : α} (h : relationCall op w = (Except.ok a, u)) :
    nextFault w.faults = none ∧ op w.tick = (Except.ok a, u) := by
  cases hn : nextFault w.faults with
  | some e =>
    rw [relationCall_fault _ _ e hn] at h
    cases h
  | none =>
    rw [relationCall_quiet _ _ hn] at h
    exact ⟨rfl, h⟩

theorem Erasable.relationCall_erasable {α : Type} {op : World → Except Error α × World}
    (hop : RelationOnly op) : Erasable SameRel Quiet (relationCall op) := by
  intro w v a u hR hQ h
  obtain ⟨_, h2⟩ := relationCall_ok_inv h
  have hv : SQLExec.relationCall op v = op v.tick := relationCall_quiet _ _ hQ.next_none
  obtain ⟨e1, e2, e3⟩ := hop w.tick v.tick hR
  refine ⟨(op v.tick).2, ?_, ?_, ?_⟩
  · rw [hv]
    have : (op v.tick).1 = Except.ok a := by rw [← e1, h2]
    exact Prod.ext this rfl
  · show u.rel = (op v.tick).2.rel
    rw [← e2, h2]
  · show NoFaults (op v.tick).2.faults
    rw [e3]
    exact hQ.tail

theorem Erasable.get_table_erasable (name : Identifier) : Erasable SameRel Quiet (get_table name) :=
  Erasable.relationCall_erasable (fun _ _ h => ⟨rfl, h, rfl⟩)

theorem Erasable.insert_erasable (r : DbRelation) (row : ValueDict) :
    Erasable SameRel Quiet (DbRelation.insert r row) :=
  Erasable.relationCall_erasable (fun w v h => ⟨by simp [h], by simp [h], rfl⟩)

theorem Erasable.select_erasable (r : DbRelation) (where_ : ValueDict) :
    Erasable SameRel Quiet (DbRelation.select r where_) :=
  Erasable.relationCall_erasable (fun w v h => ⟨by simp [h], h, rfl⟩)

theorem Erasable.del_erasable (r : DbRelation) (hd : Handle) :
    Erasable SameRel Quiet (DbRelation.del r hd) :=
  Erasable.relationCall_erasable (fun w v h => ⟨rfl, by simp [h], rfl⟩)

theorem Erasable.create_erasable (r : DbRelation) : Erasable SameRel Quiet (DbRelation.create r) :=
  Erasable.relationCall_erasable (fun _ _ h => ⟨rfl, h, rfl⟩)

theorem Erasable.create_if_not_exists_erasable (r : DbRelation) :
    Erasable SameRel Quiet (DbRelation.create_if_not_exists r) :=
  Erasable.relationCall_erasable (fun _ _ h => ⟨rfl, h, rfl⟩)

theorem Erasable.drop_erasable (r : DbRelation) : Erasable SameRel Quiet (DbRelation.drop r) :=
  Erasable.relationCall_erasable (fun w v h => ⟨rfl, by simp [h], rfl⟩)

theorem Erasable.del_all_erasable (r : DbRelation) : ∀ hs : Handles, Erasable SameRel Quiet (del_all r hs)
  | [] => Erasable.pure_erasable _ _ _
  | h :: hs => Erasable.bind_erasable (Erasable.del_erasable r h) (fun _ => Erasable.del_all_erasable r hs)

theorem Erasable.insert_index_columns_erasable (indices : DbRelation) :
    ∀ (cols : List Identifier) (row : ValueDict) (idx : Nat),
      Erasable SameRel Quiet (insert_index_columns indices cols row idx)
  | [], _, _ => Erasable.pure_erasable _ _ _
  | _ :: cols, _, _ =>
    Erasable.bind_erasable (Erasable.insert_erasable _ _) (fun _ => Erasable.insert_index_columns_erasable indices cols _ _)

theorem Erasable.scope_run_erasable {L α : Type} {m : M α} (hm : Erasable SameRel Quiet m) :
    Erasable (SameRelIn L) (QuietIn L) (Scope.run m) := by
  intro s t a u hR hQ h
  have h1 : m s.2 = (Except.ok a, u.2) := by
    have := congrArg Prod.fst h
    have h2 := congrArg (fun r => r.2.2) h
    simp only [Scope.run] at this h2
    exact Prod.ext this h2
  have hl : u.1 = s.1 := by
    have := congrArg (fun r => r.2.1) h
    simp only [Scope.run] at this
    exact this.symm
  obtain ⟨v, g, hR1, hQ1⟩ := hm s.2 t.2 a u.2 hR.2 hQ h1
  refine ⟨(t.1, v), ?_, ⟨?_, hR1⟩, hQ1⟩
  · simp [Scope.run, g]
  · show u.1 = t.1
    rw [hl, hR.1]

theorem Erasable.scope_get_erasable {L : Type} :
    Erasable (SameRelIn L) (QuietIn L) (Scope.get : Scope L L) := by
  intro s t a u hR hQ h
  simp only [Scope.get, Prod.mk.injEq, Except.ok.injEq] at h
  obtain ⟨h1, h2⟩ := h
  subst h1 h2
  exact ⟨t, by simp [Scope.get, hR.1], hR, hQ⟩

theorem Erasable.scope_modify_erasable {L : Type} (f : L → L) :
    Erasable (SameRelIn L) (QuietIn L) (Scope.modify f) := by
  intro s t a u hR hQ h
  simp only [Scope.modify, Prod.mk.injEq] at h
  obtain ⟨_, h2⟩ := h
  subst h2
  exact ⟨(f t.1, t.2), rfl, ⟨by simp [hR.1], hR.2⟩, hQ⟩

theorem Erasable.scope_enter_erasable {L α : Type} {init : L} {m : Scope L α}
    (hm : Erasable (SameRelIn L) (QuietIn L) m) :
    Erasable SameRel Quiet (Scope.enter init m) := by
  intro w v a u hR hQ h
  have h1 : m (init, w) = (Except.ok a, ((m (init, w)).2.1, u)) := by
    have := congrArg Prod.fst h
    have h2 := congrArg Prod.snd h
    simp only [Scope.enter] at this h2
    exact Prod.ext this (Prod.ext rfl h2)
  obtain ⟨t, g, hR1, hQ1⟩ := hm (init, w) (init, v) a _ ⟨rfl, hR⟩ hQ h1
  exact ⟨t.2, by simp [Scope.enter, g], hR1.2, hQ1⟩

theorem Erasable.column_definition_erasable (col : ColumnDefinition) :
    Erasable SameRel Quiet (column_definition col) := by
  unfold SQLExec.column_definition
  split
  · exact Erasable.pure_erasable _ _ _
  · exact Erasable.pure_erasable _ _ _
  · exact Erasable.throw_erasable _ _ _

theorem Erasable.column_definitions_erasable :
    ∀ cols : List ColumnDefinition, Erasable SameRel Quiet (column_definitions cols)
  | [] => Erasable.pure_erasable _ _ _
  | col :: cols =>
    Erasable.bind_erasable (Erasable.column_definition_erasable col) (fun _ =>
      Erasable.bind_erasable (Erasable.column_definitions_erasable cols) (fun _ => Erasable.pure_erasable _ _ _))

theorem Erasable.insert_columns_erasable (columns : DbRelation) :
    ∀ (ns : ColumnNames) (as : ColumnAttributes) (row : ValueDict),
      Erasable (SameRelIn Handles) (QuietIn Handles) (insert_columns columns ns as row)
  | [], _, _ => by
    unfold SQLExec.insert_columns
    exact Erasable.pure_erasable _ _ _
  | _ :: _, [], _ => by
    unfold SQLExec.insert_columns
    exact Erasable.pure_erasable _ _ _
  | n :: ns, a :: as, row => by
    unfold SQLExec.insert_columns
    exact Erasable.bind_erasable (Erasable.scope_run_erasable (Erasable.insert_erasable _ _)) (fun _ =>
      Erasable.bind_erasable (Erasable.scope_modify_erasable _) (fun _ =>
        Erasable.insert_columns_erasable columns ns as _))

theorem Erasable.create_table_erasable (statement : CreateStatement) :
    Erasable SameRel Quiet (create_table statement) := by
  unfold SQLExec.create_table
  refine Erasable.bind_erasable (Erasable.column_definitions_erasable _) (fun cols => ?_)
  refine Erasable.bind_erasable (Erasable.insert_erasable _ _) (fun t_handle => ?_)
  refine Erasable.bind_erasable (Erasable.tryCatch_erasable (Erasable.scope_enter_erasable ?_) ?_)
    (fun _ => Erasable.pure_erasable _ _ _)
  · refine Erasable.bind_erasable (Erasable.scope_run_erasable (Erasable.get_table_erasable _)) (fun columns => ?_)
    refine Erasable.tryCatch_erasable ?_ ?_
    · refine Erasable.bind_erasable (Erasable.insert_columns_erasable _ _ _ _) (fun _ => ?_)
      refine Erasable.bind_erasable (Erasable.scope_run_erasable (Erasable.get_table_erasable _)) (fun table => ?_)
      split
      · exact Erasable.scope_run_erasable (Erasable.create_if_not_exists_erasable _)
      · exact Erasable.scope_run_erasable (Erasable.create_erasable _)
    · intro e s a u h
      have h' : (Except.error e : Except Error Unit) = Except.ok a := congrArg Prod.fst h
      cases h'
  · intro e s a u h
    have h' : (Except.error e : Except Error Unit) = Except.ok a := congrArg Prod.fst h
    cases h'

theorem Erasable.create_index_erasable (statement : CreateStatement) :
    Erasable SameRel Quiet (create_index statement) := by
  unfold SQLExec.create_index
  refine Erasable.bind_erasable (Erasable.get_table_erasable _) (fun indices => ?_)
  refine Erasable.bind_erasable (Erasable.select_erasable _ _) (fun handles => ?_)
  dsimp only
  by_cases hn : handles.length > 0
  · rw [if_pos hn]
    exact Erasable.pure_erasable _ _ _
  · rw [if_neg hn]
    exact Erasable.bind_erasable (Erasable.insert_index_columns_erasable _ _ _ _) (fun _ => Erasable.pure_erasable _ _ _)

theorem Erasable.drop_table_erasable (statement : DropStatement) :
    Erasable SameRel Quiet (drop_table statement) := by
  unfold SQLExec.drop_table
  dsimp only
  by_cases hg : statement.name = Tables.TABLE_NAME ∨ statement.name = Columns.TABLE_NAME
  · rw [if_pos hg]
    exact Erasable.throw_erasable _ _ _
  · rw [if_neg hg]
    refine Erasable.bind_erasable (Erasable.get_table_erasable _) (fun table => ?_)
    refine Erasable.bind_erasable (Erasable.get_table_erasable _) (fun columns => ?_)
    refine Erasable.bind_erasable (Erasable.select_erasable _ _) (fun handles => ?_)
    refine Erasable.bind_erasable (Erasable.del_all_erasable _ _) (fun _ => ?_)
    refine Erasable.bind_erasable (Erasable.drop_erasable _) (fun _ => ?_)
    refine Erasable.bind_erasable (Erasable.select_erasable _ _) (fun handles => ?_)
    cases handles with
    | nil => exact Erasable.bind_erasable (Erasable.throw_erasable _ _ _) (fun _ => Erasable.pure_erasable _ _ _)
    | cons h hs => exact Erasable.bind_erasable (Erasable.del_erasable _ _) (fun _ => Erasable.pure_erasable _ _ _)

theorem Erasable.drop_index_erasable (statement : DropStatement) :
    Erasable SameRel Quiet (drop_index statement) := by
  unfold SQLExec.drop_index
  dsimp only
  by_cases hg : statement.name = Tables.TABLE_NAME ∨ statement.name = Columns.TABLE_NAME
      ∨ statement.name = Indices.TABLE_NAME
  · rw [if_pos hg]
    exact Erasable.throw_erasable _ _ _
  · rw [if_neg hg]
    refine Erasable.bind_erasable (Erasable.get_table_erasable _) (fun indices => ?_)
    refine Erasable.bind_erasable (Erasable.select_erasable _ _) (fun handles => ?_)
    exact Erasable.bind_erasable (Erasable.del_all_erasable _ _) (fun _ => Erasable.pure_erasable _ _ _)

/-- A run that returned did what the run without faults does: same result,
same relations. -/
theorem Erasable.erase {α : Type} {m : M α} (hm : Erasable SameRel Quiet m) {w u : World}
    {a : α} (h : m w = (Except.ok a, u)) :
    ∃ v : World, m (w.with_faults []) = (Except.ok a, v) ∧ u.rel = v.rel := by
  obtain ⟨v, g, hR, _⟩ := hm w (w.with_faults []) a u rfl (by intro f hf; cases hf) h
  exact ⟨v, g, hR⟩

/-! ## What a handler that returned has done -/

theorem create_table_ok {statement : CreateStatement} {w u : World} {r : QueryResult}
    (h : create_table statement w = (Except.ok r, u)) :
    u.rel = (w.created statement.tableName statement.columns).rel := by
  by_cases hcols : ∀ c ∈ statement.columns, Supported c
  · obtain ⟨v, g, hrel⟩ := (Erasable.create_table_erasable statement).erase h
    rw [create_table_quiet statement (w.with_faults []) hcols (by intro f hf; cases hf)] at g
    rw [hrel, ← (Prod.mk.inj g).2]
    rfl
  · have hex : ∃ c ∈ statement.columns, ¬ Supported c := by
      by_contra hne
      exact hcols (fun c hc => by_contra (fun hs => hne ⟨c, hc, hs⟩))
    have : create_table statement w
        = (Except.error (Error.SQLExecError "unrecognized data type"), w) := by
      unfold create_table
      rw [Exec.bind_error (column_definitions_unsupported _ hex w)]
    rw [this] at h
    cases h

theorem create_index_ok {statement : CreateStatement} {w u : World} {r : QueryResult}
    (h : create_index statement w = (Except.ok r, u)) :
    u.rel = w.rel ∨ u.rel = indexed_rel w statement := by
  obtain ⟨v, g, hrel⟩ := (Erasable.create_index_erasable statement).erase h
  by_cases hdup : ∃ row ∈ (w.rel Indices.TABLE_NAME).rows,
      ValueDict.find row "table_name" = some (Value.TEXT statement.tableName)
        ∧ ValueDict.find row "index_name" = some (Value.TEXT statement.indexName)
  · left
    rw [create_index_duplicate statement (w.with_faults []) hdup rfl rfl] at g
    rw [hrel, ← (Prod.mk.inj g).2]
    rfl
  · right
    have hnone : ∀ row ∈ ((w.with_faults []).rel Indices.TABLE_NAME).rows,
        ¬ (ValueDict.find row "table_name" = some (Value.TEXT statement.tableName)
          ∧ ValueDict.find row "index_name" = some (Value.TEXT statement.indexName)) :=
      fun row hrow hm => hdup ⟨row, hrow, hm⟩
    rw [create_index_wrap statement (w.with_faults []) hnone (by intro f hf; cases hf)] at g
    rw [hrel, ← (Prod.mk.inj g).2]
    rfl

theorem drop_table_undefined (statement : DropStatement) (w : World)
    (h1 : statement.name ≠ Tables.TABLE_NAME) (h2 : statement.name ≠ Columns.TABLE_NAME)
    (hq : NoFaults w.faults)
    (hrow : ¬ ∃ row ∈ (w.rel Tables.TABLE_NAME).rows,
      ValueDict.matches row (tables_row statement.name) = true) :
    (drop_table statement w).1 = Except.error Error.undefined := by
  have hw : ValueDict.set [] "table_name" (Value.TEXT statement.name)
      = tables_row statement.name := rfl
  have htc : Tables.TABLE_NAME ≠ Columns.TABLE_NAME := by decide
  unfold drop_table
  simp only [h1, h2, or_self, if_false, hw]
  rw [Exec.bind_ok (get_table_quiet _ _ hq.next_none)]
  rw [Exec.bind_ok (get_table_quiet _ _ (by simpa using hq.tail.next_none))]
  rw [Exec.bind_ok (select_quiet _ _ _ (by simpa using hq.tail.tail.next_none))]
  rw [Exec.bind_ok (del_all_quiet _ _ _ (by simpa using hq.tail.tail.tail))]
  rw [Exec.bind_ok (drop_quiet _ _ (by simpa using (hq.drop _).next_none))]
  rw [Exec.bind_ok (select_quiet _ _ _ (by simpa using (hq.drop _).tail.next_none))]
  have hsel : Slots.selectFrom (w.rel Tables.TABLE_NAME) 0 (tables_row statement.name) = [] :=
    selectFrom_eq_nil _ _ (fun row hr hm => hrow ⟨row, hr, hm⟩)
  simp only [World.setRel_rel, World.tick_rel, htc, Ne.symm h1, if_false, hsel]
  rfl

theorem drop_table_ok {statement : DropStatement} {w u : World} {r : QueryResult}
    (h : drop_table statement w = (Except.ok r, u)) :
    statement.name ≠ Tables.TABLE_NAME ∧ statement.name ≠ Columns.TABLE_NAME
      ∧ (∃ row ∈ (w.rel Tables.TABLE_NAME).rows,
          ValueDict.matches row (tables_row statement.name) = true)
      ∧ r = QueryResult.ofMessage ("dropped " ++ statement.name)
      ∧ u.rel = (w.dropped statement.name).rel := by
  by_cases hg : statement.name = Tables.TABLE_NAME ∨ statement.name = Columns.TABLE_NAME
  · have : drop_table statement w
        = (Except.error (Error.SQLExecError "cannot drop a schema table"), w) := by
      simp [drop_table, hg, Exec.throw]
    rw [this] at h
    cases h
  · have h1 : statement.name ≠ Tables.TABLE_NAME := fun e => hg (Or.inl e)
    have h2 : statement.name ≠ Columns.TABLE_NAME := fun e => hg (Or.inr e)
    obtain ⟨v, g, hrel⟩ := (Erasable.drop_table_erasable statement).erase h
    by_cases hrow : ∃ row ∈ (w.rel Tables.TABLE_NAME).rows,
        ValueDict.matches row (tables_row statement.name) = true
    · rw [drop_table_quiet statement (w.with_faults []) h1 h2 (by intro f hf; cases hf)
        hrow] at g
      refine ⟨h1, h2, hrow, ?_, ?_⟩
      · have := (Prod.mk.inj g).1
        simp only [Except.ok.injEq] at this
        exact this.symm
      · rw [hrel, ← (Prod.mk.inj g).2]
        rfl
    · have hu := drop_table_undefined statement (w.with_faults []) h1 h2
        (by intro f hf; cases hf) hrow
      rw [g] at hu
      cases hu

theorem drop_index_ok {statement : DropStatement} {w u : World} {r : QueryResult}
    (h : drop_index statement w = (Except.ok r, u)) :
    u.rel = unindexed_rel w statement := by
  by_cases hg : statement.name = Tables.TABLE_NAME ∨ statement.name = Columns.TABLE_NAME
      ∨ statement.name = Indices.TABLE_NAME
  · have : drop_index statement w
        = (Except.error (Error.SQLExecError "cannot drop index for schema table"), w) := by
      simp [drop_index, hg, Exec.throw]
    rw [this] at h
    cases h
  · have h1 : statement.name ≠ Tables.TABLE_NAME := fun e => hg (Or.inl e)
    have h2 : statement.name ≠ Columns.TABLE_NAME := fun e => hg (Or.inr (Or.inl e))
    have h3 : statement.name ≠ Indices.TABLE_NAME := fun e => hg (Or.inr (Or.inr e))
    obtain ⟨v, g, hrel⟩ := (Erasable.drop_index_erasable statement).erase h
    rw [drop_index_quiet statement (w.with_faults []) h1 h2 h3 (by intro f hf; cases hf)] at g
    rw [hrel, ← (Prod.mk.inj g).2]
    rfl

theorem execute_ok {statement : SQLStatement} {w u : World} {r : QueryResult}
    (h : execute statement w = (Except.ok r, u)) :
    (match statement with
      | SQLStatement.kStmtCreate s => create s
      | SQLStatement.kStmtDrop s => drop s
      | SQLStatement.kStmtShow s => show_ s
      | SQLStatement.other => Pure.pure (QueryResult.ofMessage "not implemented")) w
      = (Except.ok r, u) := by
  refine Exec.tryCatch_ok_inv ?_ h
  intro e s a t hh
  cases e <;> cases hh

theorem show_ok {statement : ShowStatement} {w u : World} {r : QueryResult}
    (h : show_ statement w = (Except.ok r, u)) : u.rel = w.rel := by
  unfold show_ at h
  cases ht : statement.type with
  | kTables =>
    rw [ht] at h
    have := Keeps.show_tables w
    rw [show show_tables w = (Except.ok r, u) from h] at this
    exact this
  | kColumns =>
    rw [ht] at h
    have := Keeps.show_columns statement w
    rw [show show_columns statement w = (Except.ok r, u) from h] at this
    exact this
  | kIndex =>
    rw [ht] at h
    have := Keeps.show_index statement w
    rw [show show_index statement w = (Except.ok r, u) from h] at this
    exact this
  | kOther =>
    rw [ht] at h
    cases h

theorem pure_ok_rel {α : Type} {a b : α} {w u : World}
    (h : (Pure.pure a : M α) w = (Except.ok b, u)) : u.rel = w.rel := by
  rw [Exec.pure_eq] at h
  rw [← (Prod.mk.inj h).2]

theorem create_effect {s : CreateStatement} {w u : World} {r : QueryResult}
    (h : create s w = (Except.ok r, u)) : Effect w (SQLStatement.kStmtCreate s) u := by
  unfold create at h
  cases ht : s.type with
  | kTable =>
    rw [ht] at h
    simp only [Effect, ht]
    exact create_table_ok h
  | kIndex =>
    rw [ht] at h
    simp only [Effect, ht]
    exact create_index_ok h
  | kTableFromTbl =>
    rw [ht] at h
    simp only [Effect, ht]
    exact pure_ok_rel h
  | kView =>
    rw [ht] at h
    simp only [Effect, ht]
    exact pure_ok_rel h

theorem drop_effect {s : DropStatement} {w u : World} {r : QueryResult}
    (h : drop s w = (Except.ok r, u)) : Effect w (SQLStatement.kStmtDrop s) u := by
  unfold drop at h
  cases ht : s.type with
  | kTable =>
    rw [ht] at h
    simp only [Effect, ht]
    obtain ⟨h1, h2, h3, _, h5⟩ := drop_table_ok h
    exact ⟨h1, h2, h3, h5⟩
  | kIndex =>
    rw [ht] at h
    simp only [Effect, ht]
    exact drop_index_ok h
  | kSchema =>
    rw [ht] at h
    simp only [Effect, ht]
    exact pure_ok_rel h
  | kView =>
    rw [ht] at h
    simp only [Effect, ht]
    exact pure_ok_rel h
  | kPreparedStatement =>
    rw [ht] at h
    simp only [Effect, ht]
    exact pure_ok_rel h

theorem execute_effect {statement : SQLStatement} {w u : World} {r : QueryResult}
    (h : execute statement w = (Except.ok r, u)) : Effect w statement u := by
  have h' := execute_ok h
  cases statement with
  | kStmtCreate s => exact create_effect h'
  | kStmtDrop s => exact drop_effect h'
  | kStmtShow s => exact show_ok h'
  | other => exact pure_ok_rel h'

theorem rows_dropped_tables (w : World) (t : Identifier) :
    ((w.dropped t).rel Tables.TABLE_NAME).rows
      = (w.rel Tables.TABLE_NAME).rows.eraseP
          (fun row => ValueDict.matches row (tables_row t)) := by
  have h : (w.dropped t).rel Tables.TABLE_NAME
      = Slots.erase_first_matching (w.rel Tables.TABLE_NAME) (tables_row t) := by
    simp [World.dropped]
  rw [h, rows_erase_first_matching]

theorem rows_dropped_columns (w : World) (t : Identifier) (h2 : t ≠ Columns.TABLE_NAME) :
    ((w.dropped t).rel Columns.TABLE_NAME).rows
      = (w.rel Columns.TABLE_NAME).rows.filter
          (fun row => !ValueDict.matches row (tables_row t)) := by
  have htc : Columns.TABLE_NAME ≠ Tables.TABLE_NAME := by decide
  have h : (w.dropped t).rel Columns.TABLE_NAME
      = Slots.erase_matching (w.rel Columns.TABLE_NAME) (tables_row t) := by
    simp [World.dropped, htc, Ne.symm h2]
  rw [h, rows_erase_matching]

theorem References.created {rows trows : ValueDicts} (h : References rows trows)
    (t : Identifier) (cols : List ColumnDefinition) :
    References (rows ++ cols.map (columns_row t)) (trows ++ [tables_row t]) := by
  intro row hrow
  rcases List.mem_append.1 hrow with hold | hnew
  · obtain ⟨h1, trow, htrow, h2⟩ := h row hold
    exact ⟨h1, trow, List.mem_append_left _ htrow, h2⟩
  · obtain ⟨c, _, rfl⟩ := List.mem_map.1 hnew
    refine ⟨by simp [columns_row, ValueDict.find], tables_row t, by simp, ?_⟩
    simp [columns_row, tables_row, ValueDict.find]

theorem References.dropped {rows trows : ValueDicts} (h : References rows trows)
    (t : Identifier) :
    References (rows.filter (fun row => !ValueDict.matches row (tables_row t)))
      (trows.eraseP (fun row => ValueDict.matches row (tables_row t))) := by
  intro row hrow
  obtain ⟨hmem, hnm⟩ := List.mem_filter.1 hrow
  obtain ⟨h1, trow, htrow, h2⟩ := h row hmem
  refine ⟨h1, trow, ?_, h2⟩
  have hneg : ¬ (ValueDict.matches trow (tables_row t) = true) := by
    intro hm
    rw [matches_tables_row] at hm
    have hm' := of_decide_eq_true hm
    rw [h2] at hm'
    have : ValueDict.matches row (tables_row t) = true := by
      rw [matches_tables_row]
      exact decide_eq_true hm'
    simp [this] at hnm
  exact (List.mem_eraseP_of_neg (a := trow) (l := trows) hneg).2 htrow

theorem ColumnsReferTables.of_rel_columns {w u : World} (h : ColumnsReferTables w)
    (hrel : u.rel = w.rel) : ColumnsReferTables u := by
  unfold ColumnsReferTables at h ⊢
  rw [hrel]
  exact h

theorem ColumnsReferTables.effect_columns {w u : World} {statement : SQLStatement}
    (h : ColumnsReferTables w) (he : Effect w statement u) : ColumnsReferTables u := by
  have hic : Columns.TABLE_NAME ≠ Indices.TABLE_NAME := by decide
  have hit : Tables.TABLE_NAME ≠ Indices.TABLE_NAME := by decide
  cases statement with
  | kStmtCreate s =>
    unfold Effect at he
    cases ht : s.type with
    | kTable =>
      simp only [ht] at he
      unfold ColumnsReferTables at h ⊢
      rw [he, rows_created_tables, rows_created_columns]
      exact h.created _ _
    | kIndex =>
      simp only [ht] at he
      rcases he with he | he
      · exact h.of_rel_columns he
      · unfold ColumnsReferTables at h ⊢
        rw [he]
        simpa [indexed_rel, hic, hit] using h
    | kTableFromTbl =>
      simp only [ht] at he
      exact h.of_rel_columns he
    | kView =>
      simp only [ht] at he
      exact h.of_rel_columns he
  | kStmtDrop s =>
    unfold Effect at he
    cases ht : s.type with
    | kTable =>
      simp only [ht] at he
      obtain ⟨_, h2, _, he⟩ := he
      unfold ColumnsReferTables at h ⊢
      rw [he, rows_dropped_tables, rows_dropped_columns _ _ h2]
      exact h.dropped _
    | kIndex =>
      simp only [ht] at he
      unfold ColumnsReferTables at h ⊢
      rw [he]
      simpa [unindexed_rel, hic, hit] using h
    | kSchema =>
      simp only [ht] at he
      exact h.of_rel_columns he
    | kView =>
      simp only [ht] at he
      exact h.of_rel_columns he
    | kPreparedStatement =>
      simp only [ht] at he
      exact h.of_rel_columns he
  | kStmtShow s => exact h.of_rel_columns he
  | other => exact h.of_rel_columns he

/-! ## C15: every `_columns` row refers to a `_tables` row -/

/-- C15.  If every row of `_columns` has a `table_name` that appears in some
row of `_tables`, and `execute` completes a statement (CREATE TABLE, CREATE
INDEX, DROP TABLE, DROP INDEX, SHOW, or any other) with a result, under any
fault schedule, then the same holds in the world the statement leaves; hence
it holds in every world reachable by such statements from a world in which it
holds. -/
theorem execute_preserves_columns_refer_tables :
    (∀ (statement : SQLStatement) (w u : World) (r : QueryResult),
        ColumnsReferTables w → execute statement w = (Except.ok r, u) →
        ColumnsReferTables u)
      ∧ (∀ w0 w : World, ColumnsReferTables w0 → ReachableFrom any_statement w0 w →
        ColumnsReferTables w) := by
  have step : ∀ (statement : SQLStatement) (w u : World) (r : QueryResult),
      ColumnsReferTables w → execute statement w = (Except.ok r, u) →
      ColumnsReferTables u :=
    fun statement w u r h hx => h.effect_columns (execute_effect hx)
  refine ⟨step, ?_⟩
  intro w0 w h0 hreach
  induction hreach with
  | start => exact h0
  | step w fs statement r u _ _ hx ih => exact step statement (w.with_faults fs) u r ih hx

/-- C15 at `CREATE TABLE t (a INT, b TEXT)` on the initial catalog. -/
theorem execute_preserves_columns_refer_tables_witness :
    ColumnsReferTables (World.initial [])
      ∧ ColumnsReferTables
          (execute (SQLStatement.kStmtCreate create_t_a_b) (World.initial [])).2 :=
  ⟨by decide,
   execute_preserves_columns_refer_tables.1 (SQLStatement.kStmtCreate create_t_a_b)
     (World.initial []) (execute (SQLStatement.kStmtCreate create_t_a_b) (World.initial [])).2
     (QueryResult.ofMessage "created t") (by decide) rfl⟩

theorem References.mono {rows trows trows' : ValueDicts} (h : References rows trows)
    (hsub : ∀ trow ∈ trows, trow ∈ trows') : References rows trows' := by
  intro row hrow
  obtain ⟨h1, trow, htrow, h2⟩ := h row hrow
  exact ⟨h1, trow, hsub trow htrow, h2⟩

theorem References.append {rows rows' trows : ValueDicts} (h : References rows trows)
    (h' : References rows' trows) : References (rows ++ rows') trows := by
  intro row hrow
  rcases List.mem_append.1 hrow with hold | hnew
  · exact h row hold
  · exact h' row hnew

theorem References.filter {rows trows : ValueDicts} (h : References rows trows)
    (p : ValueDict → Bool) : References (rows.filter p) trows :=
  fun row hrow => h row (List.mem_filter.1 hrow).1

theorem References.eraseP {rows trows : ValueDicts} (h : References rows trows)
    (t : Identifier)
    (hno : ∀ row ∈ rows, ValueDict.find row "table_name" ≠ some (Value.TEXT t)) :
    References rows (trows.eraseP (fun row => ValueDict.matches row (tables_row t))) := by
  intro row hrow
  obtain ⟨h1, trow, htrow, h2⟩ := h row hrow
  refine ⟨h1, trow, ?_, h2⟩
  have hneg : ¬ (ValueDict.matches trow (tables_row t) = true) := by
    intro hm
    rw [matches_tables_row] at hm
    have hm' := of_decide_eq_true hm
    rw [h2] at hm'
    exact hno row hrow hm'
  exact (List.mem_eraseP_of_neg (a := trow) (l := trows) hneg).2 htrow

theorem find_table_name_of_mem_zipWith (t i ty : Identifier) (cols : List Identifier)
    (seqs : List Nat) (row : ValueDict)
    (h : row ∈ List.zipWith (indices_row t i ty) cols seqs) :
    ValueDict.find row "table_name" = some (Value.TEXT t) := by
  induction cols generalizing seqs with
  | nil => simp at h
  | cons c cols ih =>
    cases seqs with
    | nil => simp at h
    | cons q seqs =>
      rw [List.zipWith_cons_cons] at h
      rcases List.mem_cons.1 h with h | h
      · rw [h]
        simp [indices_row, ValueDict.find]
      · exact ih seqs h

theorem rows_indexed_rel (w : World) (s : CreateStatement) :
    (indexed_rel w s Indices.TABLE_NAME).rows
      = (w.rel Indices.TABLE_NAME).rows
        ++ List.zipWith (indices_row s.tableName s.indexName s.indexType) s.indexColumns
            (seq_values 0 s.indexColumns.length) := by
  have h : indexed_rel w s Indices.TABLE_NAME
      = w.rel Indices.TABLE_NAME
        ++ List.zipWith (fun c seq => some (indices_row s.tableName s.indexName
            s.indexType c seq)) s.indexColumns (seq_values 0 s.indexColumns.length) := by
    simp [indexed_rel]
  rw [h, Slots.rows_append,
    Slots.rows_zipWith_some (indices_row s.tableName s.indexName s.indexType)]

theorem rel_indexed_other (w : World) (s : CreateStatement) (n : Identifier)
    (h : n ≠ Indices.TABLE_NAME) : indexed_rel w s n = w.rel n := by
  simp [indexed_rel, h]

theorem rows_unindexed_rel (w : World) (s : DropStatement) :
    (unindexed_rel w s Indices.TABLE_NAME).rows
      = (w.rel Indices.TABLE_NAME).rows.filter
          (fun row => !ValueDict.matches row (index_where s.name s.indexName)) := by
  have h : unindexed_rel w s Indices.TABLE_NAME
      = Slots.erase_matching (w.rel Indices.TABLE_NAME) (index_where s.name s.indexName) := by
    simp [unindexed_rel]
  rw [h, rows_erase_matching]

theorem rel_unindexed_other (w : World) (s : DropStatement) (n : Identifier)
    (h : n ≠ Indices.TABLE_NAME) : unindexed_rel w s n = w.rel n := by
  simp [unindexed_rel, h]

theorem rows_dropped_indices (w : World) (t : Identifier) :
    ((w.dropped t).rel Indices.TABLE_NAME).rows
      = if t = Indices.TABLE_NAME then [] else (w.rel Indices.TABLE_NAME).rows := by
  have hit : Indices.TABLE_NAME ≠ Tables.TABLE_NAME := by decide
  have hic : Indices.TABLE_NAME ≠ Columns.TABLE_NAME := by decide
  by_cases h : t = Indices.TABLE_NAME
  · rw [if_pos h]
    have hr : (w.dropped t).rel Indices.TABLE_NAME = [] := by
      simp [World.dropped, h, hit]
    rw [hr]
    rfl
  · rw [if_neg h, rel_dropped_other w t Indices.TABLE_NAME hit hic (Ne.symm h)]

theorem IndicesReferTables.of_rel_indices {w u : World} (h : IndicesReferTables w)
    (hrel : u.rel = w.rel) : IndicesReferTables u := by
  unfold IndicesReferTables at h ⊢
  rw [hrel]
  exact h

theorem IndicesReferTables.effect_indices {w u : World} {statement : SQLStatement}
    (h : IndicesReferTables w) (ha : refers_to_listed_tables w statement)
    (he : Effect w statement u) : IndicesReferTables u := by
  have hit : Indices.TABLE_NAME ≠ Tables.TABLE_NAME := by decide
  have hic : Indices.TABLE_NAME ≠ Columns.TABLE_NAME := by decide
  have hti : Tables.TABLE_NAME ≠ Indices.TABLE_NAME := by decide
  cases statement with
  | kStmtCreate s =>
    unfold Effect at he
    cases ht : s.type with
    | kTable =>
      simp only [ht] at he
      unfold IndicesReferTables at h ⊢
      rw [he, rows_created_tables, rel_created_other _ _ _ _ hit hic]
      exact h.mono (fun trow htrow => List.mem_append_left _ htrow)
    | kIndex =>
      simp only [ht] at he
      rcases he with he | he
      · exact h.of_rel_indices he
      · obtain ⟨trow, htrow, hfind⟩ := ha ht
        unfold IndicesReferTables at h ⊢
        rw [he, rows_indexed_rel, rel_indexed_other _ _ _ hti]
        refine h.append ?_
        intro row hrow
        have hr := find_table_name_of_mem_zipWith _ _ _ _ _ row hrow
        exact ⟨by rw [hr]; rfl, trow, htrow, by rw [hr, hfind]⟩
    | kTableFromTbl =>
      simp only [ht] at he
      exact h.of_rel_indices he
    | kView =>
      simp only [ht] at he
      exact h.of_rel_indices he
  | kStmtDrop s =>
    unfold Effect at he
    cases ht : s.type with
    | kTable =>
      simp only [ht] at he
      obtain ⟨_, _, _, he⟩ := he
      have hno := ha ht
      unfold IndicesReferTables at h ⊢
      rw [he, rows_dropped_tables, rows_dropped_indices]
      by_cases hi : s.name = Indices.TABLE_NAME
      · rw [if_pos hi]
        intro row hrow
        cases hrow
      · rw [if_neg hi]
        exact h.eraseP _ hno
    | kIndex =>
      simp only [ht] at he
      unfold IndicesReferTables at h ⊢
      rw [he, rows_unindexed_rel, rel_unindexed_other _ _ _ hti]
      exact h.filter _
    | kSchema =>
      simp only [ht] at he
      exact h.of_rel_indices he
    | kView =>
      simp only [ht] at he
      exact h.of_rel_indices he
    | kPreparedStatement =>
      simp only [ht] at he
      exact h.of_rel_indices he
  | kStmtShow s => exact h.of_rel_indices he
  | other => exact h.of_rel_indices he

theorem IndicesReferTables.reachable_indices {w0 w : World} (h0 : IndicesReferTables w0)
    (h : ReachableFrom refers_to_listed_tables w0 w) : IndicesReferTables w := by
  induction h with
  | start => exact h0
  | step w fs statement r u _ ha hx ih =>
    have ih' : IndicesReferTables (w.with_faults fs) := ih
    have ha' : refers_to_listed_tables (w.with_faults fs) statement := ha
    exact ih'.effect_indices ha' (execute_effect hx)

theorem indicesReferTables_initial (fs : List (Option Error)) :
    IndicesReferTables (World.initial fs) := by
  intro row hrow
  have hit : Indices.TABLE_NAME ≠ Tables.TABLE_NAME := by decide
  have : (World.initial fs).rel Indices.TABLE_NAME = [] := by simp [World.initial, hit]
  rw [this] at hrow
  cases hrow

/-! ## C12: every `_indices` row refers to a `_tables` row -/

/-- C12 as stated fails.  From the initial catalog, `CREATE INDEX idx ON t
(b, a)` completes although `_tables` has no row of `t`, and leaves two rows of
`_indices` that name `t`; and `CREATE TABLE t (a INT, b TEXT)`, the same
CREATE INDEX, then `DROP TABLE t` all complete and leave the two `_indices`
rows of `t` while the `_tables` row of `t` is gone. -/
theorem indices_refer_tables_fails :
    (ReachableFrom any_statement (World.initial [])
        ((World.initial []).after (SQLStatement.kStmtCreate create_idx_b_a))
      ∧ ¬ IndicesReferTables
          ((World.initial []).after (SQLStatement.kStmtCreate create_idx_b_a)))
    ∧ (ReachableFrom any_statement (World.initial [])
        ((((World.initial []).after (SQLStatement.kStmtCreate create_t_a_b)).after
          (SQLStatement.kStmtCreate create_idx_b_a)).after
            (SQLStatement.kStmtDrop (drop_table_of "t")))
      ∧ ¬ IndicesReferTables
        ((((World.initial []).after (SQLStatement.kStmtCreate create_t_a_b)).after
          (SQLStatement.kStmtCreate create_idx_b_a)).after
            (SQLStatement.kStmtDrop (drop_table_of "t")))) :=
  ⟨⟨ReachableFrom.step (World.initial []) [] (SQLStatement.kStmtCreate create_idx_b_a)
      (QueryResult.ofMessage "created index idx") _ ReachableFrom.start trivial rfl,
    by decide⟩,
   ⟨ReachableFrom.step _ [] (SQLStatement.kStmtDrop (drop_table_of "t"))
      (QueryResult.ofMessage "dropped t") _
      (ReachableFrom.step _ [] (SQLStatement.kStmtCreate create_idx_b_a)
        (QueryResult.ofMessage "created index idx") _
        (ReachableFrom.step (World.initial []) [] (SQLStatement.kStmtCreate create_t_a_b)
          (QueryResult.ofMessage "created t") _ ReachableFrom.start trivial rfl)
        trivial rfl)
      trivial rfl,
    by decide⟩⟩

/-- C12, amended.  In every world reachable from the initial catalog by
statements that `execute` completed with a result, under any fault schedules,
where every CREATE INDEX named a table that had a row in `_tables` when it ran
and every DROP TABLE named a table that no row of `_indices` referred to when
it ran, every row of `_indices` has a `table_name` that appears in some row of
`_tables`. -/
theorem indices_refer_listed_tables (fs : List (Option Error)) (w : World)
    (h : ReachableFrom refers_to_listed_tables (World.initial fs) w) :
    IndicesReferTables w :=
  (indicesReferTables_initial fs).reachable_indices h

/-- C12, amended, at `CREATE TABLE t (a INT, b TEXT)` followed by `CREATE
INDEX idx ON t (b, a)` on the initial catalog. -/
theorem indices_refer_listed_tables_witness :
    ReachableFrom refers_to_listed_tables (World.initial [])
        (((World.initial []).after (SQLStatement.kStmtCreate create_t_a_b)).after
          (SQLStatement.kStmtCreate create_idx_b_a))
      ∧ IndicesReferTables
        (((World.initial []).after (SQLStatement.kStmtCreate create_t_a_b)).after
          (SQLStatement.kStmtCreate create_idx_b_a)) :=
  have hreach : ReachableFrom refers_to_listed_tables (World.initial [])
      (((World.initial []).after (SQLStatement.kStmtCreate create_t_a_b)).after
        (SQLStatement.kStmtCreate create_idx_b_a)) :=
    ReachableFrom.step _ [] (SQLStatement.kStmtCreate create_idx_b_a)
      (QueryResult.ofMessage "created index idx") _
      (ReachableFrom.step (World.initial []) [] (SQLStatement.kStmtCreate create_t_a_b)
        (QueryResult.ofMessage "created t") _ ReachableFrom.start
        (fun h => nomatch h) rfl)
      (fun _ => ⟨tables_row "t", by decide, rfl⟩) rfl
  ⟨hreach, indices_refer_listed_tables [] _ hreach⟩

theorem NoBootstrapIndex.of_rel_bootstrap {w u : World} (h : NoBootstrapIndex w)
    (hrel : u.rel = w.rel) : NoBootstrapIndex u := by
  unfold NoBootstrapIndex at h ⊢
  rw [hrel]
  exact h

theorem NoBootstrapIndex.effect_bootstrap {w u : World} {statement : SQLStatement}
    (h : NoBootstrapIndex w) (ha : spares_bootstrap_relations w statement)
    (he : Effect w statement u) : NoBootstrapIndex u := by
  have hit : Indices.TABLE_NAME ≠ Tables.TABLE_NAME := by decide
  have hic : Indices.TABLE_NAME ≠ Columns.TABLE_NAME := by decide
  cases statement with
  | kStmtCreate s =>
    unfold Effect at he
    cases ht : s.type with
    | kTable =>
      simp only [ht] at he
      unfold NoBootstrapIndex at h ⊢
      rw [he, rel_created_other _ _ _ _ hit hic]
      exact h
    | kIndex =>
      simp only [ht] at he
      rcases he with he | he
      · exact h.of_rel_bootstrap he
      · obtain ⟨h1, h2, h3⟩ := ha ht
        unfold NoBootstrapIndex at h ⊢
        rw [he, rows_indexed_rel]
        intro row hrow
        rcases List.mem_append.1 hrow with hold | hnew
        · exact h row hold
        · rw [find_table_name_of_mem_zipWith _ _ _ _ _ row hnew]
          exact ⟨fun e => h1 (Value.TEXT.inj (Option.some.inj e)),
            fun e => h2 (Value.TEXT.inj (Option.some.inj e)),
            fun e => h3 (Value.TEXT.inj (Option.some.inj e))⟩
    | kTableFromTbl =>
      simp only [ht] at he
      exact h.of_rel_bootstrap he
    | kView =>
      simp only [ht] at he
      exact h.of_rel_bootstrap he
  | kStmtDrop s =>
    unfold Effect at he
    cases ht : s.type with
    | kTable =>
      simp only [ht] at he
      obtain ⟨_, _, _, he⟩ := he
      unfold NoBootstrapIndex at h ⊢
      rw [he, rows_dropped_indices]
      by_cases hi : s.name = Indices.TABLE_NAME
      · rw [if_pos hi]
        intro row hrow
        cases hrow
      · rw [if_neg hi]
        exact h
    | kIndex =>
      simp only [ht] at he
      unfold NoBootstrapIndex at h ⊢
      rw [he, rows_unindexed_rel]
      exact fun row hrow => h row (List.mem_filter.1 hrow).1
    | kSchema =>
      simp only [ht] at he
      exact h.of_rel_bootstrap he
    | kView =>
      simp only [ht] at he
      exact h.of_rel_bootstrap he
    | kPreparedStatement =>
      simp only [ht] at he
      exact h.of_rel_bootstrap he
  | kStmtShow s => exact h.of_rel_bootstrap he
  | other => exact h.of_rel_bootstrap he

theorem NoBootstrapIndex.reachable_bootstrap {w0 w : World} (h0 : NoBootstrapIndex w0)
    (h : ReachableFrom spares_bootstrap_relations w0 w) : NoBootstrapIndex w := by
  induction h with
  | start => exact h0
  | step w fs statement r u _ ha hx ih =>
    have ih' : NoBootstrapIndex (w.with_faults fs) := ih
    have ha' : spares_bootstrap_relations (w.with_faults fs) statement := ha
    exact ih'.effect_bootstrap ha' (execute_effect hx)

theorem noBootstrapIndex_initial (fs : List (Option Error)) :
    NoBootstrapIndex (World.initial fs) := by
  intro row hrow
  have hit : Indices.TABLE_NAME ≠ Tables.TABLE_NAME := by decide
  have : (World.initial fs).rel Indices.TABLE_NAME = [] := by simp [World.initial, hit]
  rw [this] at hrow
  cases hrow

/-! ## C13: bootstrap relations and indices -/

/-- C13 as stated fails.  On the initial catalog `CREATE INDEX idx ON _tables
(table_name)` completes with the result "created index idx" and adds to
`_indices` the row of index `idx` on `_tables`, so that a reachable world
holds an `_indices` row that names a bootstrap relation. -/
theorem create_index_on_bootstrap_adds_row :
    execute (SQLStatement.kStmtCreate create_idx_on_tables) (World.initial [])
        = (Except.ok (QueryResult.ofMessage "created index idx"),
            (World.initial []).after (SQLStatement.kStmtCreate create_idx_on_tables))
      ∧ (((World.initial []).after (SQLStatement.kStmtCreate create_idx_on_tables)).rel
          Indices.TABLE_NAME).rows
        = [indices_row Tables.TABLE_NAME "idx" "BTREE" "table_name" 1]
      ∧ ReachableFrom any_statement (World.initial [])
          ((World.initial []).after (SQLStatement.kStmtCreate create_idx_on_tables))
      ∧ ¬ NoBootstrapIndex
          ((World.initial []).after (SQLStatement.kStmtCreate create_idx_on_tables)) :=
  ⟨rfl, rfl,
   ReachableFrom.step (World.initial []) [] (SQLStatement.kStmtCreate create_idx_on_tables)
     (QueryResult.ofMessage "created index idx") _ ReachableFrom.start trivial rfl,
   by decide⟩

/-- C13, amended.  In every world reachable from the initial catalog by
statements that `execute` completed with a result, under any fault schedules,
none of them a CREATE INDEX whose table is `_tables`, `_columns` or
`_indices`, no row of `_indices` has a `table_name` equal to one of the three
bootstrap relation names. -/
theorem no_bootstrap_index_reachable (fs : List (Option Error)) (w : World)
    (h : ReachableFrom spares_bootstrap_relations (World.initial fs) w) :
    NoBootstrapIndex w :=
  (noBootstrapIndex_initial fs).reachable_bootstrap h

/-- C13, amended, at `CREATE TABLE t (a INT, b TEXT)` followed by `CREATE
INDEX idx ON t (b, a)` on the initial catalog. -/
theorem no_bootstrap_index_reachable_witness :
    ReachableFrom spares_bootstrap_relations (World.initial [])
        (((World.initial []).after (SQLStatement.kStmtCreate create_t_a_b)).after
          (SQLStatement.kStmtCreate create_idx_b_a))
      ∧ NoBootstrapIndex
        (((World.initial []).after (SQLStatement.kStmtCreate create_t_a_b)).after
          (SQLStatement.kStmtCreate create_idx_b_a)) :=
  have hreach : ReachableFrom spares_bootstrap_relations (World.initial [])
      (((World.initial []).after (SQLStatement.kStmtCreate create_t_a_b)).after
        (SQLStatement.kStmtCreate create_idx_b_a)) :=
    ReachableFrom.step _ [] (SQLStatement.kStmtCreate create_idx_b_a)
      (QueryResult.ofMessage "created index idx") _
      (ReachableFrom.step (World.initial []) [] (SQLStatement.kStmtCreate create_t_a_b)
        (QueryResult.ofMessage "created t") _ ReachableFrom.start
        (fun h => nomatch h) rfl)
      (fun _ => by decide) rfl
  ⟨hreach, no_bootstrap_index_reachable [] _ hreach⟩

theorem countP_eraseP_add_one {α : Type} (p : α → Bool) (l : List α)
    (h : ∃ a ∈ l, p a = true) : (l.eraseP p).countP p + 1 = l.countP p := by
  induction l with
  | nil =>
    obtain ⟨a, ha, _⟩ := h
    cases ha
  | cons x l ih =>
    by_cases hx : p x = true
    · rw [List.eraseP_cons_of_pos hx, List.countP_cons_of_pos _ _ hx]
    · have hl : ∃ a ∈ l, p a = true := by
        obtain ⟨a, ha, hpa⟩ := h
        rcases List.mem_cons.1 ha with rfl | ha
        · exact absurd hpa hx
        · exact ⟨a, ha, hpa⟩
      rw [List.eraseP_cons_of_neg hx, List.countP_cons_of_neg _ _ hx,
        List.countP_cons_of_neg _ _ hx]
      exact ih hl

/-! ## C20: `drop_table` removes one `_tables` row -/

/-- C20 as stated fails for `_indices`.  In a catalog whose `_tables` holds
one row named `_indices` and whose `_indices` holds the two rows of the index
`idx` on `t`, `DROP TABLE _indices` completes with "dropped _indices" and
leaves `_indices` without any row. -/
theorem drop_table_indices_changes_indices :
    ((World.with_idx []).rel Tables.TABLE_NAME).rows.countP
        (fun row => ValueDict.matches row (tables_row Indices.TABLE_NAME)) = 1
      ∧ drop_table (drop_table_of Indices.TABLE_NAME) (World.with_idx [])
        = (Except.ok (QueryResult.ofMessage "dropped _indices"),
            (drop_table (drop_table_of Indices.TABLE_NAME) (World.with_idx [])).2)
      ∧ ((World.with_idx []).rel Indices.TABLE_NAME).rows
        = [indices_row "t" "idx" "BTREE" "b" 1, indices_row "t" "idx" "BTREE" "a" 2]
      ∧ ((drop_table (drop_table_of Indices.TABLE_NAME) (World.with_idx [])).2.rel
          Indices.TABLE_NAME).rows = [] :=
  ⟨by decide, rfl, rfl, rfl⟩

/-- C20, amended.  For every table name `t` that is neither `_tables` nor
`_columns` and every world whose `_tables` holds at least one row named `t`:
when no call into the relation layer raises, `drop_table t` returns "dropped
t"; and whenever `drop_table t` returns a result, the rows of `_columns` it
leaves are those whose `table_name` is not `t`, the rows of `_tables` it leaves
are the former ones without the first row named `t`, so that one row named `t`
fewer is left, and `_indices` is unchanged when `t` is not `_indices` and is
left without any row when `t` is `_indices`. -/
theorem drop_table_removes_one_tables_row (statement : DropStatement) (w : World)
    (h1 : statement.name ≠ Tables.TABLE_NAME) (h2 : statement.name ≠ Columns.TABLE_NAME)
    (hk : 1 ≤ (w.rel Tables.TABLE_NAME).rows.countP
      (fun row => ValueDict.matches row (tables_row statement.name))) :
    (NoFaults w.faults →
        (drop_table statement w).1
          = Except.ok (QueryResult.ofMessage ("dropped " ++ statement.name)))
      ∧ ∀ (r : QueryResult) (u : World), drop_table statement w = (Except.ok r, u) →
        (u.rel Columns.TABLE_NAME).rows
            = (w.rel Columns.TABLE_NAME).rows.filter
                (fun row => !ValueDict.matches row (tables_row statement.name))
          ∧ (u.rel Tables.TABLE_NAME).rows
            = (w.rel Tables.TABLE_NAME).rows.eraseP
                (fun row => ValueDict.matches row (tables_row statement.name))
          ∧ (u.rel Tables.TABLE_NAME).rows.countP
                (fun row => ValueDict.matches row (tables_row statement.name)) + 1
            = (w.rel Tables.TABLE_NAME).rows.countP
                (fun row => ValueDict.matches row (tables_row statement.name))
          ∧ (statement.name ≠ Indices.TABLE_NAME →
              u.rel Indices.TABLE_NAME = w.rel Indices.TABLE_NAME)
          ∧ (statement.name = Indices.TABLE_NAME → u.rel Indices.TABLE_NAME = []) := by
  have hit : Indices.TABLE_NAME ≠ Tables.TABLE_NAME := by decide
  have hic : Indices.TABLE_NAME ≠ Columns.TABLE_NAME := by decide
  have hrow : ∃ row ∈ (w.rel Tables.TABLE_NAME).rows,
      ValueDict.matches row (tables_row statement.name) = true :=
    List.countP_pos_iff.1 hk
  refine ⟨fun hq => ?_, ?_⟩
  · rw [drop_table_quiet statement w h1 h2 hq hrow]
  · intro r u h
    obtain ⟨_, _, _, _, hrel⟩ := drop_table_ok h
    rw [hrel, rows_dropped_tables, rows_dropped_columns _ _ h2]
    refine ⟨rfl, rfl, countP_eraseP_add_one _ _ hrow, ?_, ?_⟩
    · intro hi
      exact rel_dropped_other w _ _ hit hic (Ne.symm hi)
    · intro hi
      simp [World.dropped, hi, hit]

/-- C20, amended, at `DROP TABLE t` on a catalog whose `_tables` holds one row
named `t` and whose `_indices` holds the two rows of the index `idx` on
`t`. -/
theorem drop_table_removes_one_tables_row_witness :
    1 ≤ ((World.with_idx []).rel Tables.TABLE_NAME).rows.countP
        (fun row => ValueDict.matches row (tables_row (drop_table_of "t").name))
      ∧ (drop_table (drop_table_of "t") (World.with_idx [])).1
          = Except.ok (QueryResult.ofMessage ("dropped " ++ (drop_table_of "t").name))
      ∧ ((drop_table (drop_table_of "t") (World.with_idx [])).2.rel Tables.TABLE_NAME).rows
        = ((World.with_idx []).rel Tables.TABLE_NAME).rows.eraseP
            (fun row => ValueDict.matches row (tables_row (drop_table_of "t").name))
      ∧ (drop_table (drop_table_of "t") (World.with_idx [])).2.rel Indices.TABLE_NAME
        = (World.with_idx []).rel Indices.TABLE_NAME :=
  ⟨by decide,
   (drop_table_removes_one_tables_row (drop_table_of "t") (World.with_idx [])
     (by decide) (by decide) (by decide)).1 (by decide),
   ((drop_table_removes_one_tables_row (drop_table_of "t") (World.with_idx [])
     (by decide) (by decide) (by decide)).2
       (QueryResult.ofMessage "dropped t")
       (drop_table (drop_table_of "t") (World.with_idx [])).2 rfl).2.1,
   ((drop_table_removes_one_tables_row (drop_table_of "t") (World.with_idx [])
     (by decide) (by decide) (by decide)).2
       (QueryResult.ofMessage "dropped t")
       (drop_table (drop_table_of "t") (World.with_idx [])).2 rfl).2.2.2.1 (by decide)⟩

end SQLExec
